import Mathlib

set_option maxRecDepth 20000
set_option maxHeartbeats 4000000

/-!
Verification of the `aframe-troika-text` bundle (`dist/aframe-troika-text.js`):
shallow embedding of its bidi resolver (UAX#9 `getEmbeddingLevels`,
`getReorderSegments`, `getReorderedIndices`, `getMirroredCharacter`), the SDF
glyph machinery (`createGlyphSegmentsIndex`, `generateSDF` texel encoding), the
glyph-atlas allocation step and the justify alignment step of the layout
engine's `process`, together with theorems about the specified properties.

Conventions used throughout:
* JS strings are `List Nat` of code units / code points (all the characters the
  claims exercise are in the BMP, where `codePointAt(0)` on the single-unit
  slice `string[i]` is the unit itself).
* JS `Map` objects are association lists; `Map.set` prepends, so `List.find?`
  (first match) realizes the latest-write-wins lookup; for the lazily parsed
  character-type table the per-codepoint writes of one encoded range are kept
  as one `(lo, hi, flag)` triple and the lookup takes the last matching triple,
  which is the same latest-write-wins semantics.
* JS numbers are `Nat`/`Int` where the source only holds integers and `Rat`
  where the source computes with fractions.
* The lazily built static tables (`parseData`, `parse$1`, `parse`) are pure
  functions of constant strings; the parsers are embedded faithfully below and
  each parsed table is additionally pinned as an explicit literal with a
  `decide` theorem proving the pinned literal equal to the parser output, so
  that later concrete evaluations do not re-run the parser at every lookup.
-/

namespace TroikaText

/-! ## Generic helpers for the encoded-table parsers -/

/-- Split a character list on commas (model of `String.prototype.split(',')`,
written with an accumulator so kernel reduction stays iterative). -/
def splitOnCommaAux : List Char → List Char → List (List Char) → List (List Char)
  | [], cur, acc => (cur.reverse :: acc).reverse
  | c :: rest, cur, acc =>
    if c = ',' then splitOnCommaAux rest [] (cur.reverse :: acc)
    else splitOnCommaAux rest (c :: cur) acc

/-- Split a character list on commas. -/
def splitOnComma (l : List Char) : List (List Char) := splitOnCommaAux l [] []

/-- Split a character list at the first occurrence of the given separator,
returning the part before it and the part after it (the part after is empty
when the separator does not occur, matching how `split` results are consumed
by the parsers: `[a, b]` with `b` possibly `undefined` → empty). -/
def splitFirstAux (sep : Char) : List Char → List Char → List Char × List Char
  | [], acc => (acc.reverse, [])
  | c :: rest, acc =>
    if c = sep then (acc.reverse, rest) else splitFirstAux sep rest (c :: acc)

/-- Split at the first occurrence of a separator character. -/
def splitFirst (sep : Char) (l : List Char) : List Char × List Char :=
  splitFirstAux sep l []

/-- Value of one base-36 digit (the data uses `0-9a-z`). -/
def digit36 (c : Char) : Nat :=
  if c.toNat ≤ 57 then c.toNat - 48 else c.toNat - 87

/-- `parseInt(s, 36)` for an unsigned base-36 numeral. -/
def parseInt36Nat (l : List Char) : Nat :=
  l.foldl (fun acc c => acc * 36 + digit36 c) 0

/-- `parseInt(s, 36)` including an optional leading minus sign. -/
def parseInt36 : List Char → Int
  | '-' :: rest => -(parseInt36Nat rest : Int)
  | l => (parseInt36Nat l : Int)

/-- Decimal value of a `"+<digits>"` repetition entry (JS coerces it with the
unary plus, i.e. decimal `Number("+5") = 5`). -/
def parsePlusDecimal : List Char → Nat
  | '+' :: rest => rest.foldl (fun acc c => acc * 10 + (c.toNat - 48)) 0
  | _ => 0

/-! ## Bidi character type table (`DATA`, `parseData`, `getBidiCharType`) -/

/-- Encoded bidi character type data for class R (source `DATA.R`). -/
def dataR : String := "13k,1a,2,3,3,2+1j,ch+16,a+1,5+2,2+n,5,a,4,6+16,4+3,h+1b,4mo,179q,2+9,2+11,2i9+7y,2+68,4,3+4,5+13,4+3,2+4k,3+29,8+cf,1t+7z,w+17,3+3m,1t+3z,16o1+5r,8+30,8+mc,29+1r,29+4v,75+73"

/-- Encoded bidi character type data for class EN (source `DATA.EN`). -/
def dataEN : String := "1c+9,3d+1,6,187+9,513,4+5,7+9,sf+j,175h+9,qw+q,161f+1d,4xt+a,25i+9"

/-- Encoded bidi character type data for class ES (source `DATA.ES`). -/
def dataES : String := "17,2,6dp+1,f+1,av,16vr,mx+1,4o,2"

/-- Encoded bidi character type data for class ET (source `DATA.ET`). -/
def dataET : String := "z+2,3h+3,b+1,ym,3e+1,2o,p4+1,8,6u,7c,g6,1wc,1n9+4,30+1b,2n,6d,qhx+1,h0m,a+1,49+2,63+1,4+1,6bb+3,12jj"

/-- Encoded bidi character type data for class AN (source `DATA.AN`). -/
def dataAN : String := "16o+5,2j+9,2+1,35,ed,1ff2+9,87+u"

/-- Encoded bidi character type data for class CS (source `DATA.CS`). -/
def dataCS : String := "18,2+1,b,2u,12k,55v,l,17v0,2,3,53,2+1,b"

/-- Encoded bidi character type data for class B (source `DATA.B`). -/
def dataB : String := "a,3,f+2,2v,690"

/-- Encoded bidi character type data for class S (source `DATA.S`). -/
def dataS : String := "9,2,k"

/-- Encoded bidi character type data for class WS (source `DATA.WS`). -/
def dataWS : String := "c,k,4f4,1vk+a,u,1j,335"

/-- Encoded bidi character type data for class ON (source `DATA.ON`). -/
def dataON : String := "x+1,4+4,h+5,r+5,r+3,z,5+3,2+1,2+1,5,2+2,3+4,o,w,ci+1,8+d,3+d,6+8,2+g,39+1,9,6+1,2,33,b8,3+1,3c+1,7+1,5r,b,7h+3,sa+5,2,3i+6,jg+3,ur+9,2v,ij+1,9g+9,7+a,8m,4+1,49+x,14u,2+2,c+2,e+2,e+2,e+1,i+n,e+e,2+p,u+2,e+2,36+1,2+3,2+1,b,2+2,6+5,2,2,2,h+1,5+4,6+3,3+f,16+2,5+3l,3+81,1y+p,2+40,q+a,m+13,2r+ch,2+9e,75+hf,3+v,2+2w,6e+5,f+6,75+2a,1a+p,2+2g,d+5x,r+b,6+3,4+o,g,6+1,6+2,2k+1,4,2j,5h+z,1m+1,1e+f,t+2,1f+e,d+3,4o+3,2s+1,w,535+1r,h3l+1i,93+2,2s,b+1,3l+x,2v,4g+3,21+3,kz+1,g5v+1,5a,j+9,n+v,2,3,2+8,2+1,3+2,2,3,46+1,4+4,h+5,r+5,r+a,3h+2,4+6,b+4,78,1r+24,4+c,4,1hb,ey+6,103+j,16j+c,1ux+7,5+g,fsh,jdq+1t,4,57+2e,p1,1m,1m,1m,1m,4kt+1,7j+17,5+2r,d+e,3+e,2+e,2+10,m+4,w,1n+5,1q,4z+5,4b+rb,9+c,4+c,4+37,d+2g,8+b,l+b,5+1j,9+9,7+13,9+t,3+1,27+3c,2+29,2+3q,d+d,3+4,4+2,6+6,a+o,8+6,a+2,e+6,16+42,2+1i"

/-- Encoded bidi character type data for class BN (source `DATA.BN`). -/
def dataBN : String := "0+8,6+d,2s+5,2+p,e,4m9,1kt+2,2b+5,5+5,17q9+v,7k,6p+8,6+1,119d+3,440+7,96s+1,1ekf+1,1ekf+1,1ekf+1,1ekf+1,1ekf+1,1ekf+1,1ekf+1,1ekf+1,1ekf+1,1ekf+1,1ekf+1,1ekf+75,6p+2rz,1ben+1,1ekf+1,1ekf+1"

/-- Encoded bidi character type data for class NSM (source `DATA.NSM`). -/
def dataNSM : String := "lc+33,7o+6,7c+18,2,2+1,2+1,2,21+a,1d+k,h,2u+6,3+5,3+1,2+3,10,v+q,2k+a,1n+8,a,p+3,2+8,2+2,2+4,18+2,3c+e,2+v,1k,2,5+7,5,4+6,b+1,u,1n,5+3,9,l+1,r,3+1,1m,5+1,5+1,3+2,4,v+1,4,c+1,1m,5+4,2+1,5,l+1,n+5,2,1n,3,2+3,9,8+1,c+1,v,1q,d,1f,4,1m+2,6+2,2+3,8+1,c+1,u,1n,g+1,l+1,t+1,1m+1,5+3,9,l+1,u,21,8+2,2,2j,3+6,d+7,2r,3+8,c+5,23+1,s,2,2,1k+d,2+4,2+1,6+a,2+z,a,2v+3,2+5,2+1,3+1,q+1,5+2,h+3,e,3+1,7,g,jk+2,qb+2,u+2,u+1,v+1,1t+1,2+6,9,3+a,a,1a+2,3c+1,z,3b+2,5+1,a,7+2,64+1,3,1n,2+6,2,2,3+7,7+9,3,1d+g,1s+3,1d,2+4,2,6,15+8,d+1,x+3,3+1,2+2,1l,2+1,4,2+2,1n+7,3+1,49+2,2+c,2+6,5,7,4+1,5j+1l,2+4,k1+w,2db+2,3y,2p+v,ff+3,30+1,n9x+3,2+9,x+1,29+1,7l,4,5,q+1,6,48+1,r+h,e,13+7,q+a,1b+2,1d,3+3,3+1,14,1w+5,3+1,3+1,d,9,1c,1g,2+2,3+1,6+1,2,17+1,9,6n,3,5,fn5,ki+f,h+f,r2,6b,46+4,1af+2,2+1,6+3,15+2,5,4m+1,fy+3,as+1,4a+a,4x,1j+e,1l+2,1e+3,3+1,1y+2,11+4,2+7,1r,d+1,1h+8,b+3,3,2o+2,3,2+1,7,4h,4+7,m+1,1m+1,4,12+6,4+4,5g+7,3+2,2,o,2d+5,2,5+1,2+1,6n+3,7+1,2+1,s+1,2e+7,3,2+1,2z,2,3+5,2,2u+2,3+3,2+4,78+8,2+1,75+1,2,5,41+3,3+1,5,x+5,3+1,15+5,3+3,9,a+5,3+2,1b+c,2+1,bb+6,2+5,2d+l,3+6,2+1,2+1,3f+5,4,2+1,2+6,2,21+1,4,2,9o+1,f0c+4,1o+6,t5,1s+3,2a,f5l+1,43t+2,i+7,3+6,v+3,45+2,1j0+1i,5+1d,9,f,n+4,2+e,11t+6,2+g,3+6,2+1,2+4,7a+6,c6+3,15t+6,32+6,gzhy+6n"

/-- Encoded bidi character type data for class AL (source `DATA.AL`). -/
def dataAL : String := "16w,3,2,e+1b,z+2,2+2s,g+1,8+1,b+m,2+t,s+2i,c+e,4h+f,1d+1e,1bwe+dp,3+3z,x+c,2+1,35+3y,2rm+z,5+7,b+5,dt+l,c+u,17nl+27,1t+27,4x+6n,3+d"

/-- Encoded bidi character type data for class LRO (source `DATA.LRO`). -/
def dataLRO : String := "6ct"

/-- Encoded bidi character type data for class RLO (source `DATA.RLO`). -/
def dataRLO : String := "6cu"

/-- Encoded bidi character type data for class LRE (source `DATA.LRE`). -/
def dataLRE : String := "6cq"

/-- Encoded bidi character type data for class RLE (source `DATA.RLE`). -/
def dataRLE : String := "6cr"

/-- Encoded bidi character type data for class PDF (source `DATA.PDF`). -/
def dataPDF : String := "6cs"

/-- Encoded bidi character type data for class LRI (source `DATA.LRI`). -/
def dataLRI : String := "6ee"

/-- Encoded bidi character type data for class RLI (source `DATA.RLI`). -/
def dataRLI : String := "6ef"

/-- Encoded bidi character type data for class FSI (source `DATA.FSI`). -/
def dataFSI : String := "6eg"

/-- Encoded bidi character type data for class PDI (source `DATA.PDI`). -/
def dataPDI : String := "6eh"

/-- Bit flags for the bidi character types.  `TYPES.L = 1` and the remaining
flags are `1 <<< (i + 1)` in the `DATA` key order `R, EN, ES, ET, AN, CS, B,
S, WS, ON, BN, NSM, AL, LRO, RLO, LRE, RLE, PDF, LRI, RLI, FSI, PDI`. -/
def TYPE_L : Nat := 1
def TYPE_R : Nat := 2
def TYPE_EN : Nat := 4
def TYPE_ES : Nat := 8
def TYPE_ET : Nat := 16
def TYPE_AN : Nat := 32
def TYPE_CS : Nat := 64
def TYPE_B : Nat := 128
def TYPE_S : Nat := 256
def TYPE_WS : Nat := 512
def TYPE_ON : Nat := 1024
def TYPE_BN : Nat := 2048
def TYPE_NSM : Nat := 4096
def TYPE_AL : Nat := 8192
def TYPE_LRO : Nat := 16384
def TYPE_RLO : Nat := 32768
def TYPE_LRE : Nat := 65536
def TYPE_RLE : Nat := 131072
def TYPE_PDF : Nat := 262144
def TYPE_LRI : Nat := 524288
def TYPE_RLI : Nat := 1048576
def TYPE_FSI : Nat := 2097152
def TYPE_PDI : Nat := 4194304

def ISOLATE_INIT_TYPES : Nat := TYPE_LRI ||| TYPE_RLI ||| TYPE_FSI
def STRONG_TYPES : Nat := TYPE_L ||| TYPE_R ||| TYPE_AL
def NEUTRAL_ISOLATE_TYPES : Nat :=
  TYPE_B ||| TYPE_S ||| TYPE_WS ||| TYPE_ON ||| TYPE_FSI ||| TYPE_LRI ||| TYPE_RLI ||| TYPE_PDI
def BN_LIKE_TYPES : Nat :=
  TYPE_BN ||| TYPE_RLE ||| TYPE_LRE ||| TYPE_RLO ||| TYPE_LRO ||| TYPE_PDF
def TRAILING_TYPES : Nat :=
  TYPE_S ||| TYPE_WS ||| TYPE_B ||| ISOLATE_INIT_TYPES ||| TYPE_PDI ||| BN_LIKE_TYPES

/-- The ranges of codepoints one encoded type string of `DATA` writes into the
character-type map: each `skip+step` piece advances `lastCode` by `skip` and
writes the flag at codepoints `lastCode .. lastCode+step` (the `parseData`
loop `map.set(lastCode += skip, …); for i < step: map.set(++lastCode, …)`). -/
def parseTypeRanges (encoded : String) (flag : Nat) : List (Nat × Nat × Nat) :=
  (((splitOnComma encoded.toList).foldl
    (fun (acc : List (Nat × Nat × Nat) × Nat) piece =>
      let (ranges, lastCode) := acc
      let (skipCs, stepCs) := splitFirst '+' piece
      let lo := lastCode + parseInt36Nat skipCs
      let hi := lo + parseInt36Nat stepCs
      ((lo, hi, flag) :: ranges, hi)) ([], 0)).1).reverse

/-- The full character-type map contents in write order: all types of `DATA`
in key order, each contributing its ranges in encoded order. -/
def parsedBidiCharRanges : List (Nat × Nat × Nat) :=
  parseTypeRanges dataR TYPE_R ++ parseTypeRanges dataEN TYPE_EN ++
  parseTypeRanges dataES TYPE_ES ++ parseTypeRanges dataET TYPE_ET ++
  parseTypeRanges dataAN TYPE_AN ++ parseTypeRanges dataCS TYPE_CS ++
  parseTypeRanges dataB TYPE_B ++ parseTypeRanges dataS TYPE_S ++
  parseTypeRanges dataWS TYPE_WS ++ parseTypeRanges dataON TYPE_ON ++
  parseTypeRanges dataBN TYPE_BN ++ parseTypeRanges dataNSM TYPE_NSM ++
  parseTypeRanges dataAL TYPE_AL ++ parseTypeRanges dataLRO TYPE_LRO ++
  parseTypeRanges dataRLO TYPE_RLO ++ parseTypeRanges dataLRE TYPE_LRE ++
  parseTypeRanges dataRLE TYPE_RLE ++ parseTypeRanges dataPDF TYPE_PDF ++
  parseTypeRanges dataLRI TYPE_LRI ++ parseTypeRanges dataRLI TYPE_RLI ++
  parseTypeRanges dataFSI TYPE_FSI ++ parseTypeRanges dataPDI TYPE_PDI

/-- The parsed character-type map, pinned as a literal (proved equal to the parser output in `bidiCharTypeTable_eq`). -/
def bidiCharTypeTable : List (Nat × Nat × Nat) := [
  (1424, 1424, 2), (1470, 1470, 2), (1472, 1472, 2), (1475, 1475, 2), (1478, 1478, 2), (1480, 1535, 2),
  (1984, 2026, 2), (2036, 2037, 2), (2042, 2044, 2), (2046, 2069, 2), (2074, 2074, 2), (2084, 2084, 2),
  (2088, 2088, 2), (2094, 2136, 2), (2140, 2143, 2), (2160, 2207, 2), (8207, 8207, 2), (64285, 64285, 2),
  (64287, 64296, 2), (64298, 64335, 2), (67584, 67870, 2), (67872, 68096, 2), (68100, 68100, 2), (68103, 68107, 2),
  (68112, 68151, 2), (68155, 68158, 2), (68160, 68324, 2), (68327, 68408, 2), (68416, 68863, 2), (68928, 69215, 2),
  (69247, 69290, 2), (69293, 69423, 2), (69488, 69631, 2), (124928, 125135, 2), (125143, 125251, 2), (125259, 126063, 2),
  (126144, 126207, 2), (126288, 126463, 2), (126720, 126975, 2), (48, 57, 4), (178, 179, 4), (185, 185, 4),
  (1776, 1785, 4), (8304, 8304, 4), (8308, 8313, 4), (8320, 8329, 4), (9352, 9371, 4), (65296, 65305, 4),
  (66273, 66299, 4), (120782, 120831, 4), (127232, 127242, 4), (130032, 130041, 4), (43, 43, 8), (45, 45, 8),
  (8314, 8315, 8), (8330, 8331, 8), (8722, 8722, 8), (64297, 64297, 8), (65122, 65123, 8), (65291, 65291, 8),
  (65293, 65293, 8), (35, 37, 16), (162, 165, 16), (176, 177, 16), (1423, 1423, 16), (1545, 1546, 16),
  (1642, 1642, 16), (2546, 2547, 16), (2555, 2555, 16), (2801, 2801, 16), (3065, 3065, 16), (3647, 3647, 16),
  (6107, 6107, 16), (8240, 8244, 16), (8352, 8399, 16), (8494, 8494, 16), (8723, 8723, 16), (43064, 43065, 16),
  (65119, 65119, 16), (65129, 65130, 16), (65283, 65285, 16), (65504, 65505, 16), (65509, 65510, 16), (73693, 73696, 16),
  (123647, 123647, 16), (1536, 1541, 32), (1632, 1641, 32), (1643, 1644, 32), (1757, 1757, 32), (2274, 2274, 32),
  (68912, 68921, 32), (69216, 69246, 32), (44, 44, 64), (46, 47, 64), (58, 58, 64), (160, 160, 64),
  (1548, 1548, 64), (8239, 8239, 64), (8260, 8260, 64), (65104, 65104, 64), (65106, 65106, 64), (65109, 65109, 64),
  (65292, 65292, 64), (65294, 65295, 64), (65306, 65306, 64), (10, 10, 128), (13, 13, 128), (28, 30, 128),
  (133, 133, 128), (8233, 8233, 128), (9, 9, 256), (11, 11, 256), (31, 31, 256), (12, 12, 512),
  (32, 32, 512), (5760, 5760, 512), (8192, 8202, 512), (8232, 8232, 512), (8287, 8287, 512), (12288, 12288, 512),
  (33, 34, 1024), (38, 42, 1024), (59, 64, 1024), (91, 96, 1024), (123, 126, 1024), (161, 161, 1024),
  (166, 169, 1024), (171, 172, 1024), (174, 175, 1024), (180, 180, 1024), (182, 184, 1024), (187, 191, 1024),
  (215, 215, 1024), (247, 247, 1024), (697, 698, 1024), (706, 719, 1024), (722, 735, 1024), (741, 749, 1024),
  (751, 767, 1024), (884, 885, 1024), (894, 894, 1024), (900, 901, 1024), (903, 903, 1024), (1014, 1014, 1024),
  (1418, 1418, 1024), (1421, 1422, 1024), (1542, 1543, 1024), (1550, 1551, 1024), (1758, 1758, 1024), (1769, 1769, 1024),
  (2038, 2041, 1024), (3059, 3064, 1024), (3066, 3066, 1024), (3192, 3198, 1024), (3898, 3901, 1024), (5008, 5017, 1024),
  (5120, 5120, 1024), (5787, 5788, 1024), (6128, 6137, 1024), (6144, 6154, 1024), (6464, 6464, 1024), (6468, 6469, 1024),
  (6622, 6655, 1024), (8125, 8125, 1024), (8127, 8129, 1024), (8141, 8143, 1024), (8157, 8159, 1024), (8173, 8175, 1024),
  (8189, 8190, 1024), (8208, 8231, 1024), (8245, 8259, 1024), (8261, 8286, 1024), (8316, 8318, 1024), (8332, 8334, 1024),
  (8448, 8449, 1024), (8451, 8454, 1024), (8456, 8457, 1024), (8468, 8468, 1024), (8470, 8472, 1024), (8478, 8483, 1024),
  (8485, 8485, 1024), (8487, 8487, 1024), (8489, 8489, 1024), (8506, 8507, 1024), (8512, 8516, 1024), (8522, 8525, 1024),
  (8528, 8543, 1024), (8585, 8587, 1024), (8592, 8721, 1024), (8724, 9013, 1024), (9083, 9108, 1024), (9110, 9254, 1024),
  (9280, 9290, 1024), (9312, 9351, 1024), (9450, 9899, 1024), (9901, 10239, 1024), (10496, 11123, 1024), (11126, 11157, 1024),
  (11159, 11263, 1024), (11493, 11498, 1024), (11513, 11519, 1024), (11776, 11858, 1024), (11904, 11929, 1024), (11931, 12019, 1024),
  (12032, 12245, 1024), (12272, 12283, 1024), (12289, 12292, 1024), (12296, 12320, 1024), (12336, 12336, 1024), (12342, 12343, 1024),
  (12349, 12351, 1024), (12443, 12444, 1024), (12448, 12448, 1024), (12539, 12539, 1024), (12736, 12771, 1024), (12829, 12830, 1024),
  (12880, 12895, 1024), (12924, 12926, 1024), (12977, 12991, 1024), (13004, 13007, 1024), (13175, 13178, 1024), (13278, 13279, 1024),
  (13311, 13311, 1024), (19904, 19967, 1024), (42128, 42182, 1024), (42509, 42511, 1024), (42611, 42611, 1024), (42622, 42623, 1024),
  (42752, 42785, 1024), (42888, 42888, 1024), (43048, 43051, 1024), (43124, 43127, 1024), (43882, 43883, 1024), (64830, 64831, 1024),
  (65021, 65021, 1024), (65040, 65049, 1024), (65072, 65103, 1024), (65105, 65105, 1024), (65108, 65108, 1024), (65110, 65118, 1024),
  (65120, 65121, 1024), (65124, 65126, 1024), (65128, 65128, 1024), (65131, 65131, 1024), (65281, 65282, 1024), (65286, 65290, 1024),
  (65307, 65312, 1024), (65339, 65344, 1024), (65371, 65381, 1024), (65506, 65508, 1024), (65512, 65518, 1024), (65529, 65533, 1024),
  (65793, 65793, 1024), (65856, 65932, 1024), (65936, 65948, 1024), (65952, 65952, 1024), (67871, 67871, 1024), (68409, 68415, 1024),
  (69714, 69733, 1024), (71264, 71276, 1024), (73685, 73692, 1024), (73697, 73713, 1024), (94178, 94178, 1024), (119296, 119361, 1024),
  (119365, 119365, 1024), (119552, 119638, 1024), (120539, 120539, 1024), (120597, 120597, 1024), (120655, 120655, 1024), (120713, 120713, 1024),
  (120771, 120771, 1024), (126704, 126705, 1024), (126976, 127019, 1024), (127024, 127123, 1024), (127136, 127150, 1024), (127153, 127167, 1024),
  (127169, 127183, 1024), (127185, 127221, 1024), (127243, 127247, 1024), (127279, 127279, 1024), (127338, 127343, 1024), (127405, 127405, 1024),
  (127584, 127589, 1024), (127744, 128727, 1024), (128736, 128748, 1024), (128752, 128764, 1024), (128768, 128883, 1024), (128896, 128984, 1024),
  (128992, 129003, 1024), (129024, 129035, 1024), (129040, 129095, 1024), (129104, 129113, 1024), (129120, 129159, 1024), (129168, 129197, 1024),
  (129200, 129201, 1024), (129280, 129400, 1024), (129402, 129483, 1024), (129485, 129619, 1024), (129632, 129645, 1024), (129648, 129652, 1024),
  (129656, 129658, 1024), (129664, 129670, 1024), (129680, 129704, 1024), (129712, 129718, 1024), (129728, 129730, 1024), (129744, 129750, 1024),
  (129792, 129938, 1024), (129940, 129994, 1024), (0, 8, 2048), (14, 27, 2048), (127, 132, 2048), (134, 159, 2048),
  (173, 173, 2048), (6158, 6158, 2048), (8203, 8205, 2048), (8288, 8293, 2048), (8298, 8303, 2048), (64976, 65007, 2048),
  (65279, 65279, 2048), (65520, 65528, 2048), (65534, 65535, 2048), (113824, 113827, 2048), (119155, 119162, 2048), (131070, 131071, 2048),
  (196606, 196607, 2048), (262142, 262143, 2048), (327678, 327679, 2048), (393214, 393215, 2048), (458750, 458751, 2048), (524286, 524287, 2048),
  (589822, 589823, 2048), (655358, 655359, 2048), (720894, 720895, 2048), (786430, 786431, 2048), (851966, 851967, 2048), (917502, 917759, 2048),
  (918000, 921599, 2048), (983038, 983039, 2048), (1048574, 1048575, 2048), (1114110, 1114111, 2048), (768, 879, 4096), (1155, 1161, 4096),
  (1425, 1469, 4096), (1471, 1471, 4096), (1473, 1474, 4096), (1476, 1477, 4096), (1479, 1479, 4096), (1552, 1562, 4096),
  (1611, 1631, 4096), (1648, 1648, 4096), (1750, 1756, 4096), (1759, 1764, 4096), (1767, 1768, 4096), (1770, 1773, 4096),
  (1809, 1809, 4096), (1840, 1866, 4096), (1958, 1968, 4096), (2027, 2035, 4096), (2045, 2045, 4096), (2070, 2073, 4096),
  (2075, 2083, 4096), (2085, 2087, 4096), (2089, 2093, 4096), (2137, 2139, 4096), (2259, 2273, 4096), (2275, 2306, 4096),
  (2362, 2362, 4096), (2364, 2364, 4096), (2369, 2376, 4096), (2381, 2381, 4096), (2385, 2391, 4096), (2402, 2403, 4096),
  (2433, 2433, 4096), (2492, 2492, 4096), (2497, 2500, 4096), (2509, 2509, 4096), (2530, 2531, 4096), (2558, 2558, 4096),
  (2561, 2562, 4096), (2620, 2620, 4096), (2625, 2626, 4096), (2631, 2632, 4096), (2635, 2637, 4096), (2641, 2641, 4096),
  (2672, 2673, 4096), (2677, 2677, 4096), (2689, 2690, 4096), (2748, 2748, 4096), (2753, 2757, 4096), (2759, 2760, 4096),
  (2765, 2765, 4096), (2786, 2787, 4096), (2810, 2815, 4096), (2817, 2817, 4096), (2876, 2876, 4096), (2879, 2879, 4096),
  (2881, 2884, 4096), (2893, 2893, 4096), (2901, 2902, 4096), (2914, 2915, 4096), (2946, 2946, 4096), (3008, 3008, 4096),
  (3021, 3021, 4096), (3072, 3072, 4096), (3076, 3076, 4096), (3134, 3136, 4096), (3142, 3144, 4096), (3146, 3149, 4096),
  (3157, 3158, 4096), (3170, 3171, 4096), (3201, 3201, 4096), (3260, 3260, 4096), (3276, 3277, 4096), (3298, 3299, 4096),
  (3328, 3329, 4096), (3387, 3388, 4096), (3393, 3396, 4096), (3405, 3405, 4096), (3426, 3427, 4096), (3457, 3457, 4096),
  (3530, 3530, 4096), (3538, 3540, 4096), (3542, 3542, 4096), (3633, 3633, 4096), (3636, 3642, 4096), (3655, 3662, 4096),
  (3761, 3761, 4096), (3764, 3772, 4096), (3784, 3789, 4096), (3864, 3865, 4096), (3893, 3893, 4096), (3895, 3895, 4096),
  (3897, 3897, 4096), (3953, 3966, 4096), (3968, 3972, 4096), (3974, 3975, 4096), (3981, 3991, 4096), (3993, 4028, 4096),
  (4038, 4038, 4096), (4141, 4144, 4096), (4146, 4151, 4096), (4153, 4154, 4096), (4157, 4158, 4096), (4184, 4185, 4096),
  (4190, 4192, 4096), (4209, 4212, 4096), (4226, 4226, 4096), (4229, 4230, 4096), (4237, 4237, 4096), (4253, 4253, 4096),
  (4957, 4959, 4096), (5906, 5908, 4096), (5938, 5940, 4096), (5970, 5971, 4096), (6002, 6003, 4096), (6068, 6069, 4096),
  (6071, 6077, 4096), (6086, 6086, 4096), (6089, 6099, 4096), (6109, 6109, 4096), (6155, 6157, 4096), (6277, 6278, 4096),
  (6313, 6313, 4096), (6432, 6434, 4096), (6439, 6440, 4096), (6450, 6450, 4096), (6457, 6459, 4096), (6679, 6680, 4096),
  (6683, 6683, 4096), (6742, 6742, 4096), (6744, 6750, 4096), (6752, 6752, 4096), (6754, 6754, 4096), (6757, 6764, 4096),
  (6771, 6780, 4096), (6783, 6783, 4096), (6832, 6848, 4096), (6912, 6915, 4096), (6964, 6964, 4096), (6966, 6970, 4096),
  (6972, 6972, 4096), (6978, 6978, 4096), (7019, 7027, 4096), (7040, 7041, 4096), (7074, 7077, 4096), (7080, 7081, 4096),
  (7083, 7085, 4096), (7142, 7142, 4096), (7144, 7145, 4096), (7149, 7149, 4096), (7151, 7153, 4096), (7212, 7219, 4096),
  (7222, 7223, 4096), (7376, 7378, 4096), (7380, 7392, 4096), (7394, 7400, 4096), (7405, 7405, 4096), (7412, 7412, 4096),
  (7416, 7417, 4096), (7616, 7673, 4096), (7675, 7679, 4096), (8400, 8432, 4096), (11503, 11505, 4096), (11647, 11647, 4096),
  (11744, 11775, 4096), (12330, 12333, 4096), (12441, 12442, 4096), (42607, 42610, 4096), (42612, 42621, 4096), (42654, 42655, 4096),
  (42736, 42737, 4096), (43010, 43010, 4096), (43014, 43014, 4096), (43019, 43019, 4096), (43045, 43046, 4096), (43052, 43052, 4096),
  (43204, 43205, 4096), (43232, 43249, 4096), (43263, 43263, 4096), (43302, 43309, 4096), (43335, 43345, 4096), (43392, 43394, 4096),
  (43443, 43443, 4096), (43446, 43449, 4096), (43452, 43453, 4096), (43493, 43493, 4096), (43561, 43566, 4096), (43569, 43570, 4096),
  (43573, 43574, 4096), (43587, 43587, 4096), (43596, 43596, 4096), (43644, 43644, 4096), (43696, 43696, 4096), (43698, 43700, 4096),
  (43703, 43704, 4096), (43710, 43711, 4096), (43713, 43713, 4096), (43756, 43757, 4096), (43766, 43766, 4096), (44005, 44005, 4096),
  (44008, 44008, 4096), (44013, 44013, 4096), (64286, 64286, 4096), (65024, 65039, 4096), (65056, 65071, 4096), (66045, 66045, 4096),
  (66272, 66272, 4096), (66422, 66426, 4096), (68097, 68099, 4096), (68101, 68102, 4096), (68108, 68111, 4096), (68152, 68154, 4096),
  (68159, 68159, 4096), (68325, 68326, 4096), (68900, 68903, 4096), (69291, 69292, 4096), (69446, 69456, 4096), (69633, 69633, 4096),
  (69688, 69702, 4096), (69759, 69761, 4096), (69811, 69814, 4096), (69817, 69818, 4096), (69888, 69890, 4096), (69927, 69931, 4096),
  (69933, 69940, 4096), (70003, 70003, 4096), (70016, 70017, 4096), (70070, 70078, 4096), (70089, 70092, 4096), (70095, 70095, 4096),
  (70191, 70193, 4096), (70196, 70196, 4096), (70198, 70199, 4096), (70206, 70206, 4096), (70367, 70367, 4096), (70371, 70378, 4096),
  (70400, 70401, 4096), (70459, 70460, 4096), (70464, 70464, 4096), (70502, 70508, 4096), (70512, 70516, 4096), (70712, 70719, 4096),
  (70722, 70724, 4096), (70726, 70726, 4096), (70750, 70750, 4096), (70835, 70840, 4096), (70842, 70842, 4096), (70847, 70848, 4096),
  (70850, 70851, 4096), (71090, 71093, 4096), (71100, 71101, 4096), (71103, 71104, 4096), (71132, 71133, 4096), (71219, 71226, 4096),
  (71229, 71229, 4096), (71231, 71232, 4096), (71339, 71339, 4096), (71341, 71341, 4096), (71344, 71349, 4096), (71351, 71351, 4096),
  (71453, 71455, 4096), (71458, 71461, 4096), (71463, 71467, 4096), (71727, 71735, 4096), (71737, 71738, 4096), (71995, 71996, 4096),
  (71998, 71998, 4096), (72003, 72003, 4096), (72148, 72151, 4096), (72154, 72155, 4096), (72160, 72160, 4096), (72193, 72198, 4096),
  (72201, 72202, 4096), (72243, 72248, 4096), (72251, 72254, 4096), (72263, 72263, 4096), (72273, 72278, 4096), (72281, 72283, 4096),
  (72330, 72342, 4096), (72344, 72345, 4096), (72752, 72758, 4096), (72760, 72765, 4096), (72850, 72871, 4096), (72874, 72880, 4096),
  (72882, 72883, 4096), (72885, 72886, 4096), (73009, 73014, 4096), (73018, 73018, 4096), (73020, 73021, 4096), (73023, 73029, 4096),
  (73031, 73031, 4096), (73104, 73105, 4096), (73109, 73109, 4096), (73111, 73111, 4096), (73459, 73460, 4096), (92912, 92916, 4096),
  (92976, 92982, 4096), (94031, 94031, 4096), (94095, 94098, 4096), (94180, 94180, 4096), (113821, 113822, 4096), (119143, 119145, 4096),
  (119163, 119170, 4096), (119173, 119179, 4096), (119210, 119213, 4096), (119362, 119364, 4096), (121344, 121398, 4096), (121403, 121452, 4096),
  (121461, 121461, 4096), (121476, 121476, 4096), (121499, 121503, 4096), (121505, 121519, 4096), (122880, 122886, 4096), (122888, 122904, 4096),
  (122907, 122913, 4096), (122915, 122916, 4096), (122918, 122922, 4096), (123184, 123190, 4096), (123628, 123631, 4096), (125136, 125142, 4096),
  (125252, 125258, 4096), (917760, 917999, 4096), (1544, 1544, 8192), (1547, 1547, 8192), (1549, 1549, 8192), (1563, 1610, 8192),
  (1645, 1647, 8192), (1649, 1749, 8192), (1765, 1766, 8192), (1774, 1775, 8192), (1786, 1808, 8192), (1810, 1839, 8192),
  (1867, 1957, 8192), (1969, 1983, 8192), (2144, 2159, 8192), (2208, 2258, 8192), (64336, 64829, 8192), (64832, 64975, 8192),
  (65008, 65020, 8192), (65022, 65023, 8192), (65136, 65278, 8192), (68864, 68899, 8192), (68904, 68911, 8192), (68922, 68927, 8192),
  (69424, 69445, 8192), (69457, 69487, 8192), (126064, 126143, 8192), (126208, 126287, 8192), (126464, 126703, 8192), (126706, 126719, 8192),
  (8237, 8237, 16384), (8238, 8238, 32768), (8234, 8234, 65536), (8235, 8235, 131072), (8236, 8236, 262144), (8294, 8294, 524288),
  (8295, 8295, 1048576), (8296, 8296, 2097152), (8297, 8297, 4194304)]

/-- `getBidiCharType`: look the codepoint up in the character-type map;
the last write wins (JS `Map.set` overwrites), characters not in the map
default to `TYPES.L`. -/
def getBidiCharType (c : Nat) : Nat :=
  bidiCharTypeTable.foldl
    (fun acc r => if r.1 ≤ c ∧ c ≤ r.2.1 then r.2.2 else acc) TYPE_L

/-! ## Bracket pair and mirrored character maps
(`parseCharacterMap`, `parse$1`, `parse`, `openingToClosingBracket`,
`closingToOpeningBracket`, `getCanonicalBracket`, `getMirroredCharacter`) -/

/-- Encoded bracket pairs data (source `data$1.pairs`). -/
def pairsData : String := "14>1,1e>2,u>2,2wt>1,1>1,1ge>1,1wp>1,1j>1,f>1,hm>1,1>1,u>1,u6>1,1>1,+5,28>1,w>1,1>1,+3,b8>1,1>1,+3,1>3,-1>-1,3>1,1>1,+2,1s>1,1>1,x>1,th>1,1>1,+2,db>1,1>1,+3,3>1,1>1,+2,14qm>1,1>1,+1,4q>1,1e>2,u>2,2>1,+1"

/-- Encoded canonical-bracket data (source `data$1.canonical`). -/
def canonicalData : String := "6f1>-6dx,6dy>-6dx,6ec>-6ed,6ee>-6ed,6ww>2jj,-2ji>2jj,14r4>-1e7l,1e7m>-1e7l,1e7m>-1e5c,1e5d>-1e5b,1e5c>-14qx,14qy>-14qx,14vn>-1ecg,1ech>-1ecg,1edu>-1ecg,1eci>-1ecg,1eda>-1ecg,1eci>-1ecg,1eci>-168q,168r>-168q,168s>-14ye,14yf>-14ye"

/-- Encoded mirrored characters data (source `data` of the mirroring module). -/
def mirrorData : String := "14>1,j>2,t>2,u>2,1a>g,2v3>1,1>1,1ge>1,1wd>1,b>1,1j>1,f>1,ai>3,-2>3,+1,8>1k0,-1jq>1y7,-1y6>1hf,-1he>1h6,-1h5>1ha,-1h8>1qi,-1pu>1,6>3u,-3s>7,6>1,1>1,f>1,1>1,+2,3>1,1>1,+13,4>1,1>1,6>1eo,-1ee>1,3>1mg,-1me>1mk,-1mj>1mi,-1mg>1mi,-1md>1,1>1,+2,1>10k,-103>1,1>1,4>1,5>1,1>1,+10,3>1,1>8,-7>8,+1,-6>7,+1,a>1,1>1,u>1,u6>1,1>1,+5,26>1,1>1,2>1,2>2,8>1,7>1,4>1,1>1,+5,b8>1,1>1,+3,1>3,-2>1,2>1,1>1,+2,c>1,3>1,1>1,+2,h>1,3>1,a>1,1>1,2>1,3>1,1>1,d>1,f>1,3>1,1a>1,1>1,6>1,7>1,13>1,k>1,1>1,+19,4>1,1>1,+2,2>1,1>1,+18,m>1,a>1,1>1,lk>1,1>1,4>1,2>1,f>1,3>1,1>1,+3,db>1,1>1,+3,3>1,1>1,+2,14qm>1,1>1,+1,6>1,4j>1,j>2,t>2,u>2,2>1,+1"

/-- State of the `parseCharacterMap` fold: the running codepoint accumulator,
the previous plus-free entry (for `"+n"` repetition entries), and the forward
and reverse maps under construction.  `Map.set` is modelled by prepending, so
`List.find?` (first match) is the map lookup. -/
structure CharMapState where
  lastCode : Int
  prevPair : List Char
  map : List (Nat × Nat)
  reverseMap : List (Nat × Nat)
  deriving Repr, DecidableEq

/-- One plus-free `a>b` entry of `parseCharacterMap`: advance `lastCode` by the
signed base-36 value of `a` to get the key, then by that of `b` to get the
value, and record the pair (and its reverse when requested). -/
def charMapVisitPlain (includeReverse : Bool) (st : CharMapState) (entry : List Char) :
    CharMapState :=
  let (aCs, bCs) := splitFirst '>' entry
  let a := st.lastCode + parseInt36 aCs
  let b := a + parseInt36 bCs
  -- `String.fromCodePoint` requires nonnegative codes, so the stored
  -- codepoints are naturals.
  { lastCode := b
    prevPair := entry
    map := (a.toNat, b.toNat) :: st.map
    reverseMap := if includeReverse then (b.toNat, a.toNat) :: st.reverseMap else st.reverseMap }

/-- One entry of `parseCharacterMap`: an entry containing `+` repeats the
previous pair `+entry` (decimal) times, anything else is a plain pair.  (In the
source `visit` recurses onto `prevPair`, which is always plus-free, so the
recursion is exactly this bounded repetition.) -/
def charMapVisit (includeReverse : Bool) (st : CharMapState) (entry : List Char) :
    CharMapState :=
  if entry.contains '+' then
    (fun s => charMapVisitPlain includeReverse s s.prevPair)^[parsePlusDecimal entry] st
  else charMapVisitPlain includeReverse st entry

/-- `parseCharacterMap(encodedString, includeReverse)`. -/
def parseCharacterMap (encoded : String) (includeReverse : Bool) : CharMapState :=
  (splitOnComma encoded.toList).foldl (charMapVisit includeReverse)
    { lastCode := 0, prevPair := [], map := [], reverseMap := [] }

/-- Map lookup (`Map.get`, with prepend-modelled `Map.set`): value of the first
matching key, as the source's `get(char) || null`. -/
def findInPairs (table : List (Nat × Nat)) (c : Nat) : Option Nat :=
  (table.find? (fun kv => kv.1 == c)).map (fun kv => kv.2)

def pairsOpenToCloseTable : List (Nat × Nat) := [
  (65378, 65379), (65375, 65376), (65371, 65373), (65339, 65341), (65288, 65289), (65117, 65118), (65115, 65116), (65113, 65114),
  (12314, 12315), (12312, 12313), (12310, 12311), (12308, 12309), (12304, 12305), (12302, 12303), (12300, 12301), (12298, 12299),
  (12296, 12297), (11816, 11817), (11814, 11815), (11812, 11813), (11810, 11811), (10748, 10749), (10714, 10715), (10712, 10713),
  (10647, 10648), (10645, 10646), (10643, 10644), (10641, 10642), (10639, 10638), (10637, 10640), (10635, 10636), (10633, 10634),
  (10631, 10632), (10629, 10630), (10627, 10628), (10222, 10223), (10220, 10221), (10218, 10219), (10216, 10217), (10214, 10215),
  (10181, 10182), (10100, 10101), (10098, 10099), (10096, 10097), (10094, 10095), (10092, 10093), (10090, 10091), (10088, 10089),
  (9001, 9002), (8970, 8971), (8968, 8969), (8333, 8334), (8317, 8318), (8261, 8262), (5787, 5788), (3900, 3901),
  (3898, 3899), (123, 125), (91, 93), (40, 41)]

def pairsCloseToOpenTable : List (Nat × Nat) := [
  (65379, 65378), (65376, 65375), (65373, 65371), (65341, 65339), (65289, 65288), (65118, 65117), (65116, 65115), (65114, 65113),
  (12315, 12314), (12313, 12312), (12311, 12310), (12309, 12308), (12305, 12304), (12303, 12302), (12301, 12300), (12299, 12298),
  (12297, 12296), (11817, 11816), (11815, 11814), (11813, 11812), (11811, 11810), (10749, 10748), (10715, 10714), (10713, 10712),
  (10648, 10647), (10646, 10645), (10644, 10643), (10642, 10641), (10638, 10639), (10640, 10637), (10636, 10635), (10634, 10633),
  (10632, 10631), (10630, 10629), (10628, 10627), (10223, 10222), (10221, 10220), (10219, 10218), (10217, 10216), (10215, 10214),
  (10182, 10181), (10101, 10100), (10099, 10098), (10097, 10096), (10095, 10094), (10093, 10092), (10091, 10090), (10089, 10088),
  (9002, 9001), (8971, 8970), (8969, 8968), (8334, 8333), (8318, 8317), (8262, 8261), (5788, 5787), (3901, 3900),
  (3899, 3898), (125, 123), (93, 91), (41, 40)]

def canonicalBracketTable : List (Nat × Nat) := [
  (65379, 12301), (65378, 12300), (65376, 10630), (65375, 10629), (65373, 125), (65371, 123), (65341, 93), (65339, 91),
  (65289, 41), (65288, 40), (65118, 12309), (65117, 12308), (65116, 125), (65115, 123), (65114, 41), (65113, 40),
  (9002, 12297), (9001, 12296), (8334, 41), (8333, 40), (8318, 41), (8317, 40)]

def mirrorForwardTable : List (Nat × Nat) := [
  (65378, 65379), (65375, 65376), (65371, 65373), (65339, 65341), (65308, 65310), (65288, 65289), (65124, 65125), (65117, 65118),
  (65115, 65116), (65113, 65114), (12314, 12315), (12312, 12313), (12310, 12311), (12308, 12309), (12304, 12305), (12302, 12303),
  (12300, 12301), (12298, 12299), (12296, 12297), (11816, 11817), (11814, 11815), (11812, 11813), (11810, 11811), (11808, 11809),
  (11804, 11805), (11788, 11789), (11785, 11786), (11780, 11781), (11778, 11779), (11001, 11002), (10999, 11000), (10988, 10989),
  (10965, 10966), (10963, 10964), (10961, 10962), (10959, 10960), (10957, 10958), (10955, 10956), (10953, 10954), (10951, 10952),
  (10949, 10950), (10947, 10948), (10945, 10946), (10943, 10944), (10941, 10942), (10939, 10940), (10937, 10938), (10935, 10936),
  (10933, 10934), (10931, 10932), (10929, 10930), (10927, 10928), (10924, 10925), (10922, 10923), (10920, 10921), (10918, 10919),
  (10913, 10914), (10911, 10912), (10909, 10910), (10907, 10908), (10905, 10906), (10903, 10904), (10901, 10902), (10899, 10900),
  (10897, 10898), (10895, 10896), (10893, 10894), (10891, 10892), (10889, 10890), (10887, 10888), (10885, 10886), (10883, 10884),
  (10881, 10882), (10879, 10880), (10877, 10878), (10875, 10876), (10873, 10874), (10852, 10853), (10812, 10813), (10804, 10805),
  (10797, 10798), (10795, 10796), (10748, 10749), (10744, 10745), (10728, 10729), (10714, 10715), (10712, 10713), (10708, 10709),
  (10705, 10706), (10703, 10704), (10692, 10693), (10688, 10689), (10670, 10671), (10668, 10669), (10666, 10667), (10664, 10665),
  (10660, 10661), (10647, 10648), (10645, 10646), (10643, 10644), (10641, 10642), (10638, 10639), (10637, 10640), (10635, 10636),
  (10633, 10634), (10631, 10632), (10629, 10630), (10627, 10628), (10222, 10223), (10220, 10221), (10218, 10219), (10216, 10217),
  (10214, 10215), (10212, 10213), (10210, 10211), (10205, 10206), (10197, 10198), (10187, 10189), (10184, 10185), (10181, 10182),
  (10179, 10180), (10100, 10101), (10098, 10099), (10096, 10097), (10094, 10095), (10092, 10093), (10090, 10091), (10088, 10089),
  (9001, 9002), (8970, 8971), (8968, 8969), (8951, 8958), (8950, 8957), (8948, 8956), (8947, 8955), (8946, 8954),
  (8944, 8945), (8940, 8941), (8938, 8939), (8936, 8937), (8934, 8935), (8932, 8933), (8930, 8931), (8928, 8929),
  (8926, 8927), (8924, 8925), (8922, 8923), (8920, 8921), (8918, 8919), (8912, 8913), (8907, 8908), (8905, 8906),
  (8888, 10204), (8886, 8887), (8884, 8885), (8882, 8883), (8880, 8881), (8875, 10981), (8873, 10979), (8872, 10980),
  (8870, 10974), (8866, 8867), (8856, 10680), (8849, 8850), (8847, 8848), (8842, 8843), (8840, 8841), (8838, 8839),
  (8836, 8837), (8834, 8835), (8832, 8833), (8830, 8831), (8828, 8829), (8826, 8827), (8824, 8825), (8822, 8823),
  (8820, 8821), (8818, 8819), (8816, 8817), (8814, 8815), (8810, 8811), (8808, 8809), (8806, 8807), (8804, 8805),
  (8788, 8789), (8786, 8787), (8773, 8780), (8771, 8909), (8764, 8765), (8740, 10990), (8738, 10656), (8737, 10651),
  (8736, 10659), (8735, 11262), (8725, 10741), (8714, 8717), (8713, 8716), (8712, 8715), (8333, 8334), (8317, 8318),
  (8261, 8262), (8249, 8250), (5787, 5788), (3900, 3901), (3898, 3899), (171, 187), (123, 125), (91, 93),
  (60, 62), (40, 41)]

def mirrorReverseTable : List (Nat × Nat) := [
  (65379, 65378), (65376, 65375), (65373, 65371), (65341, 65339), (65310, 65308), (65289, 65288), (65125, 65124), (65118, 65117),
  (65116, 65115), (65114, 65113), (12315, 12314), (12313, 12312), (12311, 12310), (12309, 12308), (12305, 12304), (12303, 12302),
  (12301, 12300), (12299, 12298), (12297, 12296), (11817, 11816), (11815, 11814), (11813, 11812), (11811, 11810), (11809, 11808),
  (11805, 11804), (11789, 11788), (11786, 11785), (11781, 11780), (11779, 11778), (11002, 11001), (11000, 10999), (10989, 10988),
  (10966, 10965), (10964, 10963), (10962, 10961), (10960, 10959), (10958, 10957), (10956, 10955), (10954, 10953), (10952, 10951),
  (10950, 10949), (10948, 10947), (10946, 10945), (10944, 10943), (10942, 10941), (10940, 10939), (10938, 10937), (10936, 10935),
  (10934, 10933), (10932, 10931), (10930, 10929), (10928, 10927), (10925, 10924), (10923, 10922), (10921, 10920), (10919, 10918),
  (10914, 10913), (10912, 10911), (10910, 10909), (10908, 10907), (10906, 10905), (10904, 10903), (10902, 10901), (10900, 10899),
  (10898, 10897), (10896, 10895), (10894, 10893), (10892, 10891), (10890, 10889), (10888, 10887), (10886, 10885), (10884, 10883),
  (10882, 10881), (10880, 10879), (10878, 10877), (10876, 10875), (10874, 10873), (10853, 10852), (10813, 10812), (10805, 10804),
  (10798, 10797), (10796, 10795), (10749, 10748), (10745, 10744), (10729, 10728), (10715, 10714), (10713, 10712), (10709, 10708),
  (10706, 10705), (10704, 10703), (10693, 10692), (10689, 10688), (10671, 10670), (10669, 10668), (10667, 10666), (10665, 10664),
  (10661, 10660), (10648, 10647), (10646, 10645), (10644, 10643), (10642, 10641), (10639, 10638), (10640, 10637), (10636, 10635),
  (10634, 10633), (10632, 10631), (10630, 10629), (10628, 10627), (10223, 10222), (10221, 10220), (10219, 10218), (10217, 10216),
  (10215, 10214), (10213, 10212), (10211, 10210), (10206, 10205), (10198, 10197), (10189, 10187), (10185, 10184), (10182, 10181),
  (10180, 10179), (10101, 10100), (10099, 10098), (10097, 10096), (10095, 10094), (10093, 10092), (10091, 10090), (10089, 10088),
  (9002, 9001), (8971, 8970), (8969, 8968), (8958, 8951), (8957, 8950), (8956, 8948), (8955, 8947), (8954, 8946),
  (8945, 8944), (8941, 8940), (8939, 8938), (8937, 8936), (8935, 8934), (8933, 8932), (8931, 8930), (8929, 8928),
  (8927, 8926), (8925, 8924), (8923, 8922), (8921, 8920), (8919, 8918), (8913, 8912), (8908, 8907), (8906, 8905),
  (10204, 8888), (8887, 8886), (8885, 8884), (8883, 8882), (8881, 8880), (10981, 8875), (10979, 8873), (10980, 8872),
  (10974, 8870), (8867, 8866), (10680, 8856), (8850, 8849), (8848, 8847), (8843, 8842), (8841, 8840), (8839, 8838),
  (8837, 8836), (8835, 8834), (8833, 8832), (8831, 8830), (8829, 8828), (8827, 8826), (8825, 8824), (8823, 8822),
  (8821, 8820), (8819, 8818), (8817, 8816), (8815, 8814), (8811, 8810), (8809, 8808), (8807, 8806), (8805, 8804),
  (8789, 8788), (8787, 8786), (8780, 8773), (8909, 8771), (8765, 8764), (10990, 8740), (10656, 8738), (10651, 8737),
  (10659, 8736), (11262, 8735), (10741, 8725), (8717, 8714), (8716, 8713), (8715, 8712), (8334, 8333), (8318, 8317),
  (8262, 8261), (8250, 8249), (5788, 5787), (3901, 3900), (3899, 3898), (187, 171), (125, 123), (93, 91),
  (62, 60), (41, 40)]

/-- `openingToClosingBracket`. -/
def openingToClosingBracket (c : Nat) : Option Nat := findInPairs pairsOpenToCloseTable c

/-- `closingToOpeningBracket`. -/
def closingToOpeningBracket (c : Nat) : Option Nat := findInPairs pairsCloseToOpenTable c

/-- `getCanonicalBracket`. -/
def getCanonicalBracket (c : Nat) : Option Nat := findInPairs canonicalBracketTable c

/-- The combined mirror map: the reverse entries were `set` over the forward
map, so they take lookup precedence (first match in this order). -/
def mirrorMergedTable : List (Nat × Nat) := mirrorReverseTable ++ mirrorForwardTable

/-- `getMirroredCharacter`: lookup in the combined map. -/
def getMirroredCharacter (c : Nat) : Option Nat :=
  findInPairs mirrorMergedTable c

/-! ## `getEmbeddingLevels` (UAX#9 bidi resolution)

The source is one large function over mutable arrays (`charTypes`,
`embedLevels`) and a mutable `charTypeCounts` map; here each phase is a
top-level function threading that state explicitly.  Loops become folds over
the corresponding index lists; loops with `break`/skip-ahead become structural
recursions over the index list (with a `skipUntil` state where the source
assigns the loop counter).  JS strings are `List Nat` of code units. -/

def MAX_DEPTH : Nat := 125

def FORMATTING_TYPES : Nat :=
  TYPE_RLE ||| TYPE_LRE ||| TYPE_RLO ||| TYPE_LRO ||| ISOLATE_INIT_TYPES |||
  TYPE_PDI ||| TYPE_PDF ||| TYPE_B

/-- `nextEven`. -/
def nextEven (n : Nat) : Nat := n + (if n % 2 = 1 then 1 else 2)

/-- `nextOdd`. -/
def nextOdd (n : Nat) : Nat := n + (if n % 2 = 1 then 2 else 1)

/-- A paragraph record `{start, end, level}` (`end` is a Lean keyword, hence
`endIdx`). -/
structure Paragraph where
  start : Nat
  endIdx : Nat
  level : Nat
  deriving Repr, DecidableEq

/-- The forced base direction argument: `"ltr"`, `"rtl"`, or anything else
(`"auto"`/`undefined`), which selects automatic detection. -/
inductive BaseDirection
  | ltr
  | rtl
  | auto
  deriving Repr, DecidableEq

/-- One entry of the directional status stack
(`{_level, _override, _isolate, _isolInitIndex}`); `override` is `0` for
neutral, otherwise `TYPE_L` or `TYPE_R`. -/
structure StatusStackEntry where
  level : Nat
  override : Nat
  isolate : Bool
  isolInitIndex : Option Nat := none
  deriving Repr, DecidableEq

/-- `charTypeCounts.get(t)`: JS `undefined` and `0` are both falsy and the
increments guard with `|| 0`, so a missing key reads as `0`. -/
def countsGet (counts : List (Nat × Nat)) (t : Nat) : Nat :=
  match counts.find? (fun kv => kv.1 == t) with
  | some kv => kv.2
  | none => 0

/-- `charTypeCounts.set(t, v)` (prepend; `countsGet` takes the first match). -/
def countsSet (counts : List (Nat × Nat)) (t v : Nat) : List (Nat × Nat) :=
  (t, v) :: counts

/-- `changeCharType(i, type)`: swap the type at `i` and keep the per-paragraph
type counts in sync (including the aggregated `NEUTRAL_ISOLATE_TYPES` count).
Every caller changes a character whose current type was already counted, so
the `- 1` never underflows in a reachable state. -/
def changeCharType (charTypes : List Nat) (counts : List (Nat × Nat)) (i typ : Nat) :
    List Nat × List (Nat × Nat) :=
  let oldType := charTypes.getD i 0
  let charTypes := charTypes.set i typ
  let counts := countsSet counts oldType (countsGet counts oldType - 1)
  let counts :=
    if oldType &&& NEUTRAL_ISOLATE_TYPES ≠ 0 then
      countsSet counts NEUTRAL_ISOLATE_TYPES (countsGet counts NEUTRAL_ISOLATE_TYPES - 1)
    else counts
  let counts := countsSet counts typ (countsGet counts typ + 1)
  let counts :=
    if typ &&& NEUTRAL_ISOLATE_TYPES ≠ 0 then
      countsSet counts NEUTRAL_ISOLATE_TYPES (countsGet counts NEUTRAL_ISOLATE_TYPES + 1)
    else counts
  (charTypes, counts)

/-- Loop body list for `indexOfMatchingPDI` (3.1.2 BD9).  Scans the index list
`[isolateStart+1 … len)` with the running isolation level; `none` is the
source's `-1`. -/
def indexOfMatchingPDIAux (charTypes : List Nat) : List Nat → Nat → Option Nat
  | [], _ => none
  | i :: rest, isolationLevel =>
    let charType := charTypes.getD i 0
    if charType &&& TYPE_B ≠ 0 then none
    else if charType &&& TYPE_PDI ≠ 0 then
      if isolationLevel = 1 then some i
      else indexOfMatchingPDIAux charTypes rest (isolationLevel - 1)
    else if charType &&& ISOLATE_INIT_TYPES ≠ 0 then
      indexOfMatchingPDIAux charTypes rest (isolationLevel + 1)
    else indexOfMatchingPDIAux charTypes rest isolationLevel

/-- `indexOfMatchingPDI(isolateStart)`. -/
def indexOfMatchingPDI (charTypes : List Nat) (isolateStart : Nat) : Option Nat :=
  indexOfMatchingPDIAux charTypes
    (List.range' (isolateStart + 1) (charTypes.length - (isolateStart + 1))) 1

/-- Loop of `determineAutoEmbedLevel` (P2–P3): scan forward for the first
strong type, skipping isolate runs.  The source assigns the loop counter to
jump past a matching PDI; that is the `skipUntil` state here.  A `none` from
`indexOfMatchingPDI` sets the counter to the string length, ending the loop
with result `0`. -/
def determineAutoEmbedLevelAux (charTypes : List Nat) (isFSI : Bool) :
    List Nat → Nat → Nat
  | [], _ => 0
  | i :: rest, skipUntil =>
    if i < skipUntil then determineAutoEmbedLevelAux charTypes isFSI rest skipUntil
    else
      let charType := charTypes.getD i 0
      if charType &&& (TYPE_R ||| TYPE_AL) ≠ 0 then 1
      else if charType &&& (TYPE_B ||| TYPE_L) ≠ 0 ∨ (isFSI ∧ charType = TYPE_PDI) then 0
      else if charType &&& ISOLATE_INIT_TYPES ≠ 0 then
        match indexOfMatchingPDI charTypes i with
        | none => 0
        | some pdi => determineAutoEmbedLevelAux charTypes isFSI rest (pdi + 1)
      else determineAutoEmbedLevelAux charTypes isFSI rest skipUntil

/-- `determineAutoEmbedLevel(start, isFSI)`. -/
def determineAutoEmbedLevel (charTypes : List Nat) (start : Nat) (isFSI : Bool) : Nat :=
  determineAutoEmbedLevelAux charTypes isFSI
    (List.range' start (charTypes.length - start)) 0

/-- P1–P3: split on paragraph separators (type B) and determine each
paragraph's level.  The source pushes the open paragraph object and later
mutates its `end`; here the open paragraph is carried separately and appended
when it closes (or when the scan ends), which produces the same list. -/
def splitParagraphsStep (charTypes : List Nat) (dir : BaseDirection)
    (st : List Paragraph × Option Paragraph) (i : Nat) :
    List Paragraph × Option Paragraph :=
  let (done, cur) := st
  let cur :=
    match cur with
    | some p => some p
    | none =>
      some { start := i, endIdx := charTypes.length - 1,
             level :=
               match dir with
               | .rtl => 1
               | .ltr => 0
               | .auto => determineAutoEmbedLevel charTypes i false }
  if charTypes.getD i 0 &&& TYPE_B ≠ 0 then
    match cur with
    | some p => (done ++ [{ p with endIdx := i }], none)
    | none => (done, none)
  else (done, cur)

def splitParagraphs (charTypes : List Nat) (dir : BaseDirection) : List Paragraph :=
  let st := (List.range charTypes.length).foldl (splitParagraphsStep charTypes dir) ([], none)
  match st.2 with
  | some p => st.1 ++ [p]
  | none => st.1

/-- State threaded through the explicit-levels pass (3.3.2 X1–X8) of one
paragraph.  The stack head is the stack top. -/
structure ExplicitState where
  charTypes : List Nat
  embedLevels : List Nat
  counts : List (Nat × Nat)
  stack : List StatusStackEntry
  overflowIsolateCount : Nat
  overflowEmbeddingCount : Nat
  validIsolateCount : Nat
  isolationPairs : List (Nat × Nat)
  deriving Repr

/-- Pop stack entries until an isolate entry is on top (the `while
(!statusStack[…]._isolate) pop` of X6a; callers guarantee an isolate entry is
present). -/
def popWhileNotIsolate : List StatusStackEntry → List StatusStackEntry
  | [] => []
  | e :: rest => if e.isolate then e :: rest else popWhileNotIsolate rest

/-- The `Set initial counts` lines at the top of the X1–X8 loop body. -/
def setInitialCounts (st : ExplicitState) (charType : Nat) : ExplicitState :=
  let counts := countsSet st.counts charType (countsGet st.counts charType + 1)
  let counts :=
    if charType &&& NEUTRAL_ISOLATE_TYPES ≠ 0 then
      countsSet counts NEUTRAL_ISOLATE_TYPES (countsGet counts NEUTRAL_ISOLATE_TYPES + 1)
    else counts
  { st with counts := counts }

/-- Explicit embeddings, 3.3.2 X2–X3 (RLE/LRE). -/
def explicitStepEmbedding (p : Paragraph) (st : ExplicitState) (i charType : Nat) :
    ExplicitState :=
  let stackTop := st.stack.headD ⟨p.level, 0, false, none⟩
  let embedLevels := st.embedLevels.set i stackTop.level  -- 5.2
  let level := if charType = TYPE_RLE then nextOdd stackTop.level else nextEven stackTop.level
  if level ≤ MAX_DEPTH ∧ st.overflowIsolateCount = 0 ∧ st.overflowEmbeddingCount = 0 then
    { st with embedLevels := embedLevels, stack := ⟨level, 0, false, none⟩ :: st.stack }
  else if st.overflowIsolateCount = 0 then
    { st with embedLevels := embedLevels,
              overflowEmbeddingCount := st.overflowEmbeddingCount + 1 }
  else { st with embedLevels := embedLevels }

/-- Explicit overrides, 3.3.2 X4–X5 (RLO/LRO). -/
def explicitStepOverride (p : Paragraph) (st : ExplicitState) (i charType : Nat) :
    ExplicitState :=
  let stackTop := st.stack.headD ⟨p.level, 0, false, none⟩
  let embedLevels := st.embedLevels.set i stackTop.level  -- 5.2
  let level := if charType = TYPE_RLO then nextOdd stackTop.level else nextEven stackTop.level
  if level ≤ MAX_DEPTH ∧ st.overflowIsolateCount = 0 ∧ st.overflowEmbeddingCount = 0 then
    { st with embedLevels := embedLevels,
              stack := ⟨level, if charType &&& TYPE_RLO ≠ 0 then TYPE_R else TYPE_L,
                        false, none⟩ :: st.stack }
  else if st.overflowIsolateCount = 0 then
    { st with embedLevels := embedLevels,
              overflowEmbeddingCount := st.overflowEmbeddingCount + 1 }
  else { st with embedLevels := embedLevels }

/-- Isolates, 3.3.2 X5a–X5c (LRI/RLI/FSI). -/
def explicitStepIsolate (p : Paragraph) (st : ExplicitState) (i charType : Nat) :
    ExplicitState :=
  let stackTop := st.stack.headD ⟨p.level, 0, false, none⟩
  -- X5c: FSI resolves to RLI or LRI by scanning to the matching PDI
  let charType :=
    if charType &&& TYPE_FSI ≠ 0 then
      if determineAutoEmbedLevel st.charTypes (i + 1) true = 1 then TYPE_RLI else TYPE_LRI
    else charType
  let embedLevels := st.embedLevels.set i stackTop.level
  let (charTypes, counts) :=
    if stackTop.override ≠ 0 then changeCharType st.charTypes st.counts i stackTop.override
    else (st.charTypes, st.counts)
  let st := { st with charTypes := charTypes, counts := counts, embedLevels := embedLevels }
  let level := if charType = TYPE_RLI then nextOdd stackTop.level else nextEven stackTop.level
  if level ≤ MAX_DEPTH ∧ st.overflowIsolateCount = 0 ∧ st.overflowEmbeddingCount = 0 then
    { st with validIsolateCount := st.validIsolateCount + 1,
              stack := ⟨level, 0, true, some i⟩ :: st.stack }
  else { st with overflowIsolateCount := st.overflowIsolateCount + 1 }

/-- Terminating isolates, 3.3.2 X6a (PDI). -/
def explicitStepPDI (p : Paragraph) (st : ExplicitState) (i : Nat) : ExplicitState :=
  let st :=
    if st.overflowIsolateCount > 0 then
      { st with overflowIsolateCount := st.overflowIsolateCount - 1 }
    else if st.validIsolateCount > 0 then
      let stack := popWhileNotIsolate st.stack
      let isolInitIndex := (stack.headD ⟨0, 0, false, none⟩).isolInitIndex
      let isolationPairs :=
        match isolInitIndex with
        | some init => (i, init) :: (init, i) :: st.isolationPairs
        | none => st.isolationPairs
      { st with overflowEmbeddingCount := 0,
                stack := stack.tail,
                validIsolateCount := st.validIsolateCount - 1,
                isolationPairs := isolationPairs }
    else st
  let stackTop := st.stack.headD ⟨p.level, 0, false, none⟩
  let embedLevels := st.embedLevels.set i stackTop.level
  let (charTypes, counts) :=
    if stackTop.override ≠ 0 then changeCharType st.charTypes st.counts i stackTop.override
    else (st.charTypes, st.counts)
  { st with charTypes := charTypes, counts := counts, embedLevels := embedLevels }

/-- Terminating embeddings and overrides, 3.3.2 X7 (PDF). -/
def explicitStepPDF (p : Paragraph) (st : ExplicitState) (i : Nat) : ExplicitState :=
  let st :=
    if st.overflowIsolateCount = 0 then
      if st.overflowEmbeddingCount > 0 then
        { st with overflowEmbeddingCount := st.overflowEmbeddingCount - 1 }
      else if ¬ (st.stack.headD ⟨p.level, 0, false, none⟩).isolate ∧ st.stack.length > 1 then
        { st with stack := st.stack.tail }
      else st
    else st
  let stackTop := st.stack.headD ⟨p.level, 0, false, none⟩
  { st with embedLevels := st.embedLevels.set i stackTop.level }  -- 5.2

/-- End of paragraph, 3.3.2 X8 (B). -/
def explicitStepB (p : Paragraph) (st : ExplicitState) (i : Nat) : ExplicitState :=
  { st with embedLevels := st.embedLevels.set i p.level }

/-- Non-formatting characters, 3.3.2 X6. -/
def explicitStepOther (p : Paragraph) (st : ExplicitState) (i charType : Nat) :
    ExplicitState :=
  let stackTop := st.stack.headD ⟨p.level, 0, false, none⟩
  let embedLevels := st.embedLevels.set i stackTop.level
  if stackTop.override ≠ 0 ∧ charType ≠ TYPE_BN then
    let (charTypes, counts) := changeCharType st.charTypes st.counts i stackTop.override
    { st with charTypes := charTypes, counts := counts, embedLevels := embedLevels }
  else { st with embedLevels := embedLevels }

/-- One character of the explicit-levels pass (the body of the X1–X8 loop):
update the counts, then dispatch on the character type.  A character whose
type matches `FORMATTING_TYPES` but none of the individual formatting types
(impossible for the single-bit types the table and all type rewrites produce)
is left without a levels write, as in the source. -/
def explicitStep (p : Paragraph) (st : ExplicitState) (i : Nat) : ExplicitState :=
  let charType := st.charTypes.getD i 0
  let st := setInitialCounts st charType
  if charType &&& FORMATTING_TYPES ≠ 0 then
    if charType &&& (TYPE_RLE ||| TYPE_LRE) ≠ 0 then explicitStepEmbedding p st i charType
    else if charType &&& (TYPE_RLO ||| TYPE_LRO) ≠ 0 then explicitStepOverride p st i charType
    else if charType &&& ISOLATE_INIT_TYPES ≠ 0 then explicitStepIsolate p st i charType
    else if charType &&& TYPE_PDI ≠ 0 then explicitStepPDI p st i
    else if charType &&& TYPE_PDF ≠ 0 then explicitStepPDF p st i
    else if charType &&& TYPE_B ≠ 0 then explicitStepB p st i
    else st
  else explicitStepOther p st i charType

/-- The whole explicit-levels pass for one paragraph. -/
def explicitPhase (paragraph : Paragraph) (charTypes embedLevels : List Nat)
    (isolationPairs : List (Nat × Nat)) : ExplicitState :=
  (List.range' paragraph.start (paragraph.endIdx + 1 - paragraph.start)).foldl
    (explicitStep paragraph)
    { charTypes := charTypes, embedLevels := embedLevels, counts := []
      stack := [⟨paragraph.level, 0, false, none⟩]
      overflowIsolateCount := 0, overflowEmbeddingCount := 0, validIsolateCount := 0
      isolationPairs := isolationPairs }

/-- A level run (X10): `{_start, _end, _level, _startsWithPDI,
_endsWithIsolInit}`. -/
structure LevelRun where
  start : Nat
  endIdx : Nat
  level : Nat
  startsWithPDI : Bool
  endsWithIsolInit : Bool
  deriving Repr, DecidableEq

/-- X10: the maximal level runs of a paragraph, ignoring BN-like characters.
The source mutates the run object still referenced from the list; here the
current run is carried separately and appended when it ends. -/
def buildLevelRuns (charTypes embedLevels : List Nat) (paragraph : Paragraph) :
    List LevelRun :=
  let st := (List.range' paragraph.start (paragraph.endIdx + 1 - paragraph.start)).foldl
    (fun (st : List LevelRun × Option LevelRun) i =>
      let (done, cur) := st
      let charType := charTypes.getD i 0
      if charType &&& BN_LIKE_TYPES ≠ 0 then (done, cur)
      else
        let lvl := embedLevels.getD i 0
        let isIsolInit := charType &&& ISOLATE_INIT_TYPES ≠ 0
        let isPDI := charType = TYPE_PDI
        match cur with
        | some run =>
          if lvl = run.level then
            (done, some { run with endIdx := i, endsWithIsolInit := isIsolInit })
          else (done ++ [run], some ⟨i, i, lvl, isPDI, isIsolInit⟩)
        | none => (done, some ⟨i, i, lvl, isPDI, isIsolInit⟩))
    ([], none)
  match st.2 with
  | some run => st.1 ++ [run]
  | none => st.1

/-- An isolating run sequence: `{_seqIndices, _sosType, _eosType}`. -/
structure IsolatingRunSeq where
  seqIndices : List Nat
  sosType : Nat
  eosType : Nat
  deriving Repr, DecidableEq

/-- Chain level runs across isolate-initiator → matching-PDI boundaries
(BD13).  Each step looks (from `runIdx + 1`) for the run starting at the
matching PDI.  Fuel bounds the chain by the number of runs; for every valid
isolation pair the matching PDI does begin a level run, so the fuel never runs
out on reachable inputs (the source loop would not terminate otherwise). -/
def chainSeqRuns (isolationPairs : List (Nat × Nat)) (laterRuns : List LevelRun) :
    Nat → LevelRun → List LevelRun
  | 0, _ => []
  | fuel + 1, currentRun =>
    if currentRun.endsWithIsolInit then
      match (isolationPairs.find? (fun kv => kv.1 == currentRun.endIdx)).map (fun kv => kv.2) with
      | some pdiIndex =>
        match laterRuns.find? (fun r => r.start == pdiIndex) with
        | some nextRun => nextRun :: chainSeqRuns isolationPairs laterRuns fuel nextRun
        | none => []
      | none => []
    else []

/-- X10: build the isolating run sequences with their `sos`/`eos` types. -/
def buildIsolatingRunSeqs (charTypes embedLevels : List Nat)
    (isolationPairs : List (Nat × Nat)) (paragraph : Paragraph) : List IsolatingRunSeq :=
  let levelRuns := buildLevelRuns charTypes embedLevels paragraph
  (List.range levelRuns.length).foldr
    (fun runIdx acc =>
      let run := levelRuns.getD runIdx ⟨0, 0, 0, false, false⟩
      if ¬ run.startsWithPDI ∨
          (run.startsWithPDI ∧ (isolationPairs.find? (fun kv => kv.1 == run.start)).isNone) then
        let laterRuns := levelRuns.drop (runIdx + 1)
        let seqRuns := run :: chainSeqRuns isolationPairs laterRuns levelRuns.length run
        let seqIndices :=
          seqRuns.foldl (fun acc r => acc ++ List.range' r.start (r.endIdx + 1 - r.start)) []
        let firstIndex := seqIndices.getD 0 0
        let firstLevel := embedLevels.getD firstIndex 0
        let prevLevel :=
          match (List.range firstIndex).reverse.find?
              (fun j => charTypes.getD j 0 &&& BN_LIKE_TYPES == 0) with
          | some j => embedLevels.getD j 0
          | none => paragraph.level
        let lastIndex := seqIndices.getD (seqIndices.length - 1) 0
        let lastLevel := embedLevels.getD lastIndex 0
        let nextLevel :=
          if charTypes.getD lastIndex 0 &&& ISOLATE_INIT_TYPES ≠ 0 then paragraph.level
          else
            match (List.range' (lastIndex + 1) (paragraph.endIdx - lastIndex)).find?
                (fun j => charTypes.getD j 0 &&& BN_LIKE_TYPES == 0) with
            | some j => embedLevels.getD j 0
            | none => paragraph.level
        { seqIndices := seqIndices
          sosType := if max prevLevel firstLevel % 2 = 1 then TYPE_R else TYPE_L
          eosType := if max nextLevel lastLevel % 2 = 1 then TYPE_R else TYPE_L } :: acc
      else acc)
    []

/-- W-phase state: the character types and the per-paragraph type counts. -/
abbrev WNState := List Nat × List (Nat × Nat)

/-- Type of the first non-BN-like character before sequence position `si`
(the backward `5.2` scans of W1/W4), if any. -/
def firstNonBNTypeBefore (charTypes seqIndices : List Nat) (si : Nat) : Option Nat :=
  ((seqIndices.take si).reverse.find?
    (fun j => charTypes.getD j 0 &&& BN_LIKE_TYPES == 0)).map (fun j => charTypes.getD j 0)

/-- W1 (+5.2): each NSM takes the type of the nearest preceding non-BN
character (sos if none), except isolate initiators and PDI, which make it
ON. -/
def w1Rule (seqIndices : List Nat) (sosType : Nat) (st : WNState) : WNState :=
  if countsGet st.2 TYPE_NSM ≠ 0 then
    (List.range seqIndices.length).foldl
      (fun (st : WNState) si =>
        let i := seqIndices.getD si 0
        if st.1.getD i 0 &&& TYPE_NSM ≠ 0 then
          let prevType := (firstNonBNTypeBefore st.1 seqIndices si).getD sosType
          changeCharType st.1 st.2 i
            (if prevType &&& (ISOLATE_INIT_TYPES ||| TYPE_PDI) ≠ 0 then TYPE_ON else prevType)
        else st)
      st
  else st

/-- W2: a European number whose nearest preceding strong type (sos included)
is AL becomes AN. -/
def w2Rule (seqIndices : List Nat) (sosType : Nat) (st : WNState) : WNState :=
  if countsGet st.2 TYPE_EN ≠ 0 then
    (List.range seqIndices.length).foldl
      (fun (st : WNState) si =>
        let i := seqIndices.getD si 0
        if st.1.getD i 0 &&& TYPE_EN ≠ 0 then
          let prevCharType :=
            (((seqIndices.take si).reverse.find?
                (fun j => st.1.getD j 0 &&& STRONG_TYPES ≠ 0)).map
              (fun j => st.1.getD j 0)).getD sosType
          if prevCharType = TYPE_AL then changeCharType st.1 st.2 i TYPE_AN else st
        else st)
      st
  else st

/-- W3: all AL become R. -/
def w3Rule (seqIndices : List Nat) (st : WNState) : WNState :=
  if countsGet st.2 TYPE_AL ≠ 0 then
    (List.range seqIndices.length).foldl
      (fun (st : WNState) si =>
        let i := seqIndices.getD si 0
        if st.1.getD i 0 &&& TYPE_AL ≠ 0 then changeCharType st.1 st.2 i TYPE_R else st)
      st
  else st

/-- The W4 backward scan: first non-BN type before `si`; when the scan
exhausts (all BN-like), the source's `prevType` variable holds the type of the
sequence's first character. -/
def w4PrevType (charTypes seqIndices : List Nat) (si : Nat) : Nat :=
  (firstNonBNTypeBefore charTypes seqIndices si).getD
    (charTypes.getD (seqIndices.getD 0 0) 0)

/-- The W4 forward scan: first non-BN type after `si`, defaulting likewise to
the type of the sequence's last character. -/
def w4NextType (charTypes seqIndices : List Nat) (si : Nat) : Nat :=
  (((seqIndices.drop (si + 1)).find?
    (fun j => charTypes.getD j 0 &&& BN_LIKE_TYPES == 0)).map
      (fun j => charTypes.getD j 0)).getD
    (charTypes.getD (seqIndices.getD (seqIndices.length - 1) 0) 0)

/-- W4: a single ES between two EN becomes EN; a single CS between two numbers
of the same type becomes that type (the scans skip BN-like, 5.2). -/
def w4Rule (seqIndices : List Nat) (st : WNState) : WNState :=
  if countsGet st.2 TYPE_ES ≠ 0 ∨ countsGet st.2 TYPE_CS ≠ 0 then
    (List.range' 1 (seqIndices.length - 2)).foldl
      (fun (st : WNState) si =>
        let i := seqIndices.getD si 0
        if st.1.getD i 0 &&& (TYPE_ES ||| TYPE_CS) ≠ 0 then
          let prevType := w4PrevType st.1 seqIndices si
          let nextType := w4NextType st.1 seqIndices si
          if prevType = nextType ∧
              (if st.1.getD i 0 = TYPE_ES then prevType = TYPE_EN
               else prevType &&& (TYPE_EN ||| TYPE_AN) ≠ 0) then
            changeCharType st.1 st.2 i prevType
          else st
        else st)
      st
  else st

/-- Directional walk shared by W5/W6: change characters at the listed sequence
positions to `target` while their current type matches `mask`, stopping at the
first mismatch. -/
def walkChangeWhile (seqIndices : List Nat) (mask target : Nat) :
    List Nat → WNState → WNState
  | [], st => st
  | sj :: rest, st =>
    let j := seqIndices.getD sj 0
    if st.1.getD j 0 &&& mask ≠ 0 then
      walkChangeWhile seqIndices mask target rest (changeCharType st.1 st.2 j target)
    else st

/-- W5: runs of ET (with intervening BN-like, 5.2) adjacent to EN become
EN. -/
def w5Rule (seqIndices : List Nat) (st : WNState) : WNState :=
  if countsGet st.2 TYPE_EN ≠ 0 then
    (List.range seqIndices.length).foldl
      (fun (st : WNState) si =>
        let i := seqIndices.getD si 0
        if st.1.getD i 0 &&& TYPE_EN ≠ 0 then
          let st := walkChangeWhile seqIndices (TYPE_ET ||| BN_LIKE_TYPES) TYPE_EN
            (List.range si).reverse st
          walkChangeWhile seqIndices (TYPE_ET ||| BN_LIKE_TYPES) TYPE_EN
            (List.range' (si + 1) (seqIndices.length - (si + 1))) st
        else st)
      st
  else st

/-- W6: remaining separators/terminators (and adjacent BN-like, 5.2) become
ON. -/
def w6Rule (seqIndices : List Nat) (st : WNState) : WNState :=
  if countsGet st.2 TYPE_ET ≠ 0 ∨ countsGet st.2 TYPE_ES ≠ 0 ∨
      countsGet st.2 TYPE_CS ≠ 0 then
    (List.range seqIndices.length).foldl
      (fun (st : WNState) si =>
        let i := seqIndices.getD si 0
        if st.1.getD i 0 &&& (TYPE_ET ||| TYPE_ES ||| TYPE_CS) ≠ 0 then
          let st := changeCharType st.1 st.2 i TYPE_ON
          let st := walkChangeWhile seqIndices BN_LIKE_TYPES TYPE_ON
            (List.range si).reverse st
          walkChangeWhile seqIndices BN_LIKE_TYPES TYPE_ON
            (List.range' (si + 1) (seqIndices.length - (si + 1))) st
        else st)
      st
  else st

/-- W7: EN whose last preceding strong type is L becomes L (single forward
pass carrying the last seen strong type, starting from sos). -/
def w7Rule (seqIndices : List Nat) (sosType : Nat) (st : WNState) : WNState :=
  if countsGet st.2 TYPE_EN ≠ 0 then
    ((List.range seqIndices.length).foldl
      (fun (acc : WNState × Nat) si =>
        let (st, prevStrongType) := acc
        let i := seqIndices.getD si 0
        let typ := st.1.getD i 0
        if typ &&& TYPE_EN ≠ 0 then
          if prevStrongType = TYPE_L then (changeCharType st.1 st.2 i TYPE_L, prevStrongType)
          else (st, prevStrongType)
        else if typ &&& STRONG_TYPES ≠ 0 then (st, typ)
        else (st, prevStrongType))
      (st, sosType)).1
  else st

def R_TYPES_FOR_N_STEPS : Nat := TYPE_R ||| TYPE_EN ||| TYPE_AN
def STRONG_TYPES_FOR_N_STEPS : Nat := R_TYPES_FOR_N_STEPS ||| TYPE_L

/-- `getEmbedDirection(i)`. -/
def getEmbedDirection (embedLevels : List Nat) (i : Nat) : Nat :=
  if embedLevels.getD i 0 % 2 = 1 then TYPE_R else TYPE_L

/-- BD16: identify bracket pairs with a bounded opener stack (list head = stack
top, entries `(bracket character, sequence position)`).  Filling the 63-entry
stack aborts the remaining scan (the source `break`s out of the loop); a
closing bracket pops the matched opener and everything above it. -/
def findBracketPairs (string charTypes seqIndices : List Nat) : List (Nat × Nat) :=
  let st := (List.range seqIndices.length).foldl
    (fun (st : List (Nat × Nat) × List (Nat × Nat) × Bool) si =>
      let (pairs, openerStack, aborted) := st
      if aborted then st
      else if charTypes.getD (seqIndices.getD si 0) 0 &&& NEUTRAL_ISOLATE_TYPES ≠ 0 then
        let char := string.getD (seqIndices.getD si 0) 0
        if (openingToClosingBracket char).isSome then
          if openerStack.length < 63 then (pairs, (char, si) :: openerStack, aborted)
          else (pairs, openerStack, true)
        else
          match closingToOpeningBracket char with
          | some oppositeBracket =>
            match openerStack.findIdx?
                (fun sc =>
                  sc.1 = oppositeBracket ∨
                  some sc.1 = (getCanonicalBracket char).bind closingToOpeningBracket ∨
                  (getCanonicalBracket sc.1).bind openingToClosingBracket = some char) with
            | some stackIdx =>
              (pairs ++ [((openerStack.getD stackIdx (0, 0)).2, si)],
               openerStack.drop (stackIdx + 1), aborted)
            | none => (pairs, openerStack, aborted)
          | none => (pairs, openerStack, aborted)
      else st)
    ([], [], false)
  st.1

/-- Stable insertion of a pair into a list sorted by first component
(for `bracketPairs.sort((a, b) => a[0] - b[0])`). -/
def insertByFst (p : Nat × Nat) : List (Nat × Nat) → List (Nat × Nat)
  | [] => [p]
  | q :: rest => if p.1 ≤ q.1 then p :: q :: rest else q :: insertByFst p rest

/-- Sort bracket pairs by opening position. -/
def sortByFst (l : List (Nat × Nat)) : List (Nat × Nat) :=
  l.foldr insertByFst []

/-- N0 steps a–b: scan a pair's interior for strong types; returns whether any
strong type was found and (if one matching the embedding direction was found,
stopping the scan) the direction to use, `0` otherwise. -/
def n0ScanInterior (seqIndices embedLevels charTypes : List Nat) :
    List Nat → Bool → Bool × Nat
  | [], found => (found, 0)
  | si :: rest, found =>
    let i := seqIndices.getD si 0
    if charTypes.getD i 0 &&& STRONG_TYPES_FOR_N_STEPS ≠ 0 then
      let lr := if charTypes.getD i 0 &&& R_TYPES_FOR_N_STEPS ≠ 0 then TYPE_R else TYPE_L
      if lr = getEmbedDirection embedLevels i then (true, lr)
      else n0ScanInterior seqIndices embedLevels charTypes rest true
    else n0ScanInterior seqIndices embedLevels charTypes rest found

/-- N0 NSM fixup: the first non-BN character after a changed bracket, if it
was originally NSM, takes the bracket's new type. -/
def n0FixNSM (string seqIndices : List Nat) (charTypes : List Nat)
    (useStrongType fromSi : Nat) : List Nat :=
  match (List.range' fromSi (seqIndices.length - fromSi)).find?
      (fun si => charTypes.getD (seqIndices.getD si 0) 0 &&& BN_LIKE_TYPES == 0) with
  | some si =>
    let i := seqIndices.getD si 0
    if getBidiCharType (string.getD i 0) &&& TYPE_NSM ≠ 0 then
      charTypes.set i useStrongType
    else charTypes
  | none => charTypes

/-- N0: process the bracket pairs in opening order. -/
def n0Rule (string seqIndices embedLevels : List Nat) (sosType : Nat)
    (charTypes : List Nat) : List Nat :=
  let bracketPairs := sortByFst (findBracketPairs string charTypes seqIndices)
  bracketPairs.foldl
    (fun charTypes pair =>
      let (openSeqIdx, closeSeqIdx) := pair
      let (foundStrongType, useStrongType) :=
        n0ScanInterior seqIndices embedLevels charTypes
          (List.range' (openSeqIdx + 1) (closeSeqIdx - (openSeqIdx + 1))) false
      -- N0 step c: fall back to the context before the opening bracket
      let useStrongType :=
        if foundStrongType ∧ useStrongType = 0 then
          match (List.range openSeqIdx).reverse.find?
              (fun si => charTypes.getD (seqIndices.getD si 0) 0 &&&
                STRONG_TYPES_FOR_N_STEPS ≠ 0) with
          | some si =>
            let i := seqIndices.getD si 0
            let lr := if charTypes.getD i 0 &&& R_TYPES_FOR_N_STEPS ≠ 0 then TYPE_R else TYPE_L
            if lr ≠ getEmbedDirection embedLevels i then lr
            else getEmbedDirection embedLevels i
          | none => sosType
        else useStrongType
      if useStrongType ≠ 0 then
        let openI := seqIndices.getD openSeqIdx 0
        let closeI := seqIndices.getD closeSeqIdx 0
        let charTypes := (charTypes.set openI useStrongType).set closeI useStrongType
        let charTypes :=
          if useStrongType ≠ getEmbedDirection embedLevels openI then
            n0FixNSM string seqIndices charTypes useStrongType (openSeqIdx + 1)
          else charTypes
        if useStrongType ≠ getEmbedDirection embedLevels closeI then
          n0FixNSM string seqIndices charTypes useStrongType (closeSeqIdx + 1)
        else charTypes
      else charTypes)
    charTypes

/-- N1 backward scan: extend the NI run start over BN-like characters and find
the strong class (R-like or L) before it, defaulting to sos. -/
def n1BackScan (seqIndices charTypes : List Nat) :
    List Nat → Nat → Nat → Nat × Nat
  | [], niRunStart, dflt => (niRunStart, dflt)
  | si2 :: rest, niRunStart, dflt =>
    if charTypes.getD (seqIndices.getD si2 0) 0 &&& BN_LIKE_TYPES ≠ 0 then
      n1BackScan seqIndices charTypes rest si2 dflt
    else
      (niRunStart,
       if charTypes.getD (seqIndices.getD si2 0) 0 &&& R_TYPES_FOR_N_STEPS ≠ 0 then TYPE_R
       else TYPE_L)

/-- N1 forward scan: extend the NI run end over NI and BN-like characters and
find the strong class after it, defaulting to eos. -/
def n1ForwardScan (seqIndices charTypes : List Nat) :
    List Nat → Nat → Nat → Nat × Nat
  | [], niRunEnd, dflt => (niRunEnd, dflt)
  | si2 :: rest, niRunEnd, dflt =>
    if charTypes.getD (seqIndices.getD si2 0) 0 &&&
        (NEUTRAL_ISOLATE_TYPES ||| BN_LIKE_TYPES) ≠ 0 then
      n1ForwardScan seqIndices charTypes rest si2 dflt
    else
      (niRunEnd,
       if charTypes.getD (seqIndices.getD si2 0) 0 &&& R_TYPES_FOR_N_STEPS ≠ 0 then TYPE_R
       else TYPE_L)

/-- N1/N2 loop: each NI run (BN-extended) takes the surrounding direction when
equal on both sides, else the embedding direction; the loop counter then jumps
past the run (`si = niRunEnd`), which is the `skipUntil` state here. -/
def n1n2Aux (seqIndices embedLevels : List Nat) (sosType eosType : Nat) :
    List Nat → Nat → List Nat → List Nat
  | [], _, charTypes => charTypes
  | si :: rest, skipUntil, charTypes =>
    if si < skipUntil then n1n2Aux seqIndices embedLevels sosType eosType rest skipUntil charTypes
    else if charTypes.getD (seqIndices.getD si 0) 0 &&& NEUTRAL_ISOLATE_TYPES ≠ 0 then
      let (niRunStart, prevType) :=
        n1BackScan seqIndices charTypes (List.range si).reverse si sosType
      let (niRunEnd, nextType) :=
        n1ForwardScan seqIndices charTypes
          (List.range' (si + 1) (seqIndices.length - (si + 1))) si eosType
      let charTypes :=
        (List.range' niRunStart (niRunEnd + 1 - niRunStart)).foldl
          (fun ct sj =>
            let j := seqIndices.getD sj 0
            ct.set j (if prevType = nextType then prevType
                      else getEmbedDirection embedLevels j))
          charTypes
      n1n2Aux seqIndices embedLevels sosType eosType rest (niRunEnd + 1) charTypes
    else n1n2Aux seqIndices embedLevels sosType eosType rest skipUntil charTypes

/-- N1/N2 over a whole sequence. -/
def n1n2Rule (seqIndices embedLevels : List Nat) (sosType eosType : Nat)
    (charTypes : List Nat) : List Nat :=
  n1n2Aux seqIndices embedLevels sosType eosType
    (List.range seqIndices.length) 0 charTypes

/-- 3.3.4/3.3.5 for one isolating run sequence: W1–W7 in order, then (when the
sequence still holds neutral/isolate types by count) N0 and N1/N2. -/
def resolveWeakAndNeutral (string embedLevels : List Nat) (seq : IsolatingRunSeq)
    (st : WNState) : WNState :=
  let st := w1Rule seq.seqIndices seq.sosType st
  let st := w2Rule seq.seqIndices seq.sosType st
  let st := w3Rule seq.seqIndices st
  let st := w4Rule seq.seqIndices st
  let st := w5Rule seq.seqIndices st
  let st := w6Rule seq.seqIndices st
  let st := w7Rule seq.seqIndices seq.sosType st
  if countsGet st.2 NEUTRAL_ISOLATE_TYPES ≠ 0 then
    let charTypes := n0Rule string seq.seqIndices embedLevels seq.sosType st.1
    (n1n2Rule seq.seqIndices embedLevels seq.sosType seq.eosType charTypes, st.2)
  else st

/-- The L1 reset: walk from `i` downwards resetting levels to the paragraph
level while the character's original bidi type is a trailing type. -/
def l1ResetAux (string : List Nat) (level : Nat) :
    List Nat → List Nat → List Nat
  | [], embedLevels => embedLevels
  | j :: rest, embedLevels =>
    if getBidiCharType (string.getD j 0) &&& TRAILING_TYPES ≠ 0 then
      l1ResetAux string level rest (embedLevels.set j level)
    else embedLevels

/-- One character of the implicit phase: I1/I2, the 5.2 BN-like level copy,
and the L1 reset at segment/paragraph separators and at the paragraph end. -/
def implicitStep (string charTypes : List Nat) (paragraph : Paragraph)
    (embedLevels : List Nat) (i : Nat) : List Nat :=
  let level := embedLevels.getD i 0
  let typ := charTypes.getD i 0
  let embedLevels :=
    if level % 2 = 1 then
      -- I2: on odd levels L, EN and AN go up one
      if typ &&& (TYPE_L ||| TYPE_EN ||| TYPE_AN) ≠ 0 then embedLevels.set i (level + 1)
      else embedLevels
    else
      -- I1: on even levels R goes up one, AN/EN go up two
      if typ &&& TYPE_R ≠ 0 then embedLevels.set i (level + 1)
      else if typ &&& (TYPE_AN ||| TYPE_EN) ≠ 0 then embedLevels.set i (level + 2)
      else embedLevels
  -- 5.2: BN-like characters take the preceding character's resolved level
  let embedLevels :=
    if typ &&& BN_LIKE_TYPES ≠ 0 then
      embedLevels.set i (if i = 0 then paragraph.level else embedLevels.getD (i - 1) 0)
    else embedLevels
  -- 3.4 L1.1–4 (re-applied per line by `getReorderSegments` after wrapping)
  if i = paragraph.endIdx ∨ getBidiCharType (string.getD i 0) &&& (TYPE_S ||| TYPE_B) ≠ 0 then
    l1ResetAux string paragraph.level (List.range (i + 1)).reverse embedLevels
  else embedLevels

/-- The implicit phase (3.3.6 + 5.2 + L1) over one paragraph. -/
def implicitPhase (string charTypes : List Nat) (paragraph : Paragraph)
    (embedLevels : List Nat) : List Nat :=
  (List.range' paragraph.start (paragraph.endIdx + 1 - paragraph.start)).foldl
    (implicitStep string charTypes paragraph) embedLevels

/-- State carried from paragraph to paragraph (`charTypes`/`embedLevels`
arrays and the isolation-pairs map, which is shared across paragraphs). -/
structure ParaState where
  charTypes : List Nat
  embedLevels : List Nat
  isolationPairs : List (Nat × Nat)
  deriving Repr

/-- Everything `getEmbeddingLevels` does for one paragraph. -/
def processParagraph (string : List Nat) (st : ParaState) (paragraph : Paragraph) :
    ParaState :=
  let ex := explicitPhase paragraph st.charTypes st.embedLevels st.isolationPairs
  let seqs := buildIsolatingRunSeqs ex.charTypes ex.embedLevels ex.isolationPairs paragraph
  let wn := seqs.foldl
    (fun wnst seq => resolveWeakAndNeutral string ex.embedLevels seq wnst)
    (ex.charTypes, ex.counts)
  let embedLevels := implicitPhase string wn.1 paragraph ex.embedLevels
  { charTypes := wn.1, embedLevels := embedLevels, isolationPairs := ex.isolationPairs }

/-- The `getEmbeddingLevels` result `{levels, paragraphs}`. -/
structure BidiResult where
  levels : List Nat
  paragraphs : List Paragraph
  deriving Repr, DecidableEq

/-- `getEmbeddingLevels(string, baseDirection)`. -/
def getEmbeddingLevels (string : List Nat) (baseDirection : BaseDirection) : BidiResult :=
  let charTypes := string.map getBidiCharType
  let paragraphs := splitParagraphs charTypes baseDirection
  let final := paragraphs.foldl (processParagraph string)
    { charTypes := charTypes, embedLevels := List.replicate string.length 0,
      isolationPairs := [] }
  { levels := final.embedLevels, paragraphs := paragraphs }

/-! ## `getReorderSegments`, `getReorderedIndices` -/

/-- The per-line L1.4 reset of `getReorderSegments`: walk from `lineEnd`
downwards over trailing-type characters writing the paragraph level — note the
write index is the absolute string index while the slice is rebased at
`lineStart`, and a `Uint8Array` write past the end is silently dropped, as is
`List.set` past the end. -/
def reorderResetAux (string : List Nat) (level : Nat) :
    List Nat → List Nat → List Nat
  | [], lineLevels => lineLevels
  | i :: rest, lineLevels =>
    if getBidiCharType (string.getD i 0) &&& TRAILING_TYPES ≠ 0 then
      reorderResetAux string level rest (lineLevels.set i level)
    else lineLevels

/-- Extend a reorder run while the next level stays at or above `lvl`
(the inner `while (i + 1 < length && lineLevels[i+1] >= lvl) i++`). -/
def extendRun (lineLevels : List Nat) (lvl : Nat) : Nat → Nat → Nat
  | 0, i => i
  | fuel + 1, i =>
    if i + 1 < lineLevels.length ∧ lineLevels.getD (i + 1) 0 ≥ lvl then
      extendRun lineLevels lvl fuel (i + 1)
    else i

/-- L2 inner loop at one level: the maximal runs of `lineLevels` at or above
`lvl` with at least two characters, as `[segStart + start, i + start]` pairs
(the source offsets by the `start` argument).  The loop counter jumps to the
run end, the `skipUntil` state here. -/
def runsAtLevel (lineLevels : List Nat) (lvl start : Nat) : List (Nat × Nat) :=
  ((List.range lineLevels.length).foldl
    (fun (acc : List (Nat × Nat) × Nat) i =>
      let (segs, skipUntil) := acc
      if i < skipUntil then acc
      else if lineLevels.getD i 0 ≥ lvl then
        let iEnd := extendRun lineLevels lvl lineLevels.length i
        (if iEnd > i then segs ++ [(i + start, iEnd + start)] else segs, iEnd + 1)
      else acc)
    ([], 0)).1

/-- `getReorderSegments(string, embeddingLevelsResult, start, end)`:
for each paragraph clipped to `[start, end]`, slice the levels, apply the
per-line L1.4 reset, and collect the L2 flip segments from the highest level
down to the lowest odd level. -/
def getReorderSegments (string : List Nat) (res : BidiResult)
    (start? end? : Option Nat) : List (Nat × Nat) :=
  let strLen := string.length
  let start := start?.getD 0
  let endI := min (strLen - 1) (end?.getD (strLen - 1))
  res.paragraphs.foldl
    (fun segments paragraph =>
      let lineStart := max start paragraph.start
      let lineEnd := min endI paragraph.endIdx
      if lineStart < lineEnd then
        let lineLevels := (res.levels.drop lineStart).take (lineEnd + 1 - lineStart)
        let lineLevels := reorderResetAux string paragraph.level
          (List.range' lineStart (lineEnd + 1 - lineStart)).reverse lineLevels
        let maxLevel := lineLevels.foldl (fun m l => if l > m then l else m) paragraph.level
        let minOddLevel := lineLevels.foldl
          (fun (m : Option Nat) l =>
            match m with
            | none => some (l ||| 1)
            | some v => if l < v then some (l ||| 1) else m)
          none
        match minOddLevel with
        | none => segments
        | some minOdd =>
          segments ++ ((List.range' minOdd (maxLevel + 1 - minOdd)).reverse).foldl
            (fun segs lvl => segs ++ runsAtLevel lineLevels lvl start) []
      else segments)
    []

/-- Reverse one segment of the index array (`indices[end - i] = slice[i]` for
`i` from `slice.length - 1` down to `0`). -/
def applyReorderSegment (indices : List Nat) (seg : Nat × Nat) : List Nat :=
  let slice := (indices.drop seg.1).take (seg.2 + 1 - seg.1)
  ((List.range slice.length).reverse).foldl
    (fun ind i => ind.set (seg.2 - i) (slice.getD i 0)) indices

/-- `getReorderedIndices(string, embedLevelsResult, start, end)`. -/
def getReorderedIndices (string : List Nat) (res : BidiResult)
    (start? end? : Option Nat) : List Nat :=
  (getReorderSegments string res start? end?).foldl applyReorderSegment
    (List.range string.length)

/-- The 23 character-type flag values, plus `0` for an out-of-range read.
Every value the type table yields and every value any rule writes is in this
list; this is what makes the X1–X8 dispatch exhaustive and keeps the resolved
levels bounded. -/
def TYPE_VALUES : List Nat :=
  [0, 1, 2, 4, 8, 16, 32, 64, 128, 256, 512, 1024, 2048, 4096, 8192, 16384,
   32768, 65536, 131072, 262144, 524288, 1048576, 2097152, 4194304]

/-- Every entry is a single type flag (or 0). -/
def CharTypesOK (ct : List Nat) : Prop := ∀ t ∈ ct, t ∈ TYPE_VALUES

/-- Directional status stack sanity: levels bounded by `MAX_DEPTH` and
overrides neutral, L or R. -/
def StackOK (stack : List StatusStackEntry) : Prop :=
  ∀ e ∈ stack, e.level ≤ 125 ∧ (e.override = 0 ∨ e.override = TYPE_L ∨ e.override = TYPE_R)

/-- Shape of one `explicitStep` result: sane stack, and the levels array
either written once at `i` with a value at most `MAX_DEPTH` or left
unchanged. -/
def StepShape (st res : ExplicitState) (i : Nat) : Prop :=
  StackOK res.stack ∧
  (res.embedLevels = st.embedLevels ∨
    ∃ v, v ≤ 125 ∧ res.embedLevels = st.embedLevels.set i v)

/-- Levels-array invariant threaded through the explicit pass of one
paragraph: sane stack, every entry at most 126, every entry from the
paragraph start on at most 125, and indices past the paragraph end still
untouched. -/
def ExLevelsInv (p : Paragraph) (st : ExplicitState) : Prop :=
  StackOK st.stack ∧ (∀ l ∈ st.embedLevels, l ≤ 126) ∧
  (∀ j, p.start ≤ j → st.embedLevels.getD j 0 ≤ 125) ∧
  (∀ j, p.endIdx < j → st.embedLevels.getD j 0 = 0)

/-- Levels-array invariant before implicit step `i`: every entry at most
126, entries at `i` and beyond still at their explicit-pass values (at most
125), and indices past the paragraph end untouched. -/
def ImLevelsInv (p : Paragraph) (i : Nat) (el : List Nat) : Prop :=
  (∀ l ∈ el, l ≤ 126) ∧ (∀ j, i ≤ j → el.getD j 0 ≤ 125) ∧
  (∀ j, p.endIdx < j → el.getD j 0 = 0)

/-- `ImLevelsInv` weakened at index `i` itself, holding between the writes of
one implicit step. -/
def MidLevelsInv (p : Paragraph) (i : Nat) (el : List Nat) : Prop :=
  (∀ l ∈ el, l ≤ 126) ∧ (∀ j, i < j → el.getD j 0 ≤ 125) ∧
  (∀ j, p.endIdx < j → el.getD j 0 = 0)

/-- The per-line L1.4 reset as the SPEC reads it: the reset writes land on
the character's position within the line slice (index rebased by
`lineStart`), so the end-of-line trailing run really is treated as having
the paragraph level.  This definition follows the spec's words, for
comparison with `reorderResetAux` (which uses the absolute string index into
the rebased slice). -/
def reorderResetAuxSpec (string : List Nat) (level lineStart : Nat) :
    List Nat → List Nat → List Nat
  | [], lineLevels => lineLevels
  | i :: rest, lineLevels =>
    if getBidiCharType (string.getD i 0) &&& TRAILING_TYPES ≠ 0 then
      reorderResetAuxSpec string level lineStart rest (lineLevels.set (i - lineStart) level)
    else lineLevels

/-- `getReorderSegments` as the SPEC reads it: identical to
`getReorderSegments` except that the per-line L1.4 reset writes at the
rebased index (`reorderResetAuxSpec`).  Definition follows the spec's words,
for comparison with the source's `getReorderSegments`. -/
def getReorderSegmentsSpecL1 (string : List Nat) (res : BidiResult)
    (start? end? : Option Nat) : List (Nat × Nat) :=
  let strLen := string.length
  let start := start?.getD 0
  let endI := min (strLen - 1) (end?.getD (strLen - 1))
  res.paragraphs.foldl
    (fun segments paragraph =>
      let lineStart := max start paragraph.start
      let lineEnd := min endI paragraph.endIdx
      if lineStart < lineEnd then
        let lineLevels := (res.levels.drop lineStart).take (lineEnd + 1 - lineStart)
        let lineLevels := reorderResetAuxSpec string paragraph.level lineStart
          (List.range' lineStart (lineEnd + 1 - lineStart)).reverse lineLevels
        let maxLevel := lineLevels.foldl (fun m l => if l > m then l else m) paragraph.level
        let minOddLevel := lineLevels.foldl
          (fun (m : Option Nat) l =>
            match m with
            | none => some (l ||| 1)
            | some v => if l < v then some (l ||| 1) else m)
          none
        match minOddLevel with
        | none => segments
        | some minOdd =>
          segments ++ ((List.range' minOdd (maxLevel + 1 - minOdd)).reverse).foldl
            (fun segs lvl => segs ++ runsAtLevel lineLevels lvl start) []
      else segments)
    []

/-! ## Glyph atlas allocation (`process`: atlas indices for renderable glyphs) -/

/-- The per-atlas state the typesetter keeps: the `atlas.glyphs` object
(glyph id ↦ stored `atlasIndex`) and `atlas.glyphCount`.  The object map is
modelled as an association list with prepend-set and first-match lookup. -/
structure Atlas where
  glyphs : List (Nat × Nat)
  glyphCount : Nat
  deriving Repr, DecidableEq

/-- `atlas.glyphs[glyphObj.index]` (`undefined` becomes `none`). -/
def atlasLookup (atlas : Atlas) (k : Nat) : Option Nat :=
  findInPairs atlas.glyphs k

/-- One renderable glyph's atlas visit: `let glyphAtlasInfo =
atlas.glyphs[glyphObj.index]; if (!glyphAtlasInfo) { glyphSDFData.atlasIndex =
atlas.glyphCount++; … atlas.glyphs[glyphObj.index] = {atlasIndex, …} }`.
Returns the updated atlas and the glyph's atlas index. -/
def atlasGetOrAdd (atlas : Atlas) (k : Nat) : Atlas × Nat :=
  match atlasLookup atlas k with
  | some idx => (atlas, idx)
  | none =>
    ({ glyphs := (k, atlas.glyphCount) :: atlas.glyphs,
       glyphCount := atlas.glyphCount + 1 }, atlas.glyphCount)

/-- The renderable-glyph loop of one `process` call, collecting each glyph's
assigned atlas index in order. -/
def atlasProcessAll (atlas : Atlas) : List Nat → Atlas × List Nat
  | [] => (atlas, [])
  | k :: rest =>
    let r1 := atlasGetOrAdd atlas k
    let r2 := atlasProcessAll r1.1 rest
    (r2.1, r1.2 :: r2.2)

/-! ## Justified-line whitespace widening (`process`, textAlign='justify') -/

/-- One glyph of a laid-out line: its `x` position, `width`, and the
`glyphObj.isWhitespace` flag (font units; JS doubles modelled as exact
rationals). -/
structure GlyphInfo where
  x : ℚ
  width : ℚ
  isWhitespace : Bool
  deriving Repr, DecidableEq

/-- The trailing-whitespace count `for (let i = lineGlyphCount; i-- &&
line.glyphAt(i).glyphObj.isWhitespace;) trailingWhitespaceCount++`. -/
def trailingWhitespaceCount (glyphs : List GlyphInfo) : Nat :=
  (glyphs.reverse.takeWhile (fun g => g.isWhitespace)).length

/-- The non-trailing whitespace count: whitespace glyphs at positions
`i < cutoff` (the source counts downward from `lineGlyphCount -
trailingWhitespaceCount`; the counted set is the same). -/
def wsCountBelow (cutoff : Nat) : List GlyphInfo → Nat → Nat
  | [], _ => 0
  | g :: rest, i =>
    (if g.isWhitespace ∧ i < cutoff then 1 else 0) + wsCountBelow cutoff rest (i + 1)

/-- The per-glyph adjustment loop: `glyphInfo.x += lineXOffset +
justifyOffset` and, for a non-trailing whitespace glyph when justifying,
`justifyOffset += justifyAdjust; glyphInfo.width += justifyAdjust`. -/
def justifyGlyphsAux (lineXOffset justifyAdjust : ℚ) (cutoff : Nat) :
    List GlyphInfo → Nat → ℚ → List GlyphInfo
  | [], _, _ => []
  | g :: rest, i, justifyOffset =>
    let g1 := { g with x := g.x + (lineXOffset + justifyOffset) }
    if justifyAdjust ≠ 0 ∧ g.isWhitespace ∧ i < cutoff then
      { g1 with width := g1.width + justifyAdjust } ::
        justifyGlyphsAux lineXOffset justifyAdjust cutoff rest (i + 1)
          (justifyOffset + justifyAdjust)
    else g1 :: justifyGlyphsAux lineXOffset justifyAdjust cutoff rest (i + 1) justifyOffset

/-- The `textAlign === 'justify' && line.isSoftWrapped` branch for one line:
`justifyAdjust = (maxLineWidth - lineWidth) / whitespaceCount` (for justify
`lineXOffset` stays 0), then the adjustment loop guarded by
`if (justifyAdjust || lineXOffset)`.  A zero `whitespaceCount` gives `NaN` in
JS; `ℚ` division by zero gives 0 and the guard skips the loop — the claims
below assume at least one non-trailing whitespace glyph. -/
def justifyLine (maxLineWidth lineWidth : ℚ) (glyphs : List GlyphInfo) : List GlyphInfo :=
  let cutoff := glyphs.length - trailingWhitespaceCount glyphs
  let whitespaceCount := wsCountBelow cutoff glyphs 0
  let justifyAdjust := (maxLineWidth - lineWidth) / (whitespaceCount : ℚ)
  if justifyAdjust ≠ 0 then justifyGlyphsAux 0 justifyAdjust cutoff glyphs 0 0
  else glyphs

/-- Total advance width of a line's glyphs. -/
def widthSum (glyphs : List GlyphInfo) : ℚ := (glyphs.map (fun g => g.width)).sum

/-! ## SDF texel encoding (`generateSDF`) -/

/-- `Math.round` (round half toward positive infinity), exact on rationals. -/
def jsRound (q : ℚ) : ℤ := ⌊q + 1 / 2⌋

/-- The texel encoding of one signed distance (the `generateSDF` texel loop):
`alpha = Math.pow(1 - |signedDist| / maxDim, exponent) / 2`, flipped to
`1 - alpha` for a negative distance, then
`Math.max(0, Math.min(255, Math.round(alpha * 255)))`.  The base is raised to
the power `sdfExponent` itself. -/
def sdfAlphaByte (signedDist maxDim : ℚ) (exponent : ℕ) : ℤ :=
  let alpha := (1 - |signedDist| / maxDim) ^ exponent / 2
  let alpha := if signedDist < 0 then 1 - alpha else alpha
  max 0 (min 255 (jsRound (alpha * 255)))

/-- The texel encoding as the spec's sentence reads, with the exponent used
as `1/exponent`: `root` stands for `pow(1 - |signedDist| / maxDim,
1/exponent)` and is supplied as an argument (to stay inside `ℚ`) satisfying
`root ^ exponent = 1 - |signedDist| / maxDim`.  This definition follows the
spec's words, for comparison with `sdfAlphaByte`. -/
def sdfAlphaByteSpec (signedDist : ℚ) (root : ℚ) : ℤ :=
  let alpha := root / 2
  let alpha := if signedDist < 0 then 1 - alpha else alpha
  max 0 (min 255 (jsRound (alpha * 255)))

/-- The texel double loop `for (sdfX) for (sdfY) { textureData[sdfY * sdfSize
+ sdfX] = alpha }`, with the per-texel signed distance abstracted as `dist`
(`findNearestSignedDistance` at the texel center in font units; C7 models
that function itself). -/
def renderSDFTexels (size : Nat) (dist : Nat → Nat → ℚ) (maxDim : ℚ)
    (exponent : ℕ) : List ℤ :=
  (List.range size).foldl (fun td sdfX =>
    (List.range size).foldl (fun td sdfY =>
      td.set (sdfY * size + sdfX) (sdfAlphaByte (dist sdfX sdfY) maxDim exponent)) td)
    (List.replicate (size * size) 0)

/-- `sdfExponent` from `CONFIG`. -/
def sdfExponent : ℕ := 9

/-! ## `createGlyphSegmentsIndex`: `findNearestSignedDistance`, `isPointInPoly`

The index stores line segments with precomputed bounding boxes and sorts them
by `maxX`; both queries walk the sorted array from the end with an early
`break`.  Coordinates are exact rationals; the one irrational quantity, the
running `closestDist = Math.sqrt(closestDistSq)`, never escapes the loop —
it is only compared against rational bounds — so the state carries
`closestDistSq : Option ℚ` (`none` is the initial `Infinity`) and each
comparison against `closestDist` is encoded exactly by the equivalent
squared comparison (`sqrtLeB`, `sqrtGtB`). -/

/-- One stored line segment (`addLineSegment`); `minX/minY/maxX/maxY` are the
stored precomputed bounds. -/
structure Segment where
  x0 : ℚ
  y0 : ℚ
  x1 : ℚ
  y1 : ℚ
  deriving Repr, DecidableEq

def Segment.minX (s : Segment) : ℚ := min s.x0 s.x1
def Segment.minY (s : Segment) : ℚ := min s.y0 s.y1
def Segment.maxX (s : Segment) : ℚ := max s.x0 s.x1
def Segment.maxY (s : Segment) : ℚ := max s.y0 s.y1

/-- `absSquareDistanceToLineSegment(x, y, lineX0, lineY0, lineX1, lineY1)`. -/
def absSquareDistanceToLineSegment (x y lineX0 lineY0 lineX1 lineY1 : ℚ) : ℚ :=
  let ldx := lineX1 - lineX0
  let ldy := lineY1 - lineY0
  let lengthSq := ldx * ldx + ldy * ldy
  let t := if lengthSq ≠ 0 then
      max 0 (min 1 (((x - lineX0) * ldx + (y - lineY0) * ldy) / lengthSq))
    else 0
  let dx := x - (lineX0 + t * ldx)
  let dy := y - (lineY0 + t * ldy)
  dx * dx + dy * dy

/-- The squared distance of a query point to one stored segment. -/
def segDistSq (x y : ℚ) (s : Segment) : ℚ :=
  absSquareDistanceToLineSegment x y s.x0 s.y0 s.x1 s.y1

/-- `sqrt csq ≤ r`, with `csq = none` standing for `Infinity` (then false). -/
def sqrtLeB : Option ℚ → ℚ → Bool
  | none, _ => false
  | some c, r => decide (0 ≤ r ∧ c ≤ r * r)

/-- `r < sqrt csq`, with `csq = none` standing for `Infinity` (then true). -/
def sqrtGtB : Option ℚ → ℚ → Bool
  | none, _ => true
  | some c, r => decide (r < 0 ∨ r * r < c)

/-- `distSq < closestDistSq` (`Infinity` on the right is always greater). -/
def ltSqB (d : ℚ) : Option ℚ → Bool
  | none => true
  | some c => decide (d < c)

/-- Insertion by `maxX` (stable), modelling
`segments.sort((a, b) => a.maxX - b.maxX)`. -/
def insertByMaxX (s : Segment) : List Segment → List Segment
  | [] => [s]
  | q :: rest => if s.maxX ≤ q.maxX then s :: q :: rest else q :: insertByMaxX s rest

/-- `sortSegments()`. -/
def sortByMaxX (l : List Segment) : List Segment := l.foldr insertByMaxX []

/-- The `findNearestSignedDistance` loop (`for (let i = segments.length; i--;)`
over the sorted array, so the argument list here is the sorted list
reversed): `break` when `seg.maxX + closestDist <= x`; skip the distance
computation unless the bounding box is within `closestDist`; keep the
smaller squared distance. -/
def findNSDLoop (x y : ℚ) : List Segment → Option ℚ → Option ℚ
  | [], csq => csq
  | seg :: rest, csq =>
    if sqrtLeB csq (x - seg.maxX) then csq
    else if sqrtGtB csq (seg.minX - x) && sqrtGtB csq (y - seg.maxY) &&
        sqrtGtB csq (seg.minY - y) then
      let distSq := segDistSq x y seg
      if ltSqB distSq csq then findNSDLoop x y rest (some distSq)
      else findNSDLoop x y rest csq
    else findNSDLoop x y rest csq

/-- The `isPointInPoly` east-pointing ray-cast loop (again from the end of
the sorted array): `break` when `seg.maxX <= x`. -/
def isPointInPolyLoop (x y : ℚ) : List Segment → Bool → Bool
  | [], inside => inside
  | seg :: rest, inside =>
    if seg.maxX ≤ x then inside
    else if seg.minY < y ∧ seg.maxY > y then
      let intersects :=
        (decide (seg.y0 > y) != decide (seg.y1 > y)) &&
        decide (x < (seg.x1 - seg.x0) * (y - seg.y0) / (seg.y1 - seg.y0) + seg.x0)
      isPointInPolyLoop x y rest (if intersects then !inside else inside)
    else isPointInPolyLoop x y rest inside

/-- `findNearestSignedDistance(x, y)` — the function takes no `maxRadius`:
the extra argument passed at the `generateSDF` call site is silently dropped
by JS.  The returned number is `(inside ? -1 : 1) · sqrt closestDistSq`;
since the square root is irrational the result is represented as the pair
(the `isPointInPoly` flag giving the sign, the final squared distance,
`none` for `Infinity`). -/
def findNearestSignedDistance (segments : List Segment) (x y : ℚ) :
    Bool × Option ℚ :=
  let sorted := sortByMaxX segments
  (isPointInPolyLoop x y sorted.reverse false,
   findNSDLoop x y sorted.reverse none)

/-- Whether one segment crosses the east-pointing ray from `(x, y)` — the
loop body's `intersects` combined with its bounding-box guard. -/
def crossesB (x y : ℚ) (s : Segment) : Bool :=
  decide (s.minY < y) && decide (s.maxY > y) &&
  (decide (s.y0 > y) != decide (s.y1 > y)) &&
  decide (x < (s.x1 - s.x0) * (y - s.y0) / (s.y1 - s.y0) + s.x0)

/-- Reference ray cast without sorting, pruning or `break`: fold the crossing
parity over the segments in stored order (used to state what the pruned loop
computes). -/
def rayCastInside (segments : List Segment) (x y : ℚ) : Bool :=
  segments.foldl (fun inside s => if crossesB x y s then !inside else inside) false

/-- Reference minimum squared distance starting from `csq`. -/
def minDistSqFrom (x y : ℚ) (l : List Segment) (csq : Option ℚ) : Option ℚ :=
  l.foldl (fun acc s =>
    match acc with
    | none => some (segDistSq x y s)
    | some c => some (min c (segDistSq x y s))) csq

/-- Reference minimum squared distance to any stored segment, without
sorting, pruning or `break` (`none` when there are no segments). -/
def minDistSqNaive (segments : List Segment) (x y : ℚ) : Option ℚ :=
  minDistSqFrom x y segments none

/-! # Theorems -/

/-! ## Table pinning -/

/-- The pinned table is exactly what `parseData` produces. -/
theorem bidiCharTypeTable_eq : bidiCharTypeTable = parsedBidiCharRanges := by decide

theorem getBidiCharType_spotChecks :
    getBidiCharType 0x5D0 = TYPE_R ∧ getBidiCharType 0x20 = TYPE_WS ∧
    getBidiCharType 0x61 = TYPE_L ∧ getBidiCharType 0x202B = TYPE_RLE ∧
    getBidiCharType 0x202A = TYPE_LRE ∧ getBidiCharType 0x28 = TYPE_ON ∧
    getBidiCharType 0xA = TYPE_B ∧ getBidiCharType 0x627 = TYPE_AL := by decide

/-- The pinned bracket tables are exactly what `parse$1` produces. -/
theorem bracketTables_eq :
    pairsOpenToCloseTable = (parseCharacterMap pairsData true).map ∧
    pairsCloseToOpenTable = (parseCharacterMap pairsData true).reverseMap ∧
    canonicalBracketTable = (parseCharacterMap canonicalData false).map := by decide

/-- The pinned mirror tables are exactly what `parse` produces. -/
theorem mirrorTables_eq :
    mirrorForwardTable = (parseCharacterMap mirrorData true).map ∧
    mirrorReverseTable = (parseCharacterMap mirrorData true).reverseMap := by decide

/-! ## C4: the empty string -/

/-- C4 counterexample: for the empty string the returned paragraphs list is
empty — it does not consist of one zero-length paragraph. -/
theorem getEmbeddingLevels_empty_paragraphs_counterexample :
    (getEmbeddingLevels [] BaseDirection.auto).paragraphs.length = 0 ∧
    (getEmbeddingLevels [] BaseDirection.auto).paragraphs.length ≠ 1 := by decide

/-- C4 (amended): for the empty input string, `getEmbeddingLevels` returns an
empty levels array and an empty paragraphs list. -/
theorem getEmbeddingLevels_empty (dir : BaseDirection) :
    getEmbeddingLevels [] dir = { levels := [], paragraphs := [] } := rfl

/-! ## C1: levels length and paragraph partition -/

/-- Generic preservation of a predicate along `List.foldl`. -/
theorem foldl_preserves {α β : Type} (f : β → α → β) (P : β → Prop)
    (h : ∀ b a, P b → P (f b a)) : ∀ (l : List α) (b), P b → P (l.foldl f b)
  | [], _, hb => hb
  | _ :: l, b, hb => foldl_preserves f P h l _ (h b _ hb)

/-- `ps` is a consecutive partition of the index interval `[a, b)`. -/
def CoversFrom : List Paragraph → Nat → Nat → Prop
  | [], a, b => a = b
  | p :: rest, a, b => p.start = a ∧ a ≤ p.endIdx ∧ p.endIdx < b ∧ CoversFrom rest (p.endIdx + 1) b

theorem coversFrom_mem_start_le {ps : List Paragraph} {a b : Nat}
    (h : CoversFrom ps a b) : ∀ q ∈ ps, a ≤ q.start := by
  induction ps generalizing a with
  | nil => intro q hq; cases hq
  | cons p rest ih =>
    obtain ⟨hstart, hle, _, hrest⟩ := h
    intro q hq
    rcases List.mem_cons.mp hq with rfl | hq
    · omega
    · have := ih hrest q hq; omega

/-- A consecutive partition assigns every covered index to exactly one
paragraph. -/
theorem coversFrom_exists_unique {ps : List Paragraph} {a b i : Nat}
    (h : CoversFrom ps a b) (hai : a ≤ i) (hib : i < b) :
    ∃! p, p ∈ ps ∧ p.start ≤ i ∧ i ≤ p.endIdx := by
  induction ps generalizing a with
  | nil => simp only [CoversFrom] at h; omega
  | cons p rest ih =>
    obtain ⟨hstart, hle, hlt, hrest⟩ := h
    by_cases hcase : i ≤ p.endIdx
    · refine ⟨p, ⟨List.mem_cons_self _ _, by omega, hcase⟩, ?_⟩
      rintro q ⟨hq, hqs, hqe⟩
      rcases List.mem_cons.mp hq with rfl | hq
      · rfl
      · have := coversFrom_mem_start_le hrest q hq; omega
    · obtain ⟨q, ⟨hqmem, hqs, hqe⟩, huniq⟩ := ih hrest (by omega)
      refine ⟨q, ⟨List.mem_cons_of_mem _ hqmem, hqs, hqe⟩, ?_⟩
      rintro r ⟨hr, hrs, hre⟩
      rcases List.mem_cons.mp hr with rfl | hr
      · omega
      · exact huniq r ⟨hr, hrs, hre⟩

/-- Closing one more paragraph extends the covered interval. -/
theorem coversFrom_append {xs : List Paragraph} {p : Paragraph} {a : Nat}
    (h : CoversFrom xs a p.start) (hse : p.start ≤ p.endIdx) :
    CoversFrom (xs ++ [p]) a (p.endIdx + 1) := by
  induction xs generalizing a with
  | nil =>
    simp only [CoversFrom] at h
    exact ⟨h.symm, by omega, by omega, rfl⟩
  | cons q rest ih =>
    obtain ⟨hq, hle, hlt, hrest⟩ := h
    exact ⟨hq, hle, by omega, ih hrest⟩

/-- Invariant of the P1 paragraph-splitting fold after the first `k` indices:
the closed paragraphs partition the indices before the open paragraph's start
(or before `k` when no paragraph is open), and the open paragraph started
before `k` with its `end` still initialized to `len - 1`. -/
def SplitInv (len k : Nat) : List Paragraph × Option Paragraph → Prop
  | (done, none) => CoversFrom done 0 k
  | (done, some p) => CoversFrom done 0 p.start ∧ p.start < k ∧ p.endIdx = len - 1

theorem splitInv_close {len k : Nat} {done : List Paragraph} (s lvl : Nat)
    (hc : CoversFrom done 0 s) (hs : s ≤ k) :
    SplitInv len (k + 1) (done ++ [{ start := s, endIdx := k, level := lvl }], none) := by
  have h := @coversFrom_append done { start := s, endIdx := k, level := lvl } 0 hc hs
  simpa [SplitInv] using h

theorem splitParagraphsStep_inv (charTypes : List Nat) (dir : BaseDirection)
    {k : Nat} (st : List Paragraph × Option Paragraph)
    (h : SplitInv charTypes.length k st) :
    SplitInv charTypes.length (k + 1) (splitParagraphsStep charTypes dir st k) := by
  obtain ⟨done, cur⟩ := st
  cases cur with
  | none =>
    simp only [SplitInv] at h
    simp only [splitParagraphsStep]
    split
    · exact splitInv_close _ _ h (Nat.le_refl k)
    · exact ⟨h, Nat.lt_succ_self k, rfl⟩
  | some p =>
    obtain ⟨hc, hlt, hend⟩ := h
    simp only [splitParagraphsStep]
    split
    · exact splitInv_close p.start p.level hc (Nat.le_of_lt hlt)
    · exact ⟨hc, Nat.lt_succ_of_lt hlt, hend⟩

theorem splitParagraphs_fold_inv (charTypes : List Nat) (dir : BaseDirection) :
    ∀ (n k : Nat) (st : List Paragraph × Option Paragraph),
      SplitInv charTypes.length k st →
        SplitInv charTypes.length (k + n)
          ((List.range' k n).foldl (splitParagraphsStep charTypes dir) st)
  | 0, k, st, h => h
  | n + 1, k, st, h => by
    rw [List.range'_succ, List.foldl_cons]
    have h' := splitParagraphs_fold_inv charTypes dir n (k + 1) _
      (splitParagraphsStep_inv charTypes dir st h)
    have : k + 1 + n = k + (n + 1) := by omega
    rwa [this] at h'

/-- P1 produces a consecutive partition of all character indices. -/
theorem splitParagraphs_covers (charTypes : List Nat) (dir : BaseDirection) :
    CoversFrom (splitParagraphs charTypes dir) 0 charTypes.length := by
  unfold splitParagraphs
  rw [List.range_eq_range']
  have h := splitParagraphs_fold_inv charTypes dir charTypes.length 0
    ([], none) (by simp [SplitInv, CoversFrom])
  rw [Nat.zero_add] at h
  set st := (List.range' 0 charTypes.length).foldl (splitParagraphsStep charTypes dir)
    ([], none) with hst
  obtain ⟨done, cur⟩ := st
  cases cur with
  | none => simpa [SplitInv] using h
  | some p =>
    obtain ⟨hc, hlt, hend⟩ := h
    have hcov : CoversFrom (done ++ [p]) 0 (p.endIdx + 1) :=
      coversFrom_append hc (by omega)
    have heq : p.endIdx + 1 = charTypes.length := by omega
    rw [heq] at hcov
    simpa using hcov

theorem length_l1ResetAux (string : List Nat) (level : Nat) :
    ∀ (l : List Nat) (levels : List Nat),
      (l1ResetAux string level l levels).length = levels.length
  | [], _ => rfl
  | j :: rest, levels => by
    unfold l1ResetAux
    split
    · rw [length_l1ResetAux string level rest]
      exact List.length_set ..
    · rfl

theorem length_implicitStep (string charTypes : List Nat) (paragraph : Paragraph)
    (levels : List Nat) (i : Nat) :
    (implicitStep string charTypes paragraph levels i).length = levels.length := by
  simp only [implicitStep]
  repeat' split
  all_goals simp [length_l1ResetAux, List.length_set]

theorem length_implicitPhase (string charTypes : List Nat) (paragraph : Paragraph)
    (levels : List Nat) :
    (implicitPhase string charTypes paragraph levels).length = levels.length := by
  unfold implicitPhase
  exact foldl_preserves (implicitStep string charTypes paragraph)
    (fun l => l.length = levels.length)
    (fun l i hl => by
      show (implicitStep string charTypes paragraph l i).length = levels.length
      rw [length_implicitStep]; exact hl) _ _ rfl

theorem embedLevels_setInitialCounts (st : ExplicitState) (t : Nat) :
    (setInitialCounts st t).embedLevels = st.embedLevels := rfl

theorem stack_setInitialCounts (st : ExplicitState) (t : Nat) :
    (setInitialCounts st t).stack = st.stack := rfl

theorem length_explicitStepEmbedding (p : Paragraph) (st : ExplicitState) (i t : Nat) :
    (explicitStepEmbedding p st i t).embedLevels.length = st.embedLevels.length := by
  simp only [explicitStepEmbedding]
  repeat' split
  all_goals simp [List.length_set]

theorem length_explicitStepOverride (p : Paragraph) (st : ExplicitState) (i t : Nat) :
    (explicitStepOverride p st i t).embedLevels.length = st.embedLevels.length := by
  simp only [explicitStepOverride]
  repeat' split
  all_goals simp [List.length_set]

theorem length_explicitStepIsolate (p : Paragraph) (st : ExplicitState) (i t : Nat) :
    (explicitStepIsolate p st i t).embedLevels.length = st.embedLevels.length := by
  simp only [explicitStepIsolate, changeCharType]
  repeat' split
  all_goals simp [List.length_set]

theorem length_explicitStepPDI (p : Paragraph) (st : ExplicitState) (i : Nat) :
    (explicitStepPDI p st i).embedLevels.length = st.embedLevels.length := by
  simp only [explicitStepPDI, changeCharType]
  repeat' split
  all_goals simp [List.length_set]

theorem length_explicitStepPDF (p : Paragraph) (st : ExplicitState) (i : Nat) :
    (explicitStepPDF p st i).embedLevels.length = st.embedLevels.length := by
  simp only [explicitStepPDF]
  repeat' split
  all_goals simp [List.length_set]

theorem length_explicitStepB (p : Paragraph) (st : ExplicitState) (i : Nat) :
    (explicitStepB p st i).embedLevels.length = st.embedLevels.length := by
  simp [explicitStepB, List.length_set]

theorem length_explicitStepOther (p : Paragraph) (st : ExplicitState) (i t : Nat) :
    (explicitStepOther p st i t).embedLevels.length = st.embedLevels.length := by
  simp only [explicitStepOther, changeCharType]
  repeat' split
  all_goals simp [List.length_set]

theorem length_explicitStep (paragraph : Paragraph) (st : ExplicitState) (i : Nat) :
    (explicitStep paragraph st i).embedLevels.length = st.embedLevels.length := by
  simp only [explicitStep]
  repeat' split
  all_goals simp only [length_explicitStepEmbedding, length_explicitStepOverride,
    length_explicitStepIsolate, length_explicitStepPDI, length_explicitStepPDF,
    length_explicitStepB, length_explicitStepOther, embedLevels_setInitialCounts]

theorem length_explicitPhase (paragraph : Paragraph) (charTypes levels : List Nat)
    (pairs : List (Nat × Nat)) :
    (explicitPhase paragraph charTypes levels pairs).embedLevels.length = levels.length := by
  unfold explicitPhase
  exact foldl_preserves (explicitStep paragraph)
    (fun st => st.embedLevels.length = levels.length)
    (fun st i hst => by
      show (explicitStep paragraph st i).embedLevels.length = levels.length
      rw [length_explicitStep]; exact hst) _ _ rfl

theorem length_processParagraph (string : List Nat) (st : ParaState) (paragraph : Paragraph) :
    (processParagraph string st paragraph).embedLevels.length = st.embedLevels.length := by
  simp only [processParagraph]
  rw [length_implicitPhase, length_explicitPhase]

/-- C1: for every input string and every base direction, the levels array has
exactly one entry per character, and the returned paragraphs partition the
character indices — every index lies in exactly one paragraph's
`[start, end]` range. -/
theorem getEmbeddingLevels_length_and_partition (string : List Nat) (dir : BaseDirection) :
    (getEmbeddingLevels string dir).levels.length = string.length ∧
    ∀ i, i < string.length →
      ∃! p, p ∈ (getEmbeddingLevels string dir).paragraphs ∧
        p.start ≤ i ∧ i ≤ p.endIdx := by
  constructor
  · show ((splitParagraphs (string.map getBidiCharType) dir).foldl (processParagraph string)
      { charTypes := string.map getBidiCharType,
        embedLevels := List.replicate string.length 0,
        isolationPairs := [] }).embedLevels.length = string.length
    have := foldl_preserves (processParagraph string)
      (fun st => st.embedLevels.length = string.length)
      (fun st p hst => by
        show (processParagraph string st p).embedLevels.length = string.length
        rw [length_processParagraph]; exact hst)
      (splitParagraphs (string.map getBidiCharType) dir)
      { charTypes := string.map getBidiCharType,
        embedLevels := List.replicate string.length 0,
        isolationPairs := [] }
      (by simp)
    exact this
  · intro i hi
    have hcov := splitParagraphs_covers (string.map getBidiCharType) dir
    have hpar : (getEmbeddingLevels string dir).paragraphs
        = splitParagraphs (string.map getBidiCharType) dir := rfl
    rw [hpar]
    exact coversFrom_exists_unique hcov (Nat.zero_le i)
      (by rw [List.length_map]; exact hi)

/-- Witness for C1 at the string `"ab"` and index `0`. -/
theorem getEmbeddingLevels_length_and_partition_witness :
    (0 : Nat) < ([97, 98] : List Nat).length ∧
    ∃! p, p ∈ (getEmbeddingLevels [97, 98] BaseDirection.auto).paragraphs ∧
      p.start ≤ 0 ∧ 0 ≤ p.endIdx :=
  ⟨by decide,
   (getEmbeddingLevels_length_and_partition [97, 98] BaseDirection.auto).2 0 (by decide)⟩

/-! ## C5: resolved levels are bounded by 126 (not 125) -/

theorem getD_set_ne (l : List Nat) (i v j : Nat) (h : i ≠ j) :
    (l.set i v).getD j 0 = l.getD j 0 := by
  simp [List.getD_eq_getElem?_getD, List.getElem?_set, h]

theorem getD_oob (l : List Nat) (i : Nat) (h : l.length ≤ i) : l.getD i 0 = 0 := by
  rw [List.getD_eq_getElem?_getD, List.getElem?_eq_none (by omega)]
  rfl

theorem getD_set_or (l : List Nat) (i v j : Nat) :
    (l.set i v).getD j 0 = l.getD j 0 ∨ (l.set i v).getD j 0 = v := by
  by_cases h : i = j
  · subst h
    by_cases hl : i < l.length
    · right; simp [List.getD_eq_getElem?_getD, List.getElem?_set, hl]
    · left; rw [List.set_eq_of_length_le (by omega)]
  · left; exact getD_set_ne l i v j h

theorem getD_set_self_le (l : List Nat) (i v b : Nat) (hv : v ≤ b) :
    (l.set i v).getD i 0 ≤ b := by
  by_cases hl : i < l.length
  · simp only [List.getD_eq_getElem?_getD, List.getElem?_set, if_pos rfl, if_pos hl,
      Option.getD_some]
    exact hv
  · rw [List.set_eq_of_length_le (by omega), getD_oob l i (by omega)]
    exact Nat.zero_le b

theorem charTypesOK_getD {ct : List Nat} (h : CharTypesOK ct) (i : Nat) :
    ct.getD i 0 ∈ TYPE_VALUES := by
  by_cases hl : i < ct.length
  · rw [List.getD_eq_getElem?_getD, List.getElem?_eq_getElem hl]
    exact h _ (List.getElem_mem ..)
  · rw [getD_oob ct i (by omega)]
    decide

theorem charTypesOK_set {ct : List Nat} (h : CharTypesOK ct) {v : Nat}
    (hv : v ∈ TYPE_VALUES) (i : Nat) : CharTypesOK (ct.set i v) := by
  intro t ht
  rcases List.mem_or_eq_of_mem_set ht with ht | rfl
  · exact h t ht
  · exact hv

theorem changeCharType_fst (ct : List Nat) (counts : List (Nat × Nat)) (i v : Nat) :
    (changeCharType ct counts i v).1 = ct.set i v := rfl

theorem popWhileNotIsolate_mem :
    ∀ (l : List StatusStackEntry), ∀ e ∈ popWhileNotIsolate l, e ∈ l
  | [], _, he => he
  | x :: rest, e, he => by
    unfold popWhileNotIsolate at he
    split at he
    · exact he
    · exact List.mem_cons_of_mem _ (popWhileNotIsolate_mem rest e he)

theorem tail_mem {α : Type} (l : List α) : ∀ e ∈ l.tail, e ∈ l := by
  cases l with
  | nil => intro e he; exact he
  | cons x rest => intro e he; exact List.mem_cons_of_mem _ he

theorem stackOK_headD {stack : List StatusStackEntry} (h : StackOK stack)
    {p : Paragraph} (hp : p.level ≤ 125) :
    (stack.headD ⟨p.level, 0, false, none⟩).level ≤ 125 ∧
    ((stack.headD ⟨p.level, 0, false, none⟩).override = 0 ∨
     (stack.headD ⟨p.level, 0, false, none⟩).override = TYPE_L ∨
     (stack.headD ⟨p.level, 0, false, none⟩).override = TYPE_R) := by
  cases stack with
  | nil => exact ⟨hp, Or.inl rfl⟩
  | cons x rest => exact h x (List.mem_cons_self _ _)

theorem override_in_values {o : Nat} (h : o = 0 ∨ o = TYPE_L ∨ o = TYPE_R) :
    o ∈ TYPE_VALUES := by
  rcases h with rfl | rfl | rfl <;> decide

theorem shape_setInitialCounts (st : ExplicitState) (t : Nat)
    (hct : CharTypesOK st.charTypes) (hstack : StackOK st.stack) :
    CharTypesOK (setInitialCounts st t).charTypes ∧ StackOK (setInitialCounts st t).stack ∧
    (setInitialCounts st t).embedLevels = st.embedLevels := ⟨hct, hstack, rfl⟩

theorem shape_explicitStepEmbedding (p : Paragraph) (st : ExplicitState) (i t : Nat)
    (hp : p.level ≤ 125) (hstack : StackOK st.stack) :
    StepShape st (explicitStepEmbedding p st i t) i := by
  have htop := stackOK_headD hstack hp
  simp only [explicitStepEmbedding, MAX_DEPTH]
  repeat' first
    | split
    | dsimp only
  all_goals
    refine ⟨?_, Or.inr ⟨_, htop.1, rfl⟩⟩ <;>
      first
      | exact hstack
      | (intro e he
         rcases List.mem_cons.mp he with rfl | he
         · refine ⟨?_, Or.inl rfl⟩
           dsimp only
           omega
         · exact hstack e he)

theorem shape_explicitStepOverride (p : Paragraph) (st : ExplicitState) (i t : Nat)
    (hp : p.level ≤ 125) (hstack : StackOK st.stack) :
    StepShape st (explicitStepOverride p st i t) i := by
  have htop := stackOK_headD hstack hp
  simp only [explicitStepOverride, MAX_DEPTH]
  repeat' first
    | split
    | dsimp only
  all_goals
    refine ⟨?_, Or.inr ⟨_, htop.1, rfl⟩⟩ <;>
      first
      | exact hstack
      | (intro e he
         rcases List.mem_cons.mp he with rfl | he
         · refine ⟨?_, ?_⟩
           · dsimp only
             omega
           · first
             | exact Or.inl rfl
             | exact Or.inr (Or.inl rfl)
             | exact Or.inr (Or.inr rfl)
         · exact hstack e he)

theorem shape_explicitStepIsolate (p : Paragraph) (st : ExplicitState) (i t : Nat)
    (hp : p.level ≤ 125) (hstack : StackOK st.stack) :
    StepShape st (explicitStepIsolate p st i t) i := by
  have htop := stackOK_headD hstack hp
  simp only [explicitStepIsolate, MAX_DEPTH, changeCharType]
  repeat' first
    | split
    | dsimp only
  all_goals
    refine ⟨?_, Or.inr ⟨_, htop.1, rfl⟩⟩ <;>
      first
      | exact hstack
      | (intro e he
         rcases List.mem_cons.mp he with rfl | he
         · refine ⟨?_, Or.inl rfl⟩
           dsimp only
           omega
         · exact hstack e he)

theorem shape_explicitStepPDI (p : Paragraph) (st : ExplicitState) (i : Nat)
    (hp : p.level ≤ 125) (hstack : StackOK st.stack) :
    StepShape st (explicitStepPDI p st i) i := by
  have htop := stackOK_headD hstack hp
  have hpop : StackOK (popWhileNotIsolate st.stack).tail := fun e he =>
    hstack e (popWhileNotIsolate_mem _ e (tail_mem _ e he))
  have htop' := stackOK_headD hpop hp
  simp only [explicitStepPDI, changeCharType]
  repeat' first
    | split
    | dsimp only
  all_goals
    refine ⟨?_, Or.inr ⟨_, ?_, rfl⟩⟩ <;>
      first
      | exact hstack
      | exact hpop
      | exact htop.1
      | exact htop'.1

theorem shape_explicitStepPDF (p : Paragraph) (st : ExplicitState) (i : Nat)
    (hp : p.level ≤ 125) (hstack : StackOK st.stack) :
    StepShape st (explicitStepPDF p st i) i := by
  have htop := stackOK_headD hstack hp
  have htail : StackOK st.stack.tail := fun e he => hstack e (tail_mem _ e he)
  have htopTail := stackOK_headD htail hp
  simp only [explicitStepPDF]
  repeat' first
    | split
    | dsimp only
  all_goals
    refine ⟨?_, Or.inr ⟨_, ?_, rfl⟩⟩ <;>
      first
      | exact hstack
      | exact htail
      | exact htop.1
      | exact htopTail.1

theorem shape_explicitStepB (p : Paragraph) (st : ExplicitState) (i : Nat)
    (hp : p.level ≤ 125) (hstack : StackOK st.stack) :
    StepShape st (explicitStepB p st i) i :=
  ⟨hstack, Or.inr ⟨_, hp, rfl⟩⟩

theorem shape_explicitStepOther (p : Paragraph) (st : ExplicitState) (i t : Nat)
    (hp : p.level ≤ 125) (hstack : StackOK st.stack) :
    StepShape st (explicitStepOther p st i t) i := by
  have htop := stackOK_headD hstack hp
  simp only [explicitStepOther, changeCharType]
  repeat' first
    | split
    | dsimp only
  all_goals
    exact ⟨hstack, Or.inr ⟨_, htop.1, rfl⟩⟩

theorem shape_explicitStep (p : Paragraph) (st : ExplicitState) (i : Nat)
    (hp : p.level ≤ 125) (hstack : StackOK st.stack) :
    StepShape st (explicitStep p st i) i := by
  simp only [explicitStep]
  repeat' split
  all_goals
    first
    | exact shape_explicitStepEmbedding p _ i _ hp hstack
    | exact shape_explicitStepOverride p _ i _ hp hstack
    | exact shape_explicitStepIsolate p _ i _ hp hstack
    | exact shape_explicitStepPDI p _ i hp hstack
    | exact shape_explicitStepPDF p _ i hp hstack
    | exact shape_explicitStepB p _ i hp hstack
    | exact shape_explicitStepOther p _ i _ hp hstack
    | exact ⟨hstack, Or.inl rfl⟩

/-! ## C5: bounds on the resolved embedding levels -/

theorem foldl_range'_inv {β : Type} (f : β → Nat → β) (Q : β → Nat → Prop) :
    ∀ (n s : Nat) (b : β),
      (∀ b' i, s ≤ i → i < s + n → Q b' i → Q (f b' i) (i + 1)) → Q b s →
      Q ((List.range' s n).foldl f b) (s + n)
  | 0, _, _, _, hb => hb
  | n + 1, s, b, hstep, hb => by
    rw [List.range'_succ, List.foldl_cons]
    have h' := foldl_range'_inv f Q n (s + 1) (f b s)
      (fun b' i hi1 hi2 hq => hstep b' i (by omega) (by omega) hq)
      (hstep b s (Nat.le_refl s) (by omega) hb)
    have heq : s + 1 + n = s + (n + 1) := by omega
    rwa [heq] at h'

theorem getD_le_bound {el : List Nat} {c : Nat} (h : ∀ l ∈ el, l ≤ c) (j : Nat) :
    el.getD j 0 ≤ c := by
  by_cases hl : j < el.length
  · rw [List.getD_eq_getElem?_getD, List.getElem?_eq_getElem hl]
    exact h _ (List.getElem_mem ..)
  · rw [getD_oob el j (by omega)]
    exact Nat.zero_le c

theorem getD_replicate_zero (n j : Nat) : (List.replicate n 0).getD j 0 = 0 := by
  by_cases h : j < n
  · rw [List.getD_eq_getElem?_getD,
      List.getElem?_eq_getElem (by simp only [List.length_replicate]; omega)]
    simp
  · rw [getD_oob _ _ (by simp only [List.length_replicate]; omega)]

theorem l1ResetAux_mem (string : List Nat) (lvl : Nat) :
    ∀ (idxs el : List Nat), ∀ l ∈ l1ResetAux string lvl idxs el, l ∈ el ∨ l = lvl := by
  intro idxs
  induction idxs with
  | nil => intro el l hl; exact Or.inl hl
  | cons x rest ih =>
    intro el l hl
    simp only [l1ResetAux] at hl
    split at hl
    · rcases ih _ l hl with hmem | rfl
      · rcases List.mem_or_eq_of_mem_set hmem with hmem | rfl
        · exact Or.inl hmem
        · exact Or.inr rfl
      · exact Or.inr rfl
    · exact Or.inl hl

theorem l1ResetAux_getD_high (string : List Nat) (lvl : Nat) :
    ∀ (idxs el : List Nat) (j : Nat), (∀ x ∈ idxs, x < j) →
      (l1ResetAux string lvl idxs el).getD j 0 = el.getD j 0 := by
  intro idxs
  induction idxs with
  | nil => intro el j _; rfl
  | cons x rest ih =>
    intro el j hx
    simp only [l1ResetAux]
    split
    · rw [ih _ j (fun y hy => hx y (List.mem_cons_of_mem _ hy)),
        getD_set_ne _ _ _ _ (by have := hx x (List.mem_cons_self _ _); omega)]
    · rfl

theorem midLevelsInv_of_im {p : Paragraph} {i : Nat} {el : List Nat}
    (h : ImLevelsInv p i el) : MidLevelsInv p i el :=
  ⟨h.1, fun j hj => h.2.1 j (by omega), h.2.2⟩

theorem imLevelsInv_of_mid {p : Paragraph} {i : Nat} {el : List Nat}
    (h : MidLevelsInv p i el) : ImLevelsInv p (i + 1) el :=
  ⟨h.1, fun j hj => h.2.1 j (by omega), h.2.2⟩

theorem midLevelsInv_set {p : Paragraph} {i : Nat} (hie : i ≤ p.endIdx) {el : List Nat}
    (h : MidLevelsInv p i el) (v : Nat) (hv : v ≤ 126) : MidLevelsInv p i (el.set i v) := by
  refine ⟨?_, ?_, ?_⟩
  · intro l hl
    rcases List.mem_or_eq_of_mem_set hl with hl | rfl
    · exact h.1 l hl
    · exact hv
  · intro j hj
    rw [getD_set_ne _ _ _ _ (by omega)]
    exact h.2.1 j hj
  · intro j hj
    rw [getD_set_ne _ _ _ _ (by omega)]
    exact h.2.2 j hj

theorem midLevelsInv_l1ResetAux (string : List Nat) {p : Paragraph} {i : Nat}
    (hp : p.level ≤ 1) (idxs el : List Nat) (hidx : ∀ x ∈ idxs, x ≤ i)
    (hie : i ≤ p.endIdx) (h : MidLevelsInv p i el) :
    MidLevelsInv p i (l1ResetAux string p.level idxs el) := by
  refine ⟨?_, ?_, ?_⟩
  · intro l hl
    rcases l1ResetAux_mem string p.level idxs el l hl with hl | rfl
    · exact h.1 l hl
    · omega
  · intro j hj
    rw [l1ResetAux_getD_high string p.level idxs el j
      (fun x hx => by have := hidx x hx; omega)]
    exact h.2.1 j hj
  · intro j hj
    rw [l1ResetAux_getD_high string p.level idxs el j
      (fun x hx => by have := hidx x hx; omega)]
    exact h.2.2 j hj

theorem implicitStep_inv (string charTypes : List Nat) (p : Paragraph) (el : List Nat)
    (i : Nat) (hp : p.level ≤ 1) (hie : i ≤ p.endIdx) (h : ImLevelsInv p i el) :
    ImLevelsInv p (i + 1) (implicitStep string charTypes p el i) := by
  have hlev : el.getD i 0 ≤ 125 := h.2.1 i (Nat.le_refl i)
  have hmid : MidLevelsInv p i el := midLevelsInv_of_im h
  refine imLevelsInv_of_mid ?_
  simp only [implicitStep]
  repeat' split
  all_goals
    repeat'
      first
      | exact hmid
      | refine midLevelsInv_l1ResetAux string hp _ _
          (fun x hx => by simp only [List.mem_reverse, List.mem_range] at hx; omega) hie ?_
      | refine midLevelsInv_set hie ?_ _ (by omega)
      | refine midLevelsInv_set hie ?_ _ (getD_le_bound ?_ _)
      | exact hmid.1
      | (intro l hl
         rcases List.mem_or_eq_of_mem_set hl with hl | rfl
         · exact hmid.1 l hl
         · omega)

theorem implicitPhase_inv (string charTypes : List Nat) (p : Paragraph) (el : List Nat)
    (hp : p.level ≤ 1) (hse : p.start ≤ p.endIdx) (h : ImLevelsInv p p.start el) :
    ImLevelsInv p (p.endIdx + 1) (implicitPhase string charTypes p el) := by
  rw [implicitPhase]
  have h2 := foldl_range'_inv (implicitStep string charTypes p)
    (fun el' i => ImLevelsInv p i el') (p.endIdx + 1 - p.start) p.start el
    (fun el' i hi1 hi2 hq => implicitStep_inv string charTypes p el' i hp (by omega) hq) h
  have heq : p.start + (p.endIdx + 1 - p.start) = p.endIdx + 1 := by omega
  rwa [heq] at h2

theorem exLevelsInv_step (p : Paragraph) (st : ExplicitState) (i : Nat)
    (hp : p.level ≤ 125) (hie : i ≤ p.endIdx) (h : ExLevelsInv p st) :
    ExLevelsInv p (explicitStep p st i) := by
  obtain ⟨hstack, h126, h125, h0⟩ := h
  obtain ⟨hstack', hel⟩ := shape_explicitStep p st i hp hstack
  rcases hel with heq | ⟨v, hv, heq⟩
  · refine ⟨hstack', ?_, ?_, ?_⟩ <;> rw [heq]
    · exact h126
    · exact h125
    · exact h0
  · refine ⟨hstack', ?_, ?_, ?_⟩ <;> rw [heq]
    · intro l hl
      rcases List.mem_or_eq_of_mem_set hl with hl | rfl
      · exact h126 l hl
      · omega
    · intro j hj
      rcases getD_set_or st.embedLevels i v j with hh | hh <;> rw [hh]
      · exact h125 j hj
      · omega
    · intro j hj
      rw [getD_set_ne _ _ _ _ (by omega)]
      exact h0 j hj

theorem explicitPhase_inv (p : Paragraph) (charTypes el : List Nat)
    (pairs : List (Nat × Nat)) (hp : p.level ≤ 1) (hse : p.start ≤ p.endIdx)
    (h126 : ∀ l ∈ el, l ≤ 126) (h0 : ∀ j, p.start ≤ j → el.getD j 0 = 0) :
    ExLevelsInv p (explicitPhase p charTypes el pairs) := by
  have hinit : ExLevelsInv p
      { charTypes := charTypes, embedLevels := el, counts := []
        stack := [⟨p.level, 0, false, none⟩]
        overflowIsolateCount := 0, overflowEmbeddingCount := 0, validIsolateCount := 0
        isolationPairs := pairs } := by
    refine ⟨?_, h126, ?_, ?_⟩
    · intro e he
      rcases List.mem_cons.mp he with rfl | he
      · refine ⟨?_, Or.inl rfl⟩
        show p.level ≤ 125
        omega
      · cases he
    · intro j hj
      rw [h0 j hj]
      exact Nat.zero_le 125
    · intro j hj
      exact h0 j (by omega)
  rw [explicitPhase]
  exact foldl_range'_inv (explicitStep p) (fun st _ => ExLevelsInv p st)
    (p.endIdx + 1 - p.start) p.start _
    (fun st' i hi1 hi2 hq => exLevelsInv_step p st' i (by omega) (by omega) hq) hinit

theorem processParagraph_inv (string : List Nat) (st : ParaState) (p : Paragraph)
    (hp : p.level ≤ 1) (hse : p.start ≤ p.endIdx)
    (h126 : ∀ l ∈ st.embedLevels, l ≤ 126)
    (h0 : ∀ j, p.start ≤ j → st.embedLevels.getD j 0 = 0) :
    (∀ l ∈ (processParagraph string st p).embedLevels, l ≤ 126) ∧
    ∀ j, p.endIdx < j → (processParagraph string st p).embedLevels.getD j 0 = 0 := by
  have hex := explicitPhase_inv p st.charTypes st.embedLevels st.isolationPairs hp hse h126 h0
  have him : ImLevelsInv p p.start
      (explicitPhase p st.charTypes st.embedLevels st.isolationPairs).embedLevels :=
    ⟨hex.2.1, hex.2.2.1, hex.2.2.2⟩
  have hfin := fun ct => implicitPhase_inv string ct p
    (explicitPhase p st.charTypes st.embedLevels st.isolationPairs).embedLevels hp hse him
  exact ⟨(hfin _).1, fun j hj => (hfin _).2.2 j hj⟩

theorem determineAutoEmbedLevelAux_le_one (charTypes : List Nat) (isFSI : Bool) :
    ∀ (l : List Nat) (skip : Nat), determineAutoEmbedLevelAux charTypes isFSI l skip ≤ 1 := by
  intro l
  induction l with
  | nil =>
    intro skip
    simp only [determineAutoEmbedLevelAux]
    omega
  | cons i rest ih =>
    intro skip
    simp only [determineAutoEmbedLevelAux]
    repeat' split
    all_goals first | omega | apply ih

theorem determineAutoEmbedLevel_le_one (charTypes : List Nat) (start : Nat) (isFSI : Bool) :
    determineAutoEmbedLevel charTypes start isFSI ≤ 1 :=
  determineAutoEmbedLevelAux_le_one charTypes isFSI _ 0

theorem splitParagraphsStep_level_le (charTypes : List Nat) (dir : BaseDirection)
    (st : List Paragraph × Option Paragraph) (i : Nat)
    (h : (∀ p ∈ st.1, p.level ≤ 1) ∧ ∀ p, st.2 = some p → p.level ≤ 1) :
    (∀ p ∈ (splitParagraphsStep charTypes dir st i).1, p.level ≤ 1) ∧
    ∀ p, (splitParagraphsStep charTypes dir st i).2 = some p → p.level ≤ 1 := by
  obtain ⟨done, cur⟩ := st
  obtain ⟨hdone, hcur⟩ := h
  have happ : ∀ (q : Paragraph), q.level ≤ 1 → ∀ p ∈ done ++ [q], p.level ≤ 1 := by
    intro q hq r hr
    rcases List.mem_append.mp hr with hr | hr
    · exact hdone r hr
    · rw [List.mem_singleton] at hr
      subst hr
      exact hq
  simp only [splitParagraphsStep]
  cases cur with
  | some p =>
    have hp := hcur p rfl
    dsimp only
    split
    · exact ⟨happ _ hp, fun q hq => by cases hq⟩
    · exact ⟨hdone, fun q hq => by cases hq; exact hp⟩
  | none =>
    dsimp only
    have hnew : (match dir with
        | BaseDirection.rtl => 1
        | BaseDirection.ltr => 0
        | BaseDirection.auto => determineAutoEmbedLevel charTypes i false) ≤ 1 := by
      cases dir
      all_goals dsimp only
      all_goals first | omega | exact determineAutoEmbedLevel_le_one charTypes i false
    split
    · exact ⟨happ _ hnew, fun q hq => by cases hq⟩
    · exact ⟨hdone, fun q hq => by cases hq; exact hnew⟩

theorem splitParagraphs_level_le_one (charTypes : List Nat) (dir : BaseDirection) :
    ∀ p ∈ splitParagraphs charTypes dir, p.level ≤ 1 := by
  have h := foldl_preserves (splitParagraphsStep charTypes dir)
    (fun st => (∀ p ∈ st.1, p.level ≤ 1) ∧ ∀ p, st.2 = some p → p.level ≤ 1)
    (fun st i hst => splitParagraphsStep_level_le charTypes dir st i hst)
    (List.range charTypes.length) ([], none)
    ⟨fun p hp => absurd hp (List.not_mem_nil p), fun p hp => by cases hp⟩
  unfold splitParagraphs
  set st := (List.range charTypes.length).foldl (splitParagraphsStep charTypes dir)
    ([], none) with hst
  obtain ⟨done, cur⟩ := st
  obtain ⟨hdone, hcur⟩ := h
  cases cur with
  | none => exact hdone
  | some p =>
    intro q hq
    dsimp only at hq
    rcases List.mem_append.mp hq with hq | hq
    · exact hdone q hq
    · rw [List.mem_singleton] at hq
      rw [hq]
      exact hcur p rfl

theorem paragraphsFold_le (string : List Nat) :
    ∀ (ps : List Paragraph) (st : ParaState) (a b : Nat),
      CoversFrom ps a b → (∀ p ∈ ps, p.level ≤ 1) →
      (∀ l ∈ st.embedLevels, l ≤ 126) →
      (∀ j, a ≤ j → st.embedLevels.getD j 0 = 0) →
      ∀ l ∈ (ps.foldl (processParagraph string) st).embedLevels, l ≤ 126
  | [], _, _, _, _, _, h126, _ => h126
  | p :: rest, st, a, b, hcov, hlev, h126, h0 => by
    obtain ⟨hstart, hle, hlt, hrest⟩ := hcov
    have h' := processParagraph_inv string st p (hlev p (List.mem_cons_self _ _))
      (by omega) h126 (fun j hj => h0 j (by omega))
    rw [List.foldl_cons]
    exact paragraphsFold_le string rest _ (p.endIdx + 1) b hrest
      (fun q hq => hlev q (List.mem_cons_of_mem _ hq)) h'.1
      (fun j hj => h'.2 j (by omega))

theorem getEmbeddingLevels_levels_le (string : List Nat) (dir : BaseDirection) :
    ∀ l ∈ (getEmbeddingLevels string dir).levels, l ≤ 126 := by
  simp only [getEmbeddingLevels]
  exact paragraphsFold_le string (splitParagraphs (string.map getBidiCharType) dir)
    _ 0 (string.map getBidiCharType).length
    (splitParagraphs_covers (string.map getBidiCharType) dir)
    (splitParagraphs_level_le_one (string.map getBidiCharType) dir)
    (fun l hl => by rw [List.eq_of_mem_replicate hl]; exact Nat.zero_le 126)
    (fun j _ => getD_replicate_zero string.length j)

/-- C5 counterexample: 125 nested RLE/LRE embeddings followed by a letter
drive that letter's resolved level to 126 (the explicit pass caps the stack
at `MAX_DEPTH = 125`, and rule I2 then raises an L character on the odd level
125 by one), so the spec's claimed 0–125 range for the returned levels is
exceeded. -/
theorem getEmbeddingLevels_level_126_counterexample :
    126 ∈ (getEmbeddingLevels
      (0x202B :: (List.replicate 62 [0x202A, 0x202B]).flatten ++ [0x61])
      BaseDirection.ltr).levels ∧ ¬ (126 ≤ 125) := by decide

/-- C5 (amended): for every input string and base direction, every entry of
the levels array returned by `getEmbeddingLevels` is at most 126 — not 125 as
the spec claims; rules I1/I2 can raise a character sitting on the maximal
explicit level 125 by one. -/
theorem getEmbeddingLevels_levels_le_126 (string : List Nat) (dir : BaseDirection) :
    ∀ l ∈ (getEmbeddingLevels string dir).levels, l ≤ 126 :=
  getEmbeddingLevels_levels_le string dir

/-- Witness for C5 at the string `"a"` with forced LTR direction. -/
theorem getEmbeddingLevels_levels_le_126_witness :
    0 ∈ (getEmbeddingLevels [97] BaseDirection.ltr).levels ∧ (0 : Nat) ≤ 126 :=
  ⟨by decide, getEmbeddingLevels_levels_le_126 [97] BaseDirection.ltr 0 (by decide)⟩

/-! ## C10: `getMirroredCharacter` is a symmetric partial involution -/

/-- Decidable check backing C10: for every entry `(k, v)` of the combined
mirror map, looking `v` up yields `k`. -/
theorem mirror_involution_check :
    (mirrorMergedTable.all
      (fun kv => getMirroredCharacter kv.2 == some kv.1)) = true := by decide

/-- C10: for every character `c`, if `getMirroredCharacter c` returns a
mirrored character `m`, then `getMirroredCharacter m` returns `c` — the mirror
map contains both directions of every pair. -/
theorem getMirroredCharacter_involutive (c m : Nat)
    (h : getMirroredCharacter c = some m) : getMirroredCharacter m = some c := by
  have hmem : (c, m) ∈ mirrorMergedTable := by
    unfold getMirroredCharacter findInPairs at h
    cases hr : mirrorMergedTable.find? (fun kv => kv.1 == c) with
    | some kv =>
        have h1 : kv.1 = c := by simpa using List.find?_some hr
        have h2 : kv.2 = m := by rw [hr] at h; simpa using h
        have := List.mem_of_find?_eq_some hr
        rwa [show kv = (c, m) from Prod.ext h1 h2] at this
    | none => rw [hr] at h; simp at h
  have hall := List.all_eq_true.mp mirror_involution_check _ hmem
  simpa using hall

/-- Witness for C10 at the parenthesis pair `( ↦ )` (codepoints 40, 41). -/
theorem getMirroredCharacter_involutive_witness :
    getMirroredCharacter 40 = some 41 ∧ getMirroredCharacter 41 = some 40 :=
  ⟨by decide, getMirroredCharacter_involutive 40 41 (by decide)⟩

/-! ## C8: atlas index allocation -/

theorem findInPairs_cons_self (k v : Nat) (t : List (Nat × Nat)) :
    findInPairs ((k, v) :: t) k = some v := by
  simp [findInPairs, List.find?_cons_of_pos]

theorem findInPairs_cons_ne (k v c : Nat) (t : List (Nat × Nat)) (h : c ≠ k) :
    findInPairs ((k, v) :: t) c = findInPairs t c := by
  simp only [findInPairs]
  rw [List.find?_cons_of_neg]
  simp [h.symm]

theorem atlasGetOrAdd_repeat (a : Atlas) (k : Nat) :
    atlasGetOrAdd (atlasGetOrAdd a k).1 k = atlasGetOrAdd a k := by
  cases hl : atlasLookup a k with
  | some idx =>
    simp only [atlasGetOrAdd, hl]
  | none =>
    simp only [atlasGetOrAdd, hl]
    have h2 : atlasLookup
        { glyphs := (k, a.glyphCount) :: a.glyphs, glyphCount := a.glyphCount + 1 } k
        = some a.glyphCount := findInPairs_cons_self _ _ _
    simp only [h2]

theorem range_map_add_succ (n c : Nat) :
    (List.range (n + 1)).map (fun i => c + i)
      = c :: (List.range n).map (fun i => c + 1 + i) := by
  rw [List.range_succ_eq_map, List.map_cons, List.map_map]
  congr 1
  refine List.map_congr_left fun i _ => ?_
  simp only [Function.comp_apply]
  omega

theorem atlasProcessAll_fresh (ks : List Nat) :
    ∀ (a : Atlas), ks.Nodup → (∀ g ∈ ks, atlasLookup a g = none) →
      (atlasProcessAll a ks).2 = (List.range ks.length).map (fun i => a.glyphCount + i) ∧
      (atlasProcessAll a ks).1.glyphCount = a.glyphCount + ks.length := by
  induction ks with
  | nil => intro a _ _; exact ⟨rfl, rfl⟩
  | cons k rest ih =>
    intro a hnd hnew
    have hk := hnew k (List.mem_cons_self _ _)
    have hrest : ∀ g ∈ rest, atlasLookup
        { glyphs := (k, a.glyphCount) :: a.glyphs, glyphCount := a.glyphCount + 1 } g
        = none := by
      intro g hg
      have hne : g ≠ k := by
        rintro rfl
        exact (List.nodup_cons.mp hnd).1 hg
      show findInPairs ((k, a.glyphCount) :: a.glyphs) g = none
      rw [findInPairs_cons_ne _ _ _ _ hne]
      exact hnew g (List.mem_cons_of_mem _ hg)
    obtain ⟨hres, hcount⟩ := ih _ (List.nodup_cons.mp hnd).2 hrest
    simp only [atlasProcessAll, atlasGetOrAdd, hk, List.length_cons]
    constructor
    · rw [hres, range_map_add_succ]
    · rw [hcount]
      dsimp only
      omega

/-- C8: requesting the same glyph index a second time returns the atlas
unchanged with the same atlas index, and requesting `N` distinct
previously-unseen glyph indices assigns exactly the `N` consecutive atlas
indices `glyphCount, …, glyphCount + N - 1` (and raises `glyphCount` by
`N`). -/
theorem atlas_allocation (atlas : Atlas) (k : Nat) (ks : List Nat)
    (hnd : ks.Nodup) (hnew : ∀ g ∈ ks, atlasLookup atlas g = none) :
    atlasGetOrAdd (atlasGetOrAdd atlas k).1 k = atlasGetOrAdd atlas k ∧
    (atlasProcessAll atlas ks).2
      = (List.range ks.length).map (fun i => atlas.glyphCount + i) ∧
    (atlasProcessAll atlas ks).1.glyphCount = atlas.glyphCount + ks.length :=
  ⟨atlasGetOrAdd_repeat atlas k, (atlasProcessAll_fresh ks atlas hnd hnew).1,
   (atlasProcessAll_fresh ks atlas hnd hnew).2⟩

/-- Witness for C8: an empty atlas, a repeated request for glyph 3 and fresh
requests for glyphs 5 and 7. -/
theorem atlas_allocation_witness :
    ([5, 7] : List Nat).Nodup ∧
    (atlasGetOrAdd (atlasGetOrAdd (⟨[], 0⟩ : Atlas) 3).1 3
        = atlasGetOrAdd (⟨[], 0⟩ : Atlas) 3 ∧
      (atlasProcessAll (⟨[], 0⟩ : Atlas) [5, 7]).2
        = (List.range ([5, 7] : List Nat).length).map
            (fun i => (⟨[], 0⟩ : Atlas).glyphCount + i) ∧
      (atlasProcessAll (⟨[], 0⟩ : Atlas) [5, 7]).1.glyphCount
        = (⟨[], 0⟩ : Atlas).glyphCount + ([5, 7] : List Nat).length) :=
  ⟨by decide, atlas_allocation ⟨[], 0⟩ 3 [5, 7] (by decide) (by decide)⟩

/-! ## C9: justify distributes exactly the missing width -/

theorem widthSum_cons (g : GlyphInfo) (gs : List GlyphInfo) :
    widthSum (g :: gs) = g.width + widthSum gs := by
  simp [widthSum]

theorem widthSum_justifyGlyphsAux (lineXOffset justifyAdjust : ℚ) (cutoff : Nat) :
    ∀ (gs : List GlyphInfo) (i : Nat) (offset : ℚ),
      widthSum (justifyGlyphsAux lineXOffset justifyAdjust cutoff gs i offset)
        = widthSum gs + justifyAdjust * (wsCountBelow cutoff gs i : ℚ)
  | [], i, offset => by simp [justifyGlyphsAux, wsCountBelow, widthSum]
  | g :: rest, i, offset => by
    simp only [justifyGlyphsAux, wsCountBelow]
    split
    · rename_i hcond
      rw [widthSum_cons, widthSum_cons,
        widthSum_justifyGlyphsAux lineXOffset justifyAdjust cutoff rest (i + 1) _,
        if_pos ⟨hcond.2.1, hcond.2.2⟩]
      dsimp only
      push_cast
      ring
    · rename_i hcond
      rw [widthSum_cons, widthSum_cons,
        widthSum_justifyGlyphsAux lineXOffset justifyAdjust cutoff rest (i + 1) _]
      by_cases hws : g.isWhitespace ∧ i < cutoff
      · have hz : justifyAdjust = 0 := by
          by_contra hnz
          exact hcond ⟨hnz, hws.1, hws.2⟩
        rw [if_pos hws, hz]
        dsimp only
        push_cast
        ring
      · rw [if_neg hws]
        dsimp only
        push_cast
        ring

/-- C9: on a justified soft-wrapped line with at least one non-trailing
whitespace glyph, the total width added to the line's glyphs (only whitespace
glyphs are widened) is exactly `maxLineWidth - lineWidth`. -/
theorem justifyLine_width_sum (maxLineWidth lineWidth : ℚ) (glyphs : List GlyphInfo)
    (hwc : 1 ≤ wsCountBelow (glyphs.length - trailingWhitespaceCount glyphs) glyphs 0) :
    widthSum (justifyLine maxLineWidth lineWidth glyphs) - widthSum glyphs
      = maxLineWidth - lineWidth := by
  have hne : ((wsCountBelow (glyphs.length - trailingWhitespaceCount glyphs) glyphs 0 : Nat)
      : ℚ) ≠ 0 := Nat.cast_ne_zero.mpr (by omega)
  simp only [justifyLine]
  split
  · rw [widthSum_justifyGlyphsAux]
    field_simp
  · rename_i hz
    have h0 : maxLineWidth - lineWidth = 0 := by
      rcases div_eq_zero_iff.mp (not_not.mp hz) with h | h
      · exact h
      · exact absurd h hne
    rw [h0, sub_self]

/-- Witness for C9: a three-glyph line `[letter, space, letter]` of natural
width 3 justified to width 5. -/
theorem justifyLine_width_sum_witness :
    1 ≤ wsCountBelow
        (([⟨0, 1, false⟩, ⟨1, 1, true⟩, ⟨2, 1, false⟩] : List GlyphInfo).length -
          trailingWhitespaceCount [⟨0, 1, false⟩, ⟨1, 1, true⟩, ⟨2, 1, false⟩])
        [⟨0, 1, false⟩, ⟨1, 1, true⟩, ⟨2, 1, false⟩] 0 ∧
    widthSum (justifyLine 5 3 [⟨0, 1, false⟩, ⟨1, 1, true⟩, ⟨2, 1, false⟩])
      - widthSum [⟨0, 1, false⟩, ⟨1, 1, true⟩, ⟨2, 1, false⟩] = 5 - 3 :=
  ⟨by decide, justifyLine_width_sum 5 3 _ (by decide)⟩

/-! ## C3: the per-line L1 reset of `getReorderSegments` -/

/-- C3 (code bug): for the string `"א אא א"` (Hebrew letters and spaces, all
levels resolved to 1, paragraph level 0) and the line `[2, 4]` whose last
character is a trailing space, the source's L1 reset writes the paragraph
level at the absolute string index 4 into the 3-element line slice rebased
at 2 — the write is dropped (`Uint8Array` out-of-bounds, `List.set` past the
end), so the trailing space keeps level 1 and the flip segment wrongly
includes it: the code returns `[(2, 4)]` where the spec's L1 reading
(rebased write, `getReorderSegmentsSpecL1`) gives `[(2, 3)]`. -/
theorem getReorderSegments_L1_divergence :
    getReorderSegments [0x5D0, 0x20, 0x5D0, 0x5D0, 0x20, 0x5D0]
        (getEmbeddingLevels [0x5D0, 0x20, 0x5D0, 0x5D0, 0x20, 0x5D0] BaseDirection.ltr)
        (some 2) (some 4) = [(2, 4)] ∧
      getReorderSegmentsSpecL1 [0x5D0, 0x20, 0x5D0, 0x5D0, 0x20, 0x5D0]
        (getEmbeddingLevels [0x5D0, 0x20, 0x5D0, 0x5D0, 0x20, 0x5D0] BaseDirection.ltr)
        (some 2) (some 4) = [(2, 3)] ∧
      ([(2, 4)] : List (Nat × Nat)) ≠ [(2, 3)] := by decide

/-! ## C6: the SDF texel byte encoding -/

theorem getD_set_ne' {α : Type} (l : List α) (d : α) (i j : Nat) (v : α) (h : i ≠ j) :
    (l.set i v).getD j d = l.getD j d := by
  simp [List.getD_eq_getElem?_getD, List.getElem?_set, h]

theorem getD_set_self' {α : Type} (l : List α) (d : α) (i : Nat) (v : α)
    (h : i < l.length) : (l.set i v).getD i d = v := by
  simp [List.getD_eq_getElem?_getD, List.getElem?_set, h]

theorem texel_index_inj {size x x' y y' : Nat} (hx : x < size) (hx' : x' < size)
    (heq : y * size + x = y' * size + x') : x = x' ∧ y = y' := by
  have hs : 0 < size := Nat.lt_of_le_of_lt (Nat.zero_le x) hx
  have hmod : x = x' := by
    have h1 : (y * size + x) % size = x := by
      rw [Nat.mul_comm, Nat.mul_add_mod, Nat.mod_eq_of_lt hx]
    have h2 : (y' * size + x') % size = x' := by
      rw [Nat.mul_comm, Nat.mul_add_mod, Nat.mod_eq_of_lt hx']
    rw [← h1, ← h2, heq]
  refine ⟨hmod, ?_⟩
  subst hmod
  have hy : y * size = y' * size := by omega
  exact Nat.eq_of_mul_eq_mul_right hs hy

theorem texel_index_lt {size x y : Nat} (hx : x < size) (hy : y < size) :
    y * size + x < size * size :=
  calc y * size + x < y * size + size := by omega
    _ = (y + 1) * size := by ring
    _ ≤ size * size := Nat.mul_le_mul_right size hy

theorem foldl_range_inv {β : Type} (f : β → Nat → β) (Q : β → Nat → Prop) (n : Nat)
    (b : β) (hstep : ∀ b' i, i < n → Q b' i → Q (f b' i) (i + 1)) (hb : Q b 0) :
    Q ((List.range n).foldl f b) n := by
  rw [List.range_eq_range']
  have h := foldl_range'_inv f Q n 0 b (fun b' i hi1 hi2 hq => hstep b' i (by omega) hq) hb
  simpa using h

theorem sdf_inner (size x : Nat) (hx : x < size) (v : Nat → ℤ) (td0 : List ℤ)
    (hlen : td0.length = size * size) :
    ((List.range size).foldl (fun td y => td.set (y * size + x) (v y)) td0).length
        = size * size ∧
    (∀ y, y < size →
      ((List.range size).foldl (fun td y => td.set (y * size + x) (v y)) td0).getD
        (y * size + x) 0 = v y) ∧
    (∀ j, j % size ≠ x →
      ((List.range size).foldl (fun td y => td.set (y * size + x) (v y)) td0).getD j 0
        = td0.getD j 0) := by
  have h := foldl_range_inv (fun td y => td.set (y * size + x) (v y))
    (fun td k => td.length = size * size ∧
      (∀ y, y < k → td.getD (y * size + x) 0 = v y) ∧
      (∀ j, j % size ≠ x → td.getD j 0 = td0.getD j 0))
    size td0 ?step ⟨hlen, fun y hy => absurd hy (Nat.not_lt_zero y), fun j _ => rfl⟩
  · exact ⟨h.1, h.2.1, h.2.2⟩
  case step =>
    intro td y hy hq
    obtain ⟨hl, hcol, hother⟩ := hq
    refine ⟨by rw [List.length_set]; exact hl, ?_, ?_⟩
    · intro y' hy'
      by_cases hcase : y' = y
      · subst hcase
        have hlt : y' * size + x < td.length := by
          rw [hl]; exact texel_index_lt hx hy
        exact getD_set_self' _ _ _ _ hlt
      · have hne : y * size + x ≠ y' * size + x := by
          intro he
          exact hcase (texel_index_inj hx hx he.symm).2
        rw [getD_set_ne' _ _ _ _ _ hne]
        exact hcol y' (by omega)
    · intro j hj
      have hne : y * size + x ≠ j := by
        intro he
        apply hj
        rw [← he, Nat.mul_comm, Nat.mul_add_mod, Nat.mod_eq_of_lt hx]
      rw [getD_set_ne' _ _ _ _ _ hne]
      exact hother j hj

/-- C6 (amended): every texel byte stored by the SDF texel loop equals the
exponential encoding with the base raised to the power `sdfExponent = 9`
itself — `clamp(round(255 * (pow(1 - |dist|/maxDim, 9)/2, flipped when
inside)))` — not to `1/9` as the spec's formula reads. -/
theorem renderSDFTexels_encodes (size : Nat) (dist : Nat → Nat → ℚ) (maxDim : ℚ)
    (x y : Nat) (hx : x < size) (hy : y < size) :
    (renderSDFTexels size dist maxDim sdfExponent).getD (y * size + x) 0
      = sdfAlphaByte (dist x y) maxDim sdfExponent := by
  have h := foldl_range_inv
    (fun td sdfX => (List.range size).foldl
      (fun td sdfY =>
        td.set (sdfY * size + sdfX) (sdfAlphaByte (dist sdfX sdfY) maxDim sdfExponent)) td)
    (fun td k => td.length = size * size ∧
      ∀ x', x' < k → ∀ y', y' < size →
        td.getD (y' * size + x') 0 = sdfAlphaByte (dist x' y') maxDim sdfExponent)
    size (List.replicate (size * size) 0) ?step
    ⟨List.length_replicate _ _, fun x' hx' => absurd hx' (Nat.not_lt_zero x')⟩
  · exact h.2 x hx y hy
  case step =>
    intro td sdfX hsdfX hq
    obtain ⟨hl, hprev⟩ := hq
    obtain ⟨hl', hcol, hother⟩ :=
      sdf_inner size sdfX hsdfX (fun y' => sdfAlphaByte (dist sdfX y') maxDim sdfExponent)
        td hl
    refine ⟨hl', ?_⟩
    intro x' hx' y' hy'
    by_cases hcase : x' = sdfX
    · subst hcase
      exact hcol y' hy'
    · have hmod : (y' * size + x') % size ≠ sdfX := by
        rw [Nat.mul_comm, Nat.mul_add_mod,
          Nat.mod_eq_of_lt (show x' < size by omega)]
        exact hcase
      rw [hother _ hmod]
      exact hprev x' (by omega) y' hy'

/-- Witness for C6 at a 2×2 texture, constant distance 1, `maxDim = 2`,
texel `(1, 0)`. -/
theorem renderSDFTexels_encodes_witness :
    (1 : Nat) < 2 ∧ (0 : Nat) < 2 ∧
    (renderSDFTexels 2 (fun _ _ => 1) 2 sdfExponent).getD (0 * 2 + 1) 0
      = sdfAlphaByte ((fun (_ _ : Nat) => (1 : ℚ)) 1 0) 2 sdfExponent :=
  ⟨by decide, by decide,
   renderSDFTexels_encodes 2 (fun _ _ => 1) 2 1 0 (by decide) (by decide)⟩

/-- C6 counterexample: at `|signedDist|/maxDim = 511/512` and `sdfExponent =
9`, the code's byte is `round(255·(1/512)⁹/2) = 0` while the spec's
`1/exponent` reading gives `round(255·(511/512 root)/2)` with root
`(1/512)^(1/9) = 1/2`, i.e. `round(63.75) = 64`. -/
theorem sdfAlphaByte_spec_counterexample :
    ((1 : ℚ) / 2) ^ sdfExponent = 1 - |(511 : ℚ)| / 512 ∧
    sdfAlphaByte 511 512 sdfExponent = 0 ∧
    sdfAlphaByteSpec 511 (1 / 2) = 64 ∧
    (0 : ℤ) ≠ 64 := by
  refine ⟨by norm_num [sdfExponent], ?_, ?_, by decide⟩
  · show max 0 (min 255 (jsRound ((if (511 : ℚ) < 0 then
      1 - (1 - |(511 : ℚ)| / 512) ^ sdfExponent / 2
      else (1 - |(511 : ℚ)| / 512) ^ sdfExponent / 2) * 255))) = 0
    norm_num [jsRound, sdfExponent]
  · show max 0 (min 255 (jsRound ((if (511 : ℚ) < 0 then
      1 - (1 : ℚ) / 2 / 2 else (1 : ℚ) / 2 / 2) * 255))) = 64
    norm_num [jsRound]


/-! ## C2: all-RTL strings resolve to level 1 and reverse -/

theorem getD_mem (l : List Nat) (i : Nat) (h : i < l.length) : l.getD i 0 ∈ l := by
  rw [List.getD_eq_getElem?_getD, List.getElem?_eq_getElem h]
  exact List.getElem_mem ..

theorem getD_mem_or_zero (l : List Nat) (i : Nat) : l.getD i 0 ∈ l ∨ l.getD i 0 = 0 := by
  by_cases h : i < l.length
  · exact Or.inl (getD_mem l i h)
  · exact Or.inr (getD_oob l i (by omega))

theorem getD_replicate_lt (a n i : Nat) (h : i < n) :
    (List.replicate n a).getD i 0 = a := by
  rw [List.getD_eq_getElem?_getD,
    List.getElem?_eq_getElem (by simpa using h)]
  simp

theorem countsGet_zero_of_keys {counts : List (Nat × Nat)}
    (h : ∀ kv ∈ counts, kv.1 = TYPE_R ∨ kv.1 = TYPE_AL) {t : Nat}
    (h1 : t ≠ TYPE_R) (h2 : t ≠ TYPE_AL) : countsGet counts t = 0 := by
  have hf : counts.find? (fun kv => kv.1 == t) = none :=
    List.find?_eq_none.mpr (fun kv hkv => by
      rcases h kv hkv with hk | hk <;>
        simp only [hk, beq_iff_eq] <;>
        exact fun he => (by omega : ¬ t = kv.1) (by omega))
  rw [countsGet, hf]

theorem determineAuto_RAl (ct : List Nat) (hn : 0 < ct.length)
    (h0 : ct.getD 0 0 = TYPE_R ∨ ct.getD 0 0 = TYPE_AL) :
    determineAutoEmbedLevel ct 0 false = 1 := by
  rw [determineAutoEmbedLevel, Nat.sub_zero]
  obtain ⟨m, hm⟩ : ∃ m, ct.length = m + 1 := ⟨ct.length - 1, by omega⟩
  rw [hm, List.range'_succ]
  simp only [determineAutoEmbedLevelAux]
  rw [if_neg (by omega : ¬ (0 : Nat) < 0)]
  rcases h0 with h | h <;> rw [h]
  · rw [if_pos (by decide : TYPE_R &&& (TYPE_R ||| TYPE_AL) ≠ 0)]
  · rw [if_pos (by decide : TYPE_AL &&& (TYPE_R ||| TYPE_AL) ≠ 0)]

theorem c2_splitParagraphs (ct : List Nat) (hn : 0 < ct.length)
    (hall : ∀ t ∈ ct, t = TYPE_R ∨ t = TYPE_AL) :
    splitParagraphs ct BaseDirection.auto = [⟨0, ct.length - 1, 1⟩] := by
  have hB : ∀ i, i < ct.length → ct.getD i 0 &&& TYPE_B = 0 := by
    intro i hi
    rcases hall _ (getD_mem ct i hi) with h | h <;> rw [h] <;> decide
  have hlvl : determineAutoEmbedLevel ct 0 false = 1 :=
    determineAuto_RAl ct hn (hall _ (getD_mem ct 0 hn))
  unfold splitParagraphs
  have hf := foldl_range_inv (splitParagraphsStep ct BaseDirection.auto)
    (fun st k => (k = 0 ∧ st = ([], none)) ∨
      (0 < k ∧ st = ([], some ⟨0, ct.length - 1, 1⟩)))
    ct.length ([], none) ?step (Or.inl ⟨rfl, rfl⟩)
  · rcases hf with ⟨hk, _⟩ | ⟨_, hst⟩
    · omega
    · rw [hst]
      rfl
  case step =>
    intro st i hi hq
    rcases hq with ⟨hk, hst⟩ | ⟨hk, hst⟩
    · subst hk
      subst hst
      refine Or.inr ⟨by omega, ?_⟩
      simp only [splitParagraphsStep]
      rw [hB 0 hi]
      rw [if_neg (by decide : ¬ (0 : Nat) ≠ 0)]
      rw [hlvl]
    · subst hst
      refine Or.inr ⟨by omega, ?_⟩
      simp only [splitParagraphsStep]
      rw [hB i hi]
      rw [if_neg (by decide : ¬ (0 : Nat) ≠ 0)]

theorem replicate_append_set_one (i n : Nat) (h : i < n) :
    (List.replicate i (1 : Nat) ++ List.replicate (n - i) 0).set i 1
      = List.replicate (i + 1) 1 ++ List.replicate (n - (i + 1)) 0 := by
  have h2 : n - i = (n - (i + 1)) + 1 := by omega
  rw [h2, List.replicate_succ,
    List.set_append_right _ _ (by rw [List.length_replicate]),
    List.length_replicate, Nat.sub_self, List.set_cons_zero,
    List.replicate_succ' i, List.append_assoc, List.singleton_append]

theorem c2_explicitStep (ct el : List Nat) (counts : List (Nat × Nat))
    (o1 o2 vi : Nat) (pairs : List (Nat × Nat)) (p : Paragraph) (i : Nat)
    (ht : ct.getD i 0 = TYPE_R ∨ ct.getD i 0 = TYPE_AL) :
    explicitStep p ⟨ct, el, counts, [⟨1, 0, false, none⟩], o1, o2, vi, pairs⟩ i
      = ⟨ct, el.set i 1,
          countsSet counts (ct.getD i 0) (countsGet counts (ct.getD i 0) + 1),
          [⟨1, 0, false, none⟩], o1, o2, vi, pairs⟩ := by
  have hfmt : ct.getD i 0 &&& FORMATTING_TYPES = 0 := by
    rcases ht with h | h <;> rw [h] <;> decide
  have hneu : ct.getD i 0 &&& NEUTRAL_ISOLATE_TYPES = 0 := by
    rcases ht with h | h <;> rw [h] <;> decide
  simp only [explicitStep, setInitialCounts, explicitStepOther]
  rw [hfmt, hneu]
  simp

theorem c2_explicitPhase (ct : List Nat) (n : Nat) (hn : ct.length = n) (hpos : 0 < n)
    (hall : ∀ t ∈ ct, t = TYPE_R ∨ t = TYPE_AL) (p : Paragraph)
    (hstart : p.start = 0) (hend : p.endIdx = n - 1) (hlvl : p.level = 1) :
    (explicitPhase p ct (List.replicate n 0) []).charTypes = ct ∧
    (explicitPhase p ct (List.replicate n 0) []).embedLevels = List.replicate n 1 ∧
    (∀ kv ∈ (explicitPhase p ct (List.replicate n 0) []).counts,
      kv.1 = TYPE_R ∨ kv.1 = TYPE_AL) ∧
    (explicitPhase p ct (List.replicate n 0) []).stack
      = [⟨1, 0, false, none⟩] := by
  rw [explicitPhase, hstart, hend, hlvl]
  have hcnt : n - 1 + 1 - 0 = n := by omega
  rw [hcnt]
  have hf := foldl_range'_inv (explicitStep p)
    (fun st k => ∃ counts, (∀ kv ∈ counts, kv.1 = TYPE_R ∨ kv.1 = TYPE_AL) ∧
      st = ⟨ct, List.replicate k 1 ++ List.replicate (n - k) 0, counts,
        [⟨1, 0, false, none⟩], 0, 0, 0, []⟩)
    n 0 { charTypes := ct, embedLevels := List.replicate n 0, counts := []
          stack := [⟨1, 0, false, none⟩]
          overflowIsolateCount := 0, overflowEmbeddingCount := 0, validIsolateCount := 0
          isolationPairs := [] }
    ?step ⟨[], fun kv hkv => absurd hkv (List.not_mem_nil kv), rfl⟩
  · rw [Nat.zero_add] at hf
    obtain ⟨counts, hkeys, hst⟩ := hf
    rw [hst]
    refine ⟨rfl, ?_, hkeys, rfl⟩
    show List.replicate n 1 ++ List.replicate (n - n) 0 = List.replicate n 1
    rw [Nat.sub_self]
    exact List.append_nil _
  case step =>
    intro st i hi0 hi hq
    rw [Nat.zero_add] at hi
    obtain ⟨counts, hkeys, rfl⟩ := hq
    have ht := hall _ (getD_mem ct i (by omega))
    rw [c2_explicitStep ct _ counts 0 0 0 [] p i ht]
    refine ⟨countsSet counts (ct.getD i 0) (countsGet counts (ct.getD i 0) + 1), ?_, ?_⟩
    · intro kv hkv
      rcases List.mem_cons.mp hkv with rfl | hkv
      · exact ht
      · exact hkeys kv hkv
    · show (⟨ct, (List.replicate i 1 ++ List.replicate (n - i) 0).set i 1, _,
        _, _, _, _, _⟩ : ExplicitState) = _
      rw [replicate_append_set_one i n hi]

theorem w3_preserve (seqIndices : List Nat) (st : WNState)
    (hct : ∀ t ∈ st.1, t = TYPE_R ∨ t = TYPE_AL)
    (hcnt : ∀ kv ∈ st.2, kv.1 = TYPE_R ∨ kv.1 = TYPE_AL) :
    (∀ t ∈ (w3Rule seqIndices st).1, t = TYPE_R ∨ t = TYPE_AL) ∧
    (∀ kv ∈ (w3Rule seqIndices st).2, kv.1 = TYPE_R ∨ kv.1 = TYPE_AL) := by
  rw [w3Rule]
  split
  · have hf := foldl_preserves
      (fun (st : WNState) si =>
        let i := seqIndices.getD si 0
        if st.1.getD i 0 &&& TYPE_AL ≠ 0 then changeCharType st.1 st.2 i TYPE_R else st)
      (fun st => (∀ t ∈ st.1, t = TYPE_R ∨ t = TYPE_AL) ∧
        (∀ kv ∈ st.2, kv.1 = TYPE_R ∨ kv.1 = TYPE_AL))
      ?step (List.range seqIndices.length) st ⟨hct, hcnt⟩
    · exact hf
    case step =>
      intro b si hb
      obtain ⟨hbct, hbcnt⟩ := hb
      dsimp only
      split
      · rename_i hguard
        have hold : b.1.getD (seqIndices.getD si 0) 0 = TYPE_AL := by
          rcases getD_mem_or_zero b.1 (seqIndices.getD si 0) with hm | hm
          · rcases hbct _ hm with h | h
            · rw [h] at hguard; exact absurd (by decide) hguard
            · exact h
          · rw [hm] at hguard; exact absurd (by decide) hguard
        rw [changeCharType, hold]
        constructor
        · intro t htm
          rcases List.mem_or_eq_of_mem_set htm with htm | rfl
          · exact hbct t htm
          · exact Or.inl rfl
        · simp only [if_neg (by decide : ¬ TYPE_AL &&& NEUTRAL_ISOLATE_TYPES ≠ 0),
            if_neg (by decide : ¬ TYPE_R &&& NEUTRAL_ISOLATE_TYPES ≠ 0)]
          intro kv hkv
          rcases List.mem_cons.mp hkv with rfl | hkv
          · exact Or.inl rfl
          · rcases List.mem_cons.mp hkv with rfl | hkv
            · exact Or.inr rfl
            · exact hbcnt kv hkv
      · exact ⟨hbct, hbcnt⟩
  · exact ⟨hct, hcnt⟩

theorem c2_wn_preserve (string embedLevels : List Nat) (seq : IsolatingRunSeq)
    (st : WNState)
    (hct : ∀ t ∈ st.1, t = TYPE_R ∨ t = TYPE_AL)
    (hcnt : ∀ kv ∈ st.2, kv.1 = TYPE_R ∨ kv.1 = TYPE_AL) :
    (∀ t ∈ (resolveWeakAndNeutral string embedLevels seq st).1,
      t = TYPE_R ∨ t = TYPE_AL) ∧
    (∀ kv ∈ (resolveWeakAndNeutral string embedLevels seq st).2,
      kv.1 = TYPE_R ∨ kv.1 = TYPE_AL) := by
  have hz : ∀ t, t ≠ TYPE_R → t ≠ TYPE_AL → countsGet st.2 t = 0 := fun t h1 h2 =>
    countsGet_zero_of_keys hcnt h1 h2
  have hw1 : w1Rule seq.seqIndices seq.sosType st = st := by
    rw [w1Rule, hz TYPE_NSM (by decide) (by decide)]
    simp
  have hw2 : w2Rule seq.seqIndices seq.sosType st = st := by
    rw [w2Rule, hz TYPE_EN (by decide) (by decide)]
    simp
  obtain ⟨h3ct, h3cnt⟩ := w3_preserve seq.seqIndices st hct hcnt
  have hz3 : ∀ t, t ≠ TYPE_R → t ≠ TYPE_AL →
      countsGet (w3Rule seq.seqIndices st).2 t = 0 := fun t h1 h2 =>
    countsGet_zero_of_keys h3cnt h1 h2
  have hw4 : w4Rule seq.seqIndices (w3Rule seq.seqIndices st)
      = w3Rule seq.seqIndices st := by
    rw [w4Rule, hz3 TYPE_ES (by decide) (by decide), hz3 TYPE_CS (by decide) (by decide)]
    simp
  have hw5 : w5Rule seq.seqIndices (w3Rule seq.seqIndices st)
      = w3Rule seq.seqIndices st := by
    rw [w5Rule, hz3 TYPE_EN (by decide) (by decide)]
    simp
  have hw6 : w6Rule seq.seqIndices (w3Rule seq.seqIndices st)
      = w3Rule seq.seqIndices st := by
    rw [w6Rule, hz3 TYPE_ET (by decide) (by decide), hz3 TYPE_ES (by decide) (by decide),
      hz3 TYPE_CS (by decide) (by decide)]
    simp
  have hw7 : w7Rule seq.seqIndices seq.sosType (w3Rule seq.seqIndices st)
      = w3Rule seq.seqIndices st := by
    rw [w7Rule, hz3 TYPE_EN (by decide) (by decide)]
    simp
  have hneu : countsGet (w3Rule seq.seqIndices st).2 NEUTRAL_ISOLATE_TYPES = 0 :=
    hz3 NEUTRAL_ISOLATE_TYPES (by decide) (by decide)
  rw [resolveWeakAndNeutral, hw1, hw2, hw4, hw5, hw6, hw7, hneu]
  rw [if_neg (by decide : ¬ (0 : Nat) ≠ 0)]
  exact ⟨h3ct, h3cnt⟩


theorem c2_implicitStep_id (string ct2 : List Nat) (p : Paragraph) (n i : Nat)
    (hi : i < n) (hlen : string.length = n) (hpl : p.level = 1)
    (hstr : ∀ c ∈ string, getBidiCharType c = TYPE_R ∨ getBidiCharType c = TYPE_AL)
    (hct2 : ∀ t ∈ ct2, t = TYPE_R ∨ t = TYPE_AL) :
    implicitStep string ct2 p (List.replicate n 1) i = List.replicate n 1 := by
  have hlev : (List.replicate n (1 : Nat)).getD i 0 = 1 := getD_replicate_lt 1 n i hi
  have hstyp := hstr _ (getD_mem string i (by omega))
  have htypL : ct2.getD i 0 &&& (TYPE_L ||| TYPE_EN ||| TYPE_AN) = 0 := by
    rcases getD_mem_or_zero ct2 i with h | h
    · rcases hct2 _ h with h2 | h2 <;> rw [h2] <;> decide
    · rw [h]; decide
  have htypBN : ct2.getD i 0 &&& BN_LIKE_TYPES = 0 := by
    rcases getD_mem_or_zero ct2 i with h | h
    · rcases hct2 _ h with h2 | h2 <;> rw [h2] <;> decide
    · rw [h]; decide
  have hl1 : l1ResetAux string p.level ((List.range (i + 1)).reverse)
      (List.replicate n 1) = List.replicate n 1 := by
    have hrev : (List.range (i + 1)).reverse = i :: (List.range i).reverse := by
      rw [List.range_succ, List.reverse_append]
      rfl
    rw [hrev]
    simp only [l1ResetAux]
    rcases hstyp with h | h <;> rw [h]
    · rw [if_neg (by decide : ¬ TYPE_R &&& TRAILING_TYPES ≠ 0)]
    · rw [if_neg (by decide : ¬ TYPE_AL &&& TRAILING_TYPES ≠ 0)]
  simp only [implicitStep]
  rw [hlev, htypL, htypBN]
  rw [if_pos (by decide : (1 : Nat) % 2 = 1)]
  rw [if_neg (by decide : ¬ (0 : Nat) ≠ 0), if_neg (by decide : ¬ (0 : Nat) ≠ 0)]
  split
  · exact hl1
  · rfl

theorem c2_implicitPhase (string ct2 : List Nat) (p : Paragraph) (n : Nat)
    (hpos : 0 < n) (hlen : string.length = n)
    (hstart : p.start = 0) (hend : p.endIdx = n - 1) (hpl : p.level = 1)
    (hstr : ∀ c ∈ string, getBidiCharType c = TYPE_R ∨ getBidiCharType c = TYPE_AL)
    (hct2 : ∀ t ∈ ct2, t = TYPE_R ∨ t = TYPE_AL) :
    implicitPhase string ct2 p (List.replicate n 1) = List.replicate n 1 := by
  rw [implicitPhase, hstart, hend]
  have hcnt : n - 1 + 1 - 0 = n := by omega
  rw [hcnt]
  have hf := foldl_range'_inv (implicitStep string ct2 p)
    (fun el _ => el = List.replicate n 1) n 0 (List.replicate n 1)
    (fun el i hi0 hi hq => by
      rw [hq]
      exact c2_implicitStep_id string ct2 p n i (by omega) hlen hpl hstr hct2)
    rfl
  exact hf

theorem c2_processParagraph (string : List Nat) (n : Nat) (hlen : string.length = n)
    (hpos : 0 < n)
    (hstr : ∀ c ∈ string, getBidiCharType c = TYPE_R ∨ getBidiCharType c = TYPE_AL) :
    (processParagraph string
        ⟨string.map getBidiCharType, List.replicate n 0, []⟩
        ⟨0, n - 1, 1⟩).embedLevels = List.replicate n 1 := by
  have hmap : ∀ t ∈ string.map getBidiCharType, t = TYPE_R ∨ t = TYPE_AL := by
    intro t ht
    obtain ⟨c, hc, rfl⟩ := List.mem_map.mp ht
    exact hstr c hc
  obtain ⟨hc, he, hcnt, hs⟩ := c2_explicitPhase (string.map getBidiCharType) n
    (by rw [List.length_map, hlen]) hpos hmap ⟨0, n - 1, 1⟩ rfl rfl rfl
  simp only [processParagraph]
  set ex := explicitPhase ⟨0, n - 1, 1⟩ (string.map getBidiCharType)
    (List.replicate n 0) [] with hex
  set wn := (buildIsolatingRunSeqs ex.charTypes ex.embedLevels ex.isolationPairs
      ⟨0, n - 1, 1⟩).foldl
    (fun wnst seq => resolveWeakAndNeutral string ex.embedLevels seq wnst)
    (ex.charTypes, ex.counts) with hwn
  have hwn1 : ∀ t ∈ wn.1, t = TYPE_R ∨ t = TYPE_AL := by
    have hf := foldl_preserves
      (fun (wnst : WNState) seq => resolveWeakAndNeutral string ex.embedLevels seq wnst)
      (fun wnst => (∀ t ∈ wnst.1, t = TYPE_R ∨ t = TYPE_AL) ∧
        (∀ kv ∈ wnst.2, kv.1 = TYPE_R ∨ kv.1 = TYPE_AL))
      (fun b a hb => c2_wn_preserve string ex.embedLevels a b hb.1 hb.2)
      (buildIsolatingRunSeqs ex.charTypes ex.embedLevels ex.isolationPairs ⟨0, n - 1, 1⟩)
      (ex.charTypes, ex.counts)
      ⟨by rw [hc]; exact hmap, hcnt⟩
    exact (hf).1
  rw [he]
  exact c2_implicitPhase string wn.1 ⟨0, n - 1, 1⟩ n hpos hlen rfl rfl rfl hstr hwn1

theorem c2_getEmbeddingLevels (string : List Nat) (hne : string ≠ [])
    (hstr : ∀ c ∈ string, getBidiCharType c = TYPE_R ∨ getBidiCharType c = TYPE_AL) :
    getEmbeddingLevels string BaseDirection.auto
      = { levels := List.replicate string.length 1,
          paragraphs := [⟨0, string.length - 1, 1⟩] } := by
  have hpos : 0 < string.length := List.length_pos.mpr hne
  have hmap : ∀ t ∈ string.map getBidiCharType, t = TYPE_R ∨ t = TYPE_AL := by
    intro t ht
    obtain ⟨c, hc, rfl⟩ := List.mem_map.mp ht
    exact hstr c hc
  have hsplit := c2_splitParagraphs (string.map getBidiCharType)
    (by rw [List.length_map]; omega) hmap
  rw [List.length_map] at hsplit
  simp only [getEmbeddingLevels]
  rw [hsplit]
  rw [List.foldl_cons, List.foldl_nil]
  have hp := c2_processParagraph string string.length rfl hpos hstr
  rw [hp]

theorem extendRun_replicate (n : Nat) : ∀ (fuel i : Nat), i < n → n ≤ fuel + i + 1 →
    extendRun (List.replicate n 1) 1 fuel i = n - 1
  | 0, i, hi, hf => by
    simp only [extendRun]
    omega
  | fuel + 1, i, hi, hf => by
    simp only [extendRun]
    by_cases hcase : i + 1 < n
    · rw [if_pos ⟨by simpa using hcase, by rw [getD_replicate_lt 1 n (i + 1) hcase]⟩]
      exact extendRun_replicate n fuel (i + 1) hcase (by omega)
    · rw [if_neg (fun hcon => hcase (by simpa using hcon.1))]
      omega

theorem runsAtLevel_replicate (n : Nat) (hn : 2 ≤ n) :
    runsAtLevel (List.replicate n 1) 1 0 = [(0, n - 1)] := by
  rw [runsAtLevel]
  have hlen : (List.replicate n (1 : Nat)).length = n := List.length_replicate n 1
  rw [hlen]
  have hf := foldl_range_inv
    (fun (acc : List (Nat × Nat) × Nat) i =>
      let (segs, skipUntil) := acc
      if i < skipUntil then acc
      else if (List.replicate n 1).getD i 0 ≥ 1 then
        let iEnd := extendRun (List.replicate n 1) 1 n i
        (if iEnd > i then segs ++ [(i + 0, iEnd + 0)] else segs, iEnd + 1)
      else acc)
    (fun acc k => (k = 0 ∧ acc = ([], 0)) ∨ (0 < k ∧ acc = ([(0, n - 1)], n)))
    n ([], 0) ?step (Or.inl ⟨rfl, rfl⟩)
  · rcases hf with ⟨hk, _⟩ | ⟨_, hacc⟩
    · omega
    · rw [hacc]
  case step =>
    intro acc i hi hq
    rcases hq with ⟨hk, hacc⟩ | ⟨hk, hacc⟩
    · subst hk
      subst hacc
      refine Or.inr ⟨by omega, ?_⟩
      dsimp only
      rw [if_neg (by omega : ¬ (0 : Nat) < 0),
        if_pos (by rw [getD_replicate_lt 1 n 0 (by omega)]),
        extendRun_replicate n n 0 (by omega) (by omega),
        if_pos (by omega : n - 1 > 0)]
      simp
      omega
    · subst hacc
      refine Or.inr ⟨by omega, ?_⟩
      dsimp only
      rw [if_pos hi]

theorem foldl_max_replicate_one : ∀ (k : Nat),
    (List.replicate k (1 : Nat)).foldl (fun m l => if l > m then l else m) 1 = 1
  | 0 => rfl
  | k + 1 => by
    rw [List.replicate_succ, List.foldl_cons]
    rw [if_neg (by omega : ¬ (1 : Nat) > 1)]
    exact foldl_max_replicate_one k

theorem foldl_minOdd_replicate_some : ∀ (k : Nat),
    (List.replicate k (1 : Nat)).foldl
      (fun (m : Option Nat) l =>
        match m with
        | none => some (l ||| 1)
        | some v => if l < v then some (l ||| 1) else m)
      (some 1) = some 1
  | 0 => rfl
  | k + 1 => by
    rw [List.replicate_succ, List.foldl_cons]
    show (List.replicate k (1 : Nat)).foldl _ (if (1 : Nat) < 1 then some (1 ||| 1) else some 1) = some 1
    rw [if_neg (by omega : ¬ (1 : Nat) < 1)]
    exact foldl_minOdd_replicate_some k

theorem foldl_minOdd_replicate (k : Nat) (hk : 0 < k) :
    (List.replicate k (1 : Nat)).foldl
      (fun (m : Option Nat) l =>
        match m with
        | none => some (l ||| 1)
        | some v => if l < v then some (l ||| 1) else m)
      none = some 1 := by
  obtain ⟨m, rfl⟩ : ∃ m, k = m + 1 := ⟨k - 1, by omega⟩
  rw [List.replicate_succ, List.foldl_cons]
  show (List.replicate m (1 : Nat)).foldl _ (some ((1 : Nat) ||| 1)) = some 1
  have h11 : (1 : Nat) ||| 1 = 1 := by decide
  rw [h11]
  exact foldl_minOdd_replicate_some m

theorem c2_reorderResetAux_id (string : List Nat) (lvl n : Nat) (hn : 0 < n)
    (hlen : string.length = n)
    (hstr : ∀ c ∈ string, getBidiCharType c = TYPE_R ∨ getBidiCharType c = TYPE_AL) :
    reorderResetAux string lvl ((List.range' 0 n).reverse) (List.replicate n 1)
      = List.replicate n 1 := by
  obtain ⟨m, rfl⟩ : ∃ m, n = m + 1 := ⟨n - 1, by omega⟩
  rw [List.range'_concat, List.reverse_append, List.reverse_singleton,
    List.singleton_append]
  simp only [reorderResetAux]
  rw [(by omega : (0 : Nat) + 1 * m = m)]
  rcases hstr _ (getD_mem string m (by omega)) with h | h <;> rw [h]
  · rw [if_neg (by decide : ¬ TYPE_R &&& TRAILING_TYPES ≠ 0)]
  · rw [if_neg (by decide : ¬ TYPE_AL &&& TRAILING_TYPES ≠ 0)]

theorem c2_getReorderSegments (string : List Nat) (n : Nat) (hn : 2 ≤ n)
    (hlen : string.length = n)
    (hstr : ∀ c ∈ string, getBidiCharType c = TYPE_R ∨ getBidiCharType c = TYPE_AL) :
    getReorderSegments string
      ⟨List.replicate n 1, [⟨0, n - 1, 1⟩]⟩ none none = [(0, n - 1)] := by
  simp only [getReorderSegments, List.foldl_cons, List.foldl_nil, hlen,
    Option.getD_none, Nat.max_self, Nat.min_self, List.drop_zero]
  rw [if_pos (by omega : (0 : Nat) < n - 1)]
  have h1 : n - 1 + 1 - 0 = n := by omega
  rw [h1]
  rw [List.take_replicate, Nat.min_self]
  rw [c2_reorderResetAux_id string 1 n (by omega) hlen hstr]
  rw [foldl_max_replicate_one n, foldl_minOdd_replicate n (by omega)]
  show [] ++ ((List.range' 1 (1 + 1 - 1)).reverse).foldl
      (fun segs lvl => segs ++ runsAtLevel (List.replicate n 1) lvl 0) [] = _
  have h2 : 1 + 1 - 1 = 1 := by omega
  rw [h2, List.range'_one, List.reverse_singleton, List.foldl_cons, List.foldl_nil]
  rw [runsAtLevel_replicate n hn]
  simp

theorem getD_range (n i : Nat) (h : i < n) : (List.range n).getD i 0 = i := by
  rw [List.getD_eq_getElem?_getD,
    List.getElem?_eq_getElem (by simpa using h)]
  simp

theorem list_ext_getD {l1 l2 : List Nat} (hlen : l1.length = l2.length)
    (h : ∀ j, j < l1.length → l1.getD j 0 = l2.getD j 0) : l1 = l2 := by
  apply List.ext_getElem hlen
  intro i h1 h2
  have hx := h i h1
  rwa [List.getD_eq_getElem?_getD, List.getElem?_eq_getElem h1,
    List.getD_eq_getElem?_getD, List.getElem?_eq_getElem h2,
    Option.getD_some, Option.getD_some] at hx

theorem foldr_set_length (f : Nat → Nat) (v : Nat → Nat) :
    ∀ (l : List Nat) (ind : List Nat),
      (l.foldr (fun i ind => ind.set (f i) (v i)) ind).length = ind.length
  | [], _ => rfl
  | x :: rest, ind => by
    rw [List.foldr_cons, List.length_set, foldr_set_length f v rest ind]

theorem revset_foldr (v : Nat → Nat) (n : Nat) :
    ∀ (m : Nat) (ind : List Nat), m ≤ n → ind.length = n →
      ∀ j, j < n →
        ((List.range m).foldr (fun i ind => ind.set (n - 1 - i) (v i)) ind).getD j 0
          = if n - m ≤ j then v (n - 1 - j) else ind.getD j 0
  | 0, ind, hm, hlen, j, hj => by
    rw [if_neg (by omega), List.range_zero]
    rfl
  | m + 1, ind, hm, hlen, j, hj => by
    rw [List.range_succ, List.foldr_append, List.foldr_cons, List.foldr_nil]
    rw [revset_foldr v n m (ind.set (n - 1 - m) (v m)) (by omega)
      (by rw [List.length_set]; exact hlen) j hj]
    by_cases hc1 : n - m ≤ j
    · rw [if_pos hc1, if_pos (by omega)]
    · by_cases hc2 : j = n - 1 - m
      · subst hc2
        rw [if_neg hc1, if_pos (by omega), getD_set_self' _ _ _ _ (by omega)]
        have he : n - 1 - (n - 1 - m) = m := by omega
        rw [he]
      · rw [if_neg hc1, getD_set_ne' _ _ _ _ _ (fun hcon => hc2 hcon.symm),
          if_neg (by omega : ¬ n - (m + 1) ≤ j)]

theorem applyReorderSegment_range (n : Nat) (hn : 1 ≤ n) :
    applyReorderSegment (List.range n) (0, n - 1) = (List.range n).reverse := by
  rw [applyReorderSegment]
  simp only [List.drop_zero]
  have h1 : n - 1 + 1 - 0 = n := by omega
  rw [h1, List.take_of_length_le (by rw [List.length_range]), List.length_range,
    List.foldl_reverse]
  show (List.range n).foldr
      (fun i ind => ind.set (n - 1 - i) ((List.range n).getD i 0)) (List.range n)
    = (List.range n).reverse
  apply list_ext_getD
  · rw [foldr_set_length (fun i => n - 1 - i) (fun i => (List.range n).getD i 0)
      (List.range n) (List.range n)]
    rw [List.length_range, List.length_reverse, List.length_range]
  · intro j hj
    have hjn : j < n := by
      rwa [foldr_set_length (fun i => n - 1 - i) (fun i => (List.range n).getD i 0)
        (List.range n) (List.range n), List.length_range] at hj
    rw [revset_foldr (fun i => (List.range n).getD i 0) n n (List.range n)
      (Nat.le_refl n) (List.length_range n) j hjn]
    rw [if_pos (by omega)]
    rw [getD_range n (n - 1 - j) (by omega)]
    rw [List.getD_eq_getElem?_getD,
      List.getElem?_eq_getElem (by rw [List.length_reverse, List.length_range]; omega)]
    rw [Option.getD_some, List.getElem_reverse]
    rw [List.getElem_range]
    rw [List.length_range]

theorem c2_getReorderedIndices (string : List Nat) (n : Nat) (hlen : string.length = n)
    (hpos : 0 < n)
    (hstr : ∀ c ∈ string, getBidiCharType c = TYPE_R ∨ getBidiCharType c = TYPE_AL) :
    getReorderedIndices string ⟨List.replicate n 1, [⟨0, n - 1, 1⟩]⟩ none none
      = (List.range n).reverse := by
  by_cases hn2 : 2 ≤ n
  · rw [getReorderedIndices, c2_getReorderSegments string n hn2 hlen hstr,
      List.foldl_cons, List.foldl_nil, hlen]
    exact applyReorderSegment_range n (by omega)
  · have hn1 : n = 1 := by omega
    subst hn1
    have hseg : getReorderSegments string
        ⟨List.replicate 1 1, [⟨0, 0, 1⟩]⟩ none none = [] := by
      simp [getReorderSegments, hlen]
    rw [getReorderedIndices]
    show (getReorderSegments string ⟨List.replicate 1 1, [⟨0, 1 - 1, 1⟩]⟩ none none).foldl
      applyReorderSegment (List.range string.length) = _
    rw [hlen]
    have h0 : (1 : Nat) - 1 = 0 := rfl
    rw [h0, hseg, List.foldl_nil]
    decide

/-- C2: for a non-empty string whose characters are all of strong
right-to-left type (bidi classes R or AL), `getEmbeddingLevels` with the
`auto` base direction resolves every character's level to 1, and
`getReorderedIndices` over the full string is exactly the reversed index
sequence. -/
theorem getEmbeddingLevels_allRtl (string : List Nat) (hne : string ≠ [])
    (hall : ∀ c ∈ string, getBidiCharType c = TYPE_R ∨ getBidiCharType c = TYPE_AL) :
    (getEmbeddingLevels string BaseDirection.auto).levels
      = List.replicate string.length 1 ∧
    getReorderedIndices string (getEmbeddingLevels string BaseDirection.auto) none none
      = (List.range string.length).reverse := by
  rw [c2_getEmbeddingLevels string hne hall]
  exact ⟨rfl, c2_getReorderedIndices string string.length rfl
    (List.length_pos.mpr hne) hall⟩

/-- Witness for C2 at the Hebrew string `"אבג"`. -/
theorem getEmbeddingLevels_allRtl_witness :
    (([0x5D0, 0x5D1, 0x5D2] : List Nat) ≠ [] ∧
      ∀ c ∈ ([0x5D0, 0x5D1, 0x5D2] : List Nat),
        getBidiCharType c = TYPE_R ∨ getBidiCharType c = TYPE_AL) ∧
    ((getEmbeddingLevels [0x5D0, 0x5D1, 0x5D2] BaseDirection.auto).levels
        = List.replicate ([0x5D0, 0x5D1, 0x5D2] : List Nat).length 1 ∧
      getReorderedIndices [0x5D0, 0x5D1, 0x5D2]
          (getEmbeddingLevels [0x5D0, 0x5D1, 0x5D2] BaseDirection.auto) none none
        = (List.range ([0x5D0, 0x5D1, 0x5D2] : List Nat).length).reverse) :=
  ⟨⟨by decide, by decide⟩,
   getEmbeddingLevels_allRtl [0x5D0, 0x5D1, 0x5D2] (by decide) (by decide)⟩

/-! ## C7: `findNearestSignedDistance` -/

theorem convex_bound (a b t : ℚ) (h0 : 0 ≤ t) (h1 : t ≤ 1) :
    min a b ≤ a + t * (b - a) ∧ a + t * (b - a) ≤ max a b := by
  rcases le_total a b with h | h
  · rw [min_eq_left h, max_eq_right h]
    constructor <;> nlinarith
  · rw [min_eq_right h, max_eq_left h]
    constructor <;> nlinarith

theorem segDistSq_closest (x y : ℚ) (s : Segment) :
    ∃ px py, s.minX ≤ px ∧ px ≤ s.maxX ∧ s.minY ≤ py ∧ py ≤ s.maxY ∧
      segDistSq x y s = (x - px) * (x - px) + (y - py) * (y - py) := by
  rw [segDistSq, absSquareDistanceToLineSegment]
  have key : ∀ t : ℚ, 0 ≤ t → t ≤ 1 →
      ∃ px py, s.minX ≤ px ∧ px ≤ s.maxX ∧ s.minY ≤ py ∧ py ≤ s.maxY ∧
        (x - (s.x0 + t * (s.x1 - s.x0))) * (x - (s.x0 + t * (s.x1 - s.x0))) +
          (y - (s.y0 + t * (s.y1 - s.y0))) * (y - (s.y0 + t * (s.y1 - s.y0)))
          = (x - px) * (x - px) + (y - py) * (y - py) := by
    intro t h0 h1
    exact ⟨s.x0 + t * (s.x1 - s.x0), s.y0 + t * (s.y1 - s.y0),
      (convex_bound s.x0 s.x1 t h0 h1).1, (convex_bound s.x0 s.x1 t h0 h1).2,
      (convex_bound s.y0 s.y1 t h0 h1).1, (convex_bound s.y0 s.y1 t h0 h1).2, rfl⟩
  split
  · apply key
    · exact le_max_left 0 _
    · exact max_le (by norm_num) (min_le_left 1 _)
  · apply key 0 (le_refl 0) (by norm_num)

theorem segDistSq_ge_left (x y : ℚ) (s : Segment) (h : s.maxX ≤ x) :
    (x - s.maxX) * (x - s.maxX) ≤ segDistSq x y s := by
  obtain ⟨px, py, h1, h2, h3, h4, heq⟩ := segDistSq_closest x y s
  rw [heq]
  nlinarith [mul_self_nonneg (y - py), mul_nonneg (sub_nonneg.mpr h) (sub_nonneg.mpr h2),
    mul_self_nonneg (s.maxX - px)]

theorem segDistSq_ge_right (x y : ℚ) (s : Segment) (h : x ≤ s.minX) :
    (s.minX - x) * (s.minX - x) ≤ segDistSq x y s := by
  obtain ⟨px, py, h1, h2, h3, h4, heq⟩ := segDistSq_closest x y s
  rw [heq]
  nlinarith [mul_self_nonneg (y - py), mul_nonneg (sub_nonneg.mpr h) (sub_nonneg.mpr h1),
    mul_self_nonneg (px - s.minX)]

theorem segDistSq_ge_up (x y : ℚ) (s : Segment) (h : s.maxY ≤ y) :
    (y - s.maxY) * (y - s.maxY) ≤ segDistSq x y s := by
  obtain ⟨px, py, h1, h2, h3, h4, heq⟩ := segDistSq_closest x y s
  rw [heq]
  nlinarith [mul_self_nonneg (x - px), mul_nonneg (sub_nonneg.mpr h) (sub_nonneg.mpr h4),
    mul_self_nonneg (s.maxY - py)]

theorem segDistSq_ge_down (x y : ℚ) (s : Segment) (h : y ≤ s.minY) :
    (s.minY - y) * (s.minY - y) ≤ segDistSq x y s := by
  obtain ⟨px, py, h1, h2, h3, h4, heq⟩ := segDistSq_closest x y s
  rw [heq]
  nlinarith [mul_self_nonneg (x - px), mul_nonneg (sub_nonneg.mpr h) (sub_nonneg.mpr h3),
    mul_self_nonneg (py - s.minY)]

theorem xint_le_maxX (x y : ℚ) (s : Segment)
    (hc : (decide (s.y0 > y) != decide (s.y1 > y)) = true) :
    (s.x1 - s.x0) * (y - s.y0) / (s.y1 - s.y0) + s.x0 ≤ s.maxX := by
  have hcc : (s.y0 > y ∧ ¬ s.y1 > y) ∨ (¬ s.y0 > y ∧ s.y1 > y) := by
    by_cases h0 : s.y0 > y <;> by_cases h1 : s.y1 > y <;> simp [h0, h1] at hc ⊢ <;> tauto
  have ht01 : 0 ≤ (y - s.y0) / (s.y1 - s.y0) ∧ (y - s.y0) / (s.y1 - s.y0) ≤ 1 := by
    rcases hcc with ⟨h0, h1⟩ | ⟨h0, h1⟩
    · push_neg at h1
      have hd : s.y1 - s.y0 < 0 := by linarith
      constructor
      · rw [div_nonneg_iff]
        exact Or.inr ⟨by linarith, by linarith⟩
      · rw [div_le_one_iff]
        exact Or.inr (Or.inr ⟨hd, by linarith⟩)
    · push_neg at h0
      have hd : 0 < s.y1 - s.y0 := by linarith
      constructor
      · exact div_nonneg (by linarith) (by linarith)
      · rw [div_le_one hd]
        linarith
  have hxint : (s.x1 - s.x0) * (y - s.y0) / (s.y1 - s.y0)
      = (y - s.y0) / (s.y1 - s.y0) * (s.x1 - s.x0) := by
    ring
  rw [hxint]
  have hb := (convex_bound s.x0 s.x1 ((y - s.y0) / (s.y1 - s.y0)) ht01.1 ht01.2).2
  rw [Segment.maxX]
  linarith

theorem insertByMaxX_perm (s : Segment) : ∀ l, (insertByMaxX s l).Perm (s :: l)
  | [] => List.Perm.refl _
  | q :: rest => by
    rw [insertByMaxX]
    split
    · exact List.Perm.refl _
    · exact ((insertByMaxX_perm s rest).cons q).trans (List.Perm.swap s q rest)

theorem sortByMaxX_perm : ∀ l, (sortByMaxX l).Perm l
  | [] => List.Perm.refl _
  | a :: rest => by
    rw [sortByMaxX, List.foldr_cons]
    exact (insertByMaxX_perm a _).trans ((sortByMaxX_perm rest).cons a)

theorem insertByMaxX_sorted (s : Segment) :
    ∀ l, List.Pairwise (fun a b => a.maxX ≤ b.maxX) l →
      List.Pairwise (fun a b => a.maxX ≤ b.maxX) (insertByMaxX s l)
  | [], _ => List.pairwise_singleton _ _
  | q :: rest, h => by
    obtain ⟨hq, hrest⟩ := List.pairwise_cons.mp h
    rw [insertByMaxX]
    split
    · rename_i hle
      refine List.pairwise_cons.mpr ⟨?_, h⟩
      intro e he
      rcases List.mem_cons.mp he with rfl | he
      · exact hle
      · exact le_trans hle (hq e he)
    · rename_i hgt
      have hqs : q.maxX ≤ s.maxX := le_of_not_le hgt
      refine List.pairwise_cons.mpr ⟨?_, insertByMaxX_sorted s rest hrest⟩
      intro e he
      have hmem : e ∈ s :: rest := (insertByMaxX_perm s rest).mem_iff.mp he
      rcases List.mem_cons.mp hmem with rfl | hee
      · exact hqs
      · exact hq e hee

theorem sortByMaxX_sorted :
    ∀ l, List.Pairwise (fun a b => a.maxX ≤ b.maxX) (sortByMaxX l)
  | [] => List.Pairwise.nil
  | a :: rest => by
    rw [sortByMaxX, List.foldr_cons]
    exact insertByMaxX_sorted a _ (sortByMaxX_sorted rest)

theorem foldl_right_comm_perm {α β : Type} (f : β → α → β)
    (hc : ∀ b a1 a2, f (f b a1) a2 = f (f b a2) a1) :
    ∀ {l1 l2 : List α}, l1.Perm l2 → ∀ b, l1.foldl f b = l2.foldl f b := by
  intro l1 l2 h
  induction h with
  | nil => intro b; rfl
  | cons a h ih =>
    intro b
    rw [List.foldl_cons, List.foldl_cons, ih]
  | swap a b l =>
    intro c
    rw [List.foldl_cons, List.foldl_cons, List.foldl_cons, List.foldl_cons, hc]
  | trans h1 h2 ih1 ih2 =>
    intro b
    rw [ih1, ih2]

theorem minDistSqFrom_keep (x y : ℚ) (c : ℚ) :
    ∀ l, (∀ s ∈ l, c ≤ segDistSq x y s) → minDistSqFrom x y l (some c) = some c
  | [], _ => rfl
  | s :: rest, h => by
    show minDistSqFrom x y rest (some (min c (segDistSq x y s))) = some c
    rw [min_eq_left (h s (List.mem_cons_self _ _))]
    exact minDistSqFrom_keep x y c rest (fun e he => h e (List.mem_cons_of_mem _ he))

theorem findNSDLoop_eq (x y : ℚ) : ∀ (l : List Segment) (csq : Option ℚ),
    List.Pairwise (fun a b => b.maxX ≤ a.maxX) l →
    findNSDLoop x y l csq = minDistSqFrom x y l csq
  | [], _, _ => rfl
  | seg :: rest, csq, hp => by
    obtain ⟨hseg, hrest⟩ := List.pairwise_cons.mp hp
    rw [findNSDLoop]
    by_cases hbrk : sqrtLeB csq (x - seg.maxX) = true
    · rw [if_pos hbrk]
      cases csq with
      | none => exact absurd hbrk (by simp [sqrtLeB])
      | some c =>
        have hc : 0 ≤ x - seg.maxX ∧ c ≤ (x - seg.maxX) * (x - seg.maxX) := by
          simpa [sqrtLeB] using hbrk
        symm
        apply minDistSqFrom_keep
        intro e he
        have hemax : e.maxX ≤ seg.maxX := by
          rcases List.mem_cons.mp he with rfl | he
          · exact le_refl _
          · exact hseg e he
        have h2 := segDistSq_ge_left x y e (by linarith [hc.1])
        nlinarith [hc.1, hc.2, h2, mul_nonneg (sub_nonneg.mpr hemax) hc.1,
          mul_self_nonneg (seg.maxX - e.maxX)]
    · rw [if_neg hbrk]
      by_cases hbb : (sqrtGtB csq (seg.minX - x) && sqrtGtB csq (y - seg.maxY) &&
          sqrtGtB csq (seg.minY - y)) = true
      · rw [if_pos hbb]
        by_cases hlt : ltSqB (segDistSq x y seg) csq = true
        · rw [if_pos hlt]
          rw [findNSDLoop_eq x y rest (some (segDistSq x y seg)) hrest]
          cases csq with
          | none => rfl
          | some c =>
            have hd : segDistSq x y seg < c := by simpa [ltSqB] using hlt
            show minDistSqFrom x y rest (some (segDistSq x y seg))
              = minDistSqFrom x y rest (some (min c (segDistSq x y seg)))
            rw [min_eq_right (le_of_lt hd)]
        · rw [if_neg hlt]
          rw [findNSDLoop_eq x y rest csq hrest]
          cases csq with
          | none => exact absurd (by simp [ltSqB]) hlt
          | some c =>
            have hd : c ≤ segDistSq x y seg := by
              have := hlt
              simp only [ltSqB, decide_eq_true_eq] at this
              exact le_of_not_lt this
            show minDistSqFrom x y rest (some c)
              = minDistSqFrom x y rest (some (min c (segDistSq x y seg)))
            rw [min_eq_left hd]
      · rw [if_neg hbb]
        rw [findNSDLoop_eq x y rest csq hrest]
        cases csq with
        | none => exact absurd (by simp [sqrtGtB]) hbb
        | some c =>
          have hd : c ≤ segDistSq x y seg := by
            simp only [Bool.and_eq_true, not_and] at hbb
            by_cases h1 : sqrtGtB (some c) (seg.minX - x) = true
            · by_cases h2 : sqrtGtB (some c) (y - seg.maxY) = true
              · have h3 : ¬ sqrtGtB (some c) (seg.minY - y) = true := fun h3 =>
                  hbb ⟨h1, h2⟩ h3
                simp only [sqrtGtB, decide_eq_true_eq] at h3
                push_neg at h3
                have := segDistSq_ge_down x y seg (by linarith [h3.1])
                linarith [h3.2]
              · simp only [sqrtGtB, decide_eq_true_eq] at h2
                push_neg at h2
                have := segDistSq_ge_up x y seg (by linarith [h2.1])
                linarith [h2.2]
            · simp only [sqrtGtB, decide_eq_true_eq] at h1
              push_neg at h1
              have := segDistSq_ge_right x y seg (by linarith [h1.1])
              linarith [h1.2]
          show minDistSqFrom x y rest (some c)
            = minDistSqFrom x y rest (some (min c (segDistSq x y seg)))
          rw [min_eq_left hd]

theorem crosses_false_of_maxX_le (x y : ℚ) (s : Segment) (h : s.maxX ≤ x) :
    crossesB x y s = false := by
  rw [crossesB]
  by_cases hc : (decide (s.y0 > y) != decide (s.y1 > y)) = true
  · have hle := xint_le_maxX x y s hc
    have hlt : decide (x < (s.x1 - s.x0) * (y - s.y0) / (s.y1 - s.y0) + s.x0) = false := by
      simp only [decide_eq_false_iff_not]
      intro hlt
      linarith
    rw [hlt]
    simp
  · have hcf : (decide (s.y0 > y) != decide (s.y1 > y)) = false := by
      simpa using hc
    rw [hcf]
    simp

theorem foldl_crosses_id (x y : ℚ) :
    ∀ (l : List Segment), (∀ s ∈ l, crossesB x y s = false) →
      ∀ ins, l.foldl (fun ins s => if crossesB x y s then !ins else ins) ins = ins
  | [], _, _ => rfl
  | s :: rest, h, ins => by
    rw [List.foldl_cons, h s (List.mem_cons_self _ _)]
    show List.foldl _ (if (false = true) then !ins else ins) rest = ins
    rw [if_neg (by simp)]
    exact foldl_crosses_id x y rest (fun e he => h e (List.mem_cons_of_mem _ he)) ins

theorem isPointInPolyLoop_eq (x y : ℚ) : ∀ (l : List Segment) (ins : Bool),
    List.Pairwise (fun a b => b.maxX ≤ a.maxX) l →
    isPointInPolyLoop x y l ins
      = l.foldl (fun ins s => if crossesB x y s then !ins else ins) ins
  | [], _, _ => rfl
  | seg :: rest, ins, hp => by
    obtain ⟨hseg, hrest⟩ := List.pairwise_cons.mp hp
    rw [isPointInPolyLoop]
    by_cases hbrk : seg.maxX ≤ x
    · rw [if_pos hbrk]
      symm
      apply foldl_crosses_id
      intro e he
      apply crosses_false_of_maxX_le
      rcases List.mem_cons.mp he with rfl | he
      · exact hbrk
      · linarith [hseg e he]
    · rw [if_neg hbrk]
      by_cases hbb : seg.minY < y ∧ seg.maxY > y
      · rw [if_pos hbb]
        rw [isPointInPolyLoop_eq x y rest _ hrest, List.foldl_cons]
        have hcb : crossesB x y seg
            = ((decide (seg.y0 > y) != decide (seg.y1 > y)) &&
               decide (x < (seg.x1 - seg.x0) * (y - seg.y0) / (seg.y1 - seg.y0) + seg.x0)) := by
          rw [crossesB]
          simp [hbb.1, hbb.2]
        rw [hcb]
      · rw [if_neg hbb]
        rw [isPointInPolyLoop_eq x y rest _ hrest, List.foldl_cons]
        have hcb : crossesB x y seg = false := by
          rw [crossesB]
          rcases not_and_or.mp hbb with h | h <;> simp [h]
        rw [hcb]
        show List.foldl _ ins rest = List.foldl _ (if (false = true) then !ins else ins) rest
        rw [if_neg (by simp)]

/-- C7 (amended): `findNearestSignedDistance` takes only the query point —
the `maxRadius` argument passed at its call site is silently dropped — and
returns the uncapped result: the sign flag is the plain ray cast over all
stored segments and the magnitude is the true minimum distance to any stored
segment (as its square; no clamping to any radius occurs). -/
theorem findNearestSignedDistance_eq (segments : List Segment) (x y : ℚ) :
    findNearestSignedDistance segments x y
      = (rayCastInside segments x y, minDistSqNaive segments x y) := by
  have hdesc : List.Pairwise (fun a b => b.maxX ≤ a.maxX)
      (sortByMaxX segments).reverse :=
    List.pairwise_reverse.mpr (sortByMaxX_sorted segments)
  have hperm : ((sortByMaxX segments).reverse).Perm segments :=
    (List.reverse_perm _).trans (sortByMaxX_perm segments)
  rw [findNearestSignedDistance]
  rw [Prod.mk.injEq]
  constructor
  · rw [isPointInPolyLoop_eq x y _ false hdesc]
    exact foldl_right_comm_perm _
      (fun b a1 a2 => by
        cases hc1 : crossesB x y a1 <;> cases hc2 : crossesB x y a2 <;>
          simp [hc1, hc2])
      hperm false
  · rw [findNSDLoop_eq x y _ none hdesc]
    rw [minDistSqNaive]
    show minDistSqFrom x y (sortByMaxX segments).reverse none = _
    rw [minDistSqFrom, minDistSqFrom]
    exact foldl_right_comm_perm _
      (fun b a1 a2 => by
        cases b with
        | none =>
          show some (min _ _) = some (min _ _)
          rw [min_comm]
        | some c =>
          show some (min (min c _) _) = some (min (min c _) _)
          rw [min_right_comm])
      hperm none

/-- C7 counterexample to the spec's `maxRadius` cap: for the single segment
from `(0,0)` to `(0,2)` and the query point `(10,1)` — where `generateSDF`
would pass a `maxRadius` such as 1 — the returned magnitude is the full
distance 10 (squared distance 100 > 1²), not capped at the radius; the
function has no third parameter at all. -/
theorem findNearestSignedDistance_uncapped :
    (findNearestSignedDistance [⟨0, 0, 0, 2⟩] 10 1).1 = false ∧
    (findNearestSignedDistance [⟨0, 0, 0, 2⟩] 10 1).2 = some 100 ∧
    sqrtGtB (some 100) 1 = true := by
  refine ⟨rfl, ?_, by norm_num [sqrtGtB]⟩
  norm_num [findNearestSignedDistance, sortByMaxX, insertByMaxX, findNSDLoop,
    sqrtLeB, sqrtGtB, ltSqB, segDistSq, absSquareDistanceToLineSegment,
    Segment.minX, Segment.minY, Segment.maxX, Segment.maxY]


end TroikaText
